import Mathlib

/-!
# STM32PLC LCD driver: rasterisation and frame-buffer addressing

A shallow embedding of `IAR/PLC/Src/lcd.c` and the properties of its drawing
primitives; the two functions of `IAR/PLC/Src/timer13.c` are embedded with the
calls of the module.  C objects of type `uint16_t`/`uint32_t` are natural numbers,
`int16_t`/`int32_t` objects are integers; every conversion that can change a
value is written out (`toInt16`, `toUInt16`, `% 2 ^ 32`).  Loops carry a fuel
argument and return `none` when the fuel runs out, so a result `some _` is a
terminating run of the C loop.
-/

namespace STM32PLC

/-! ## Machine integers -/

/-- Conversion of an `int` value to `int16_t`: two's complement wrap-around. -/
def toInt16 (z : Int) : Int := (z + 32768) % 65536 - 32768

/-- Conversion of an integer value to `int32_t`: two's complement wrap-around. -/
def toInt32 (z : Int) : Int := (z + 2147483648) % 4294967296 - 2147483648

/-- Conversion of an integer value to `uint16_t`. -/
def toUInt16 (z : Int) : Nat := (z % 65536).toNat

/-- Conversion of an integer value to `uint32_t`. -/
def toUInt32 (z : Int) : Nat := (z % 4294967296).toNat

/-- The macro `ABS(X)  ((X) > 0 ? (X) : -(X))`, evaluated on `int`. -/
def ABS (X : Int) : Int := if X > 0 then X else -X

/-- A pixel position as passed to a pixel routine: `(Xpos, Ypos)`, both `uint16_t`. -/
abbrev Pixel := Nat × Nat

/-! ## `LCD_DrawLine` -/

/-- The loop-invariant locals of `LCD_DrawLine` (all `int16_t`). -/
structure LineCfg where
  xinc1 : Int
  xinc2 : Int
  yinc1 : Int
  yinc2 : Int
  den : Int
  num_add : Int
  num_pixels : Int
deriving DecidableEq, Repr

/-- The locals of `LCD_DrawLine` that change in its `for` loop (all `int16_t`). -/
structure LineVars where
  x : Int
  y : Int
  num : Int
  curpixel : Int
deriving DecidableEq, Repr

/-- Lines 642-686 of `lcd.c`: the set-up of `LCD_DrawLine` before its loop.
`x1 y1 x2 y2` are the `uint16_t` arguments.  `deltax / 2` is C division
(truncating); its result always fits `int16_t`. -/
def lineInit (x1 y1 x2 y2 : Nat) : LineCfg × LineVars :=
  let deltax := toInt16 (ABS ((x2 : Int) - (x1 : Int)))
  let deltay := toInt16 (ABS ((y2 : Int) - (y1 : Int)))
  let x := toInt16 (x1 : Int)
  let y := toInt16 (y1 : Int)
  let xinc : Int := if x2 ≥ x1 then 1 else -1
  let yinc : Int := if y2 ≥ y1 then 1 else -1
  if deltax ≥ deltay then
    ({ xinc1 := 0, xinc2 := xinc, yinc1 := yinc, yinc2 := 0,
       den := deltax, num_add := deltay, num_pixels := deltax },
     { x := x, y := y, num := Int.tdiv deltax 2, curpixel := 0 })
  else
    ({ xinc1 := xinc, xinc2 := 0, yinc1 := 0, yinc2 := yinc,
       den := deltay, num_add := deltax, num_pixels := deltay },
     { x := x, y := y, num := Int.tdiv deltay 2, curpixel := 0 })

/-- Lines 693-701 of `lcd.c` and the `curpixel++` of the loop header: what one
iteration of the `for` loop does to the locals after the pixel is drawn. -/
def lineStep (c : LineCfg) (v : LineVars) : LineVars :=
  let num := toInt16 (v.num + c.num_add)
  if num ≥ c.den then
    { x := toInt16 (toInt16 (v.x + c.xinc1) + c.xinc2),
      y := toInt16 (toInt16 (v.y + c.yinc1) + c.yinc2),
      num := toInt16 (num - c.den),
      curpixel := toInt16 (v.curpixel + 1) }
  else
    { x := toInt16 (v.x + c.xinc2),
      y := toInt16 (v.y + c.yinc2),
      num := num,
      curpixel := toInt16 (v.curpixel + 1) }

/-- The `for (curpixel = 0; curpixel <= num_pixels; curpixel++)` loop of
`LCD_DrawLine` (lines 688-702): the positions passed to `Fast_LCD_DrawPixel`,
in call order.  The `int16_t` locals `x`, `y` are converted to the `uint16_t`
parameters of the callee. -/
def lineLoop (c : LineCfg) : Nat → LineVars → Option (List Pixel)
  | 0, _ => none
  | fuel + 1, v =>
    if v.curpixel ≤ c.num_pixels then
      (lineLoop c fuel (lineStep c v)).map (fun l => (toUInt16 v.x, toUInt16 v.y) :: l)
    else
      some []

/-- Function `LCD_DrawLine(x1, y1, x2, y2)` as the sequence of `(Xpos, Ypos)` arguments of
its calls of `Fast_LCD_DrawPixel`; every call passes the colour
`DrawProp[ActiveLayer].TextColor`. -/
def LCD_DrawLine_calls (fuel x1 y1 x2 y2 : Nat) : Option (List Pixel) :=
  lineLoop (lineInit x1 y1 x2 y2).1 fuel (lineInit x1 y1 x2 y2).2

/-! ### Notions used to state the properties of the line loop -/

/-- The position passed to `Fast_LCD_DrawPixel` in loop state `v`. -/
def linePixel (v : LineVars) : Pixel := (toUInt16 v.x, toUInt16 v.y)

/-- The distance `|b - a|` of two coordinates. -/
def absDiff (a b : Nat) : Nat := if a ≤ b then b - a else a - b

/-- Set-up values for which no `int16_t` operation of the loop can wrap. -/
structure LineGood (c : LineCfg) (v0 : LineVars) : Prop where
  x0 : 0 ≤ v0.x ∧ v0.x ≤ 16383
  y0 : 0 ≤ v0.y ∧ v0.y ≤ 16383
  add : 0 ≤ c.num_add ∧ c.num_add ≤ c.den ∧ c.den ≤ 16383
  num0 : 0 ≤ v0.num ∧ v0.num ≤ c.den ∧ (0 < c.den → v0.num < c.den)
  xi : -1 ≤ c.xinc1 ∧ c.xinc1 ≤ 1 ∧ -1 ≤ c.xinc2 ∧ c.xinc2 ≤ 1 ∧ (c.xinc1 = 0 ∨ c.xinc2 = 0)
  yi : -1 ≤ c.yinc1 ∧ c.yinc1 ≤ 1 ∧ -1 ≤ c.yinc2 ∧ c.yinc2 ≤ 1 ∧ (c.yinc1 = 0 ∨ c.yinc2 = 0)

/-- State `v` is what `k` iterations make of `v0`, `m` of them with a carry of the
error term `num`. -/
structure LineInv (c : LineCfg) (v0 : LineVars) (k : Nat) (m : Int) (v : LineVars) : Prop where
  cur : v.curpixel = v0.curpixel + k
  m_range : 0 ≤ m ∧ m ≤ k
  x_eq : v.x = v0.x + k * c.xinc2 + m * c.xinc1
  y_eq : v.y = v0.y + k * c.yinc2 + m * c.yinc1
  x_range : v0.x - k ≤ v.x ∧ v.x ≤ v0.x + k
  y_range : v0.y - k ≤ v.y ∧ v.y ≤ v0.y + k
  num_eq : v.num + c.den * m = v0.num + k * c.num_add
  num_range : 0 ≤ v.num ∧ v.num ≤ c.den ∧ (0 < c.den → v.num < c.den)

/-- The coordinate `n` steps away from `a` in the direction of `b`. -/
def towards (a b n : Nat) : Nat := if a ≤ b then a + n else a - n

/-- Number of minor-axis steps taken before the `k`-th pixel of a line whose
dominant difference is `D` and whose other difference is `d`. -/
def lineMinor (D d k : Nat) : Nat := (D / 2 + k * d) / D

/-- The `k`-th pixel of the line from `(x1, y1)` to `(x2, y2)`. -/
def linePoint (x1 y1 x2 y2 k : Nat) : Pixel :=
  if absDiff y1 y2 ≤ absDiff x1 x2 then
    (towards x1 x2 k, towards y1 y2 (lineMinor (absDiff x1 x2) (absDiff y1 y2) k))
  else
    (towards x1 x2 (lineMinor (absDiff y1 y2) (absDiff x1 x2) k), towards y1 y2 k)

/-! ## Memory -/

/-- Byte-addressed memory (little-endian words, as on the Cortex-M7). -/
abbrev Mem := Nat → Fin 256

/-- Byte number `i` of the value `v`, byte 0 being the least significant. -/
def byteOf (v i : Nat) : Fin 256 := ⟨v / 256 ^ i % 256, Nat.mod_lt _ (by decide)⟩

/-- The access `*(uint8_t*) a` used as a value. -/
def read8 (m : Mem) (a : Nat) : Nat := (m a).val

/-- The access `*(uint16_t*) a` used as a value. -/
def read16 (m : Mem) (a : Nat) : Nat := (m a).val + 256 * (m (a + 1)).val

/-- The access `*(uint32_t*) a` used as a value. -/
def read32 (m : Mem) (a : Nat) : Nat :=
  (m a).val + 256 * (m (a + 1)).val + 65536 * (m (a + 2)).val + 16777216 * (m (a + 3)).val

/-- The store `*(uint16_t*) a = v`. -/
def write16 (m : Mem) (a v : Nat) : Mem := fun i =>
  if i = a then byteOf v 0 else if i = a + 1 then byteOf v 1 else m i

/-- The store `*(uint32_t*) a = v`. -/
def write32 (m : Mem) (a v : Nat) : Mem := fun i =>
  if i = a then byteOf v 0 else if i = a + 1 then byteOf v 1
  else if i = a + 2 then byteOf v 2 else if i = a + 3 then byteOf v 3 else m i

/-! ## Driver state -/

/-- Modelled from the spec: the pixel formats `LTDC_PIXEL_FORMAT_*` a layer's
`PixelFormat` is compared with.  The HAL header that numbers them is not part of
the sources; the driver only tests them for equality. -/
inductive PixelFormat where
  | ARGB8888 | RGB888 | RGB565 | ARGB1555 | ARGB4444 | L8 | AL44 | AL88
deriving DecidableEq, Repr

/-- The fields of `hLtdcHandler.LayerCfg[i]` the driver reads. -/
structure LTDC_LayerCfgTypeDef where
  PixelFormat : PixelFormat
  FBStartAdress : Nat
  ImageWidth : Nat
  ImageHeight : Nat

/-- A font: `sFONT` with its glyph table. -/
structure sFONT where
  table : List Nat
  Width : Nat
  Height : Nat

/-- One entry of `DrawProp[]`. -/
structure LCD_DrawPropTypeDef where
  TextColor : Nat
  BackColor : Nat
  pFont : sFONT

/-- Modelled from the spec: the values of `hDma2dHandler.Init.Mode` the driver
assigns (constants of the HAL header, which is not part of the sources). -/
inductive DMA2D_Mode where
  | DMA2D_M2M | DMA2D_M2M_PFC | DMA2D_R2M
deriving DecidableEq, Repr

/-- Modelled from the spec: the values of `hDma2dHandler.Init.ColorMode` the
driver assigns (constants of the HAL header, which is not part of the sources). -/
inductive DMA2D_ColorMode where
  | DMA2D_ARGB8888 | DMA2D_RGB565
deriving DecidableEq, Repr

/-- The fields of `hDma2dHandler.Init` the driver writes. -/
structure DMA2D_InitTypeDef where
  Mode : DMA2D_Mode
  ColorMode : DMA2D_ColorMode
  OutputOffset : Nat

/-- Modelled from the spec: the accelerated block-operation collaborator (the
HAL DMA2D driver), which is not part of the sources.  `initOK`, `configOK` and
`startOK` say whether `HAL_DMA2D_Init`, `HAL_DMA2D_ConfigLayer` and
`HAL_DMA2D_Start` return `HAL_OK`; `toRGB565` is the value the engine stores for
a colour when its output colour mode is RGB565. -/
structure DMA2D_Collaborator where
  initOK : Bool
  configOK : Bool
  startOK : Bool
  toRGB565 : Nat → Nat

/-- The globals the drawing routines read and write.  `ProjectionLayerAddress`,
`LayerOfView`, `DisplayWIDTH` and `LAYERS_SIZE` are declared in headers that are
not part of the sources; their values are left open. -/
structure LCD where
  ActiveLayer : Nat
  DrawProp : Nat → LCD_DrawPropTypeDef
  LayerCfg : Nat → LTDC_LayerCfgTypeDef
  dma2dInit : DMA2D_InitTypeDef
  dma2d : DMA2D_Collaborator
  ProjectionLayerAddress : Nat → Nat
  LayerOfView : Nat
  DisplayWIDTH : Nat
  LAYERS_SIZE : Nat
  mem : Mem

/-- Function `LCD_GetXSize` (line 166). -/
def LCD_GetXSize (s : LCD) : Nat := (s.LayerCfg s.ActiveLayer).ImageWidth

/-- Function `LCD_GetYSize` (line 175). -/
def LCD_GetYSize (s : LCD) : Nat := (s.LayerCfg s.ActiveLayer).ImageHeight

/-- Function `LCD_SetTextColor` (line 370). -/
def LCD_SetTextColor (s : LCD) (Color : Nat) : LCD :=
  let d := s.DrawProp s.ActiveLayer
  { s with DrawProp := Function.update s.DrawProp s.ActiveLayer { d with TextColor := Color } }

/-! ## Single pixels -/

/-- The address `FBStartAdress + (k*(Ypos*LCD_GetXSize() + Xpos))` of the active
layer, in `uint32_t` arithmetic. -/
def layerAddress (s : LCD) (k Xpos Ypos : Nat) : Nat :=
  ((s.LayerCfg s.ActiveLayer).FBStartAdress + k * (Ypos * LCD_GetXSize s + Xpos)) % 2 ^ 32

/-- Function `LCD_ReadPixel` (lines 428-456).  Every branch computes its address with the
factor 2. -/
def LCD_ReadPixel (s : LCD) (Xpos Ypos : Nat) : Nat :=
  let fmt := (s.LayerCfg s.ActiveLayer).PixelFormat
  if fmt = PixelFormat.ARGB8888 then
    read32 s.mem (layerAddress s 2 Xpos Ypos)
  else if fmt = PixelFormat.RGB888 then
    read32 s.mem (layerAddress s 2 Xpos Ypos) &&& 0x00FFFFFF
  else if fmt = PixelFormat.RGB565 ∨ fmt = PixelFormat.ARGB4444 ∨ fmt = PixelFormat.AL88 then
    read16 s.mem (layerAddress s 2 Xpos Ypos)
  else
    read8 s.mem (layerAddress s 2 Xpos Ypos)

/-- Function `LCD_DrawPixel` (lines 899-910). -/
def LCD_DrawPixel (s : LCD) (Xpos Ypos RGB_Code : Nat) : LCD :=
  if (s.LayerCfg s.ActiveLayer).PixelFormat = PixelFormat.RGB565 then
    { s with mem := write16 s.mem (layerAddress s 2 Xpos Ypos) (RGB_Code % 2 ^ 16) }
  else
    { s with mem := write32 s.mem (layerAddress s 4 Xpos Ypos) RGB_Code }

/-- The address `ProjectionLayerAddress[LayerOfView] + 4 * (Ypos * DisplayWIDTH + Xpos)`
of `Fast_LCD_DrawPixel`, computed in 32 bits. -/
def fastAddress (s : LCD) (Xpos Ypos : Nat) : Nat :=
  (s.ProjectionLayerAddress s.LayerOfView + 4 * (Ypos * s.DisplayWIDTH + Xpos)) % 2 ^ 32

/-- Function `Fast_LCD_DrawPixel` (lines 913-920).  Both bounds of the window test are
`uint32_t` expressions: `base - 1` is `base + 2^32 - 1` reduced mod `2^32`. -/
def Fast_LCD_DrawPixel (s : LCD) (Xpos Ypos ARGB_Code : Nat) : LCD :=
  let base := s.ProjectionLayerAddress s.LayerOfView
  let addressDraw := fastAddress s Xpos Ypos
  if addressDraw > (base + 2 ^ 32 - 1) % 2 ^ 32 then
    if addressDraw < (base + s.LAYERS_SIZE) % 2 ^ 32 then
      { s with mem := write32 s.mem addressDraw ARGB_Code }
    else s
  else s

/-- The effect of a sequence of `Fast_LCD_DrawPixel` calls made with the colour
`DrawProp[ActiveLayer].TextColor`. -/
def drawPixels (s : LCD) (l : List Pixel) : LCD :=
  l.foldl (fun t p => Fast_LCD_DrawPixel t p.1 p.2 (t.DrawProp t.ActiveLayer).TextColor) s

/-- Function `LCD_DrawLine` (lines 636-703) on the driver state. -/
def LCD_DrawLine (fuel : Nat) (s : LCD) (x1 y1 x2 y2 : Nat) : Option LCD :=
  (LCD_DrawLine_calls fuel x1 y1 x2 y2).map (drawPixels s)

/-! ## Accelerated fill -/

/-- Destination addresses of a block of `Height` rows of `Width` pixels of `bpp`
bytes with a row pitch of `Width + OutputOffset` pixels, row by row. -/
def blockAddresses (bpp DstAddress Width Height OutputOffset : Nat) : List Nat :=
  (List.range Height).flatMap fun r =>
    (List.range Width).map fun c => DstAddress + bpp * (r * (Width + OutputOffset) + c)

/-- Modelled from the spec: a started and completed register-to-memory transfer
of the DMA2D engine (`HAL_DMA2D_Start` followed by `HAL_DMA2D_PollForTransfer`),
which is not part of the sources: `Height` rows of `Width` pixels are set to the
colour `pdata`, the row pitch being `Width + OutputOffset` pixels.  Pixels are 32
bits wide in output colour mode ARGB8888 and 16 bits wide in RGB565. -/
def HAL_DMA2D_Transfer (s : LCD) (pdata DstAddress Width Height : Nat) : Mem :=
  match s.dma2dInit.ColorMode with
  | DMA2D_ColorMode.DMA2D_ARGB8888 =>
    (blockAddresses 4 DstAddress Width Height s.dma2dInit.OutputOffset).foldl
      (fun m a => write32 m a pdata) s.mem
  | DMA2D_ColorMode.DMA2D_RGB565 =>
    (blockAddresses 2 DstAddress Width Height s.dma2dInit.OutputOffset).foldl
      (fun m a => write16 m a (s.dma2d.toRGB565 pdata)) s.mem

/-- Function `LL_FillBuffer` (lines 1309-1337).  The parameter `LayerIndex` only reaches
`HAL_DMA2D_ConfigLayer`. -/
def LL_FillBuffer (s : LCD) (_LayerIndex pDst xSize ySize OffLine ColorIndex : Nat) : LCD :=
  let s1 : LCD := { s with dma2dInit :=
    { Mode := DMA2D_Mode.DMA2D_R2M,
      ColorMode :=
        if (s.LayerCfg s.ActiveLayer).PixelFormat = PixelFormat.RGB565 then
          DMA2D_ColorMode.DMA2D_RGB565
        else DMA2D_ColorMode.DMA2D_ARGB8888,
      OutputOffset := OffLine } }
  if s1.dma2d.initOK then
    if s1.dma2d.configOK then
      if s1.dma2d.startOK then
        { s1 with mem := HAL_DMA2D_Transfer s1 ColorIndex pDst xSize ySize }
      else s1
    else s1
  else s1

/-- The start address computed by `LCD_DrawHLine`, `LCD_DrawVLine` and
`LCD_FillRect`: factor 2 for an RGB565 layer, factor 4 otherwise; here the
product is `LCD_GetXSize()*Ypos`. -/
def lineAddress (s : LCD) (Xpos Ypos : Nat) : Nat :=
  if (s.LayerCfg s.ActiveLayer).PixelFormat = PixelFormat.RGB565 then
    ((s.LayerCfg s.ActiveLayer).FBStartAdress + 2 * (LCD_GetXSize s * Ypos + Xpos)) % 2 ^ 32
  else
    ((s.LayerCfg s.ActiveLayer).FBStartAdress + 4 * (LCD_GetXSize s * Ypos + Xpos)) % 2 ^ 32

/-- Function `LCD_DrawHLine` (lines 585-601). -/
def LCD_DrawHLine (s : LCD) (Xpos Ypos Length : Nat) : LCD :=
  LL_FillBuffer s s.ActiveLayer (lineAddress s Xpos Ypos) Length 1 0
    (s.DrawProp s.ActiveLayer).TextColor

/-- Function `LCD_DrawVLine` (lines 610-626); `LCD_GetXSize() - 1` is `uint32_t` arithmetic. -/
def LCD_DrawVLine (s : LCD) (Xpos Ypos Length : Nat) : LCD :=
  LL_FillBuffer s s.ActiveLayer (lineAddress s Xpos Ypos) 1 Length
    ((LCD_GetXSize s + 2 ^ 32 - 1) % 2 ^ 32) (s.DrawProp s.ActiveLayer).TextColor

/-- Function `LCD_DrawRect` (lines 713-722); the sums are converted to the `uint16_t`
parameters of the callees. -/
def LCD_DrawRect (s : LCD) (Xpos Ypos Width Height : Nat) : LCD :=
  let s1 := LCD_DrawHLine s Xpos Ypos Width
  let s2 := LCD_DrawHLine s1 Xpos ((Ypos + Height) % 65536) Width
  let s3 := LCD_DrawVLine s2 Xpos Ypos Height
  LCD_DrawVLine s3 ((Xpos + Width) % 65536) Ypos Height

/-- Function `LCD_FillRect` (lines 989-1007); `LCD_GetXSize() - Width` is `uint32_t`
arithmetic. -/
def LCD_FillRect (s : LCD) (Xpos Ypos Width Height : Nat) : LCD :=
  let s1 := LCD_SetTextColor s (s.DrawProp s.ActiveLayer).TextColor
  LL_FillBuffer s1 s1.ActiveLayer (lineAddress s1 Xpos Ypos) Width Height
    ((LCD_GetXSize s1 + 2 ^ 32 - Width) % 2 ^ 32) (s1.DrawProp s1.ActiveLayer).TextColor

/-- The 32-bit pixel `(x, y)` of the active layer's frame buffer. -/
def pixel32 (s : LCD) (x y : Nat) : Nat :=
  read32 s.mem ((s.LayerCfg s.ActiveLayer).FBStartAdress + 4 * (LCD_GetXSize s * y + x))

/-! ## `LCD_DrawCircle` -/

/-- The locals of `LCD_DrawCircle`: `decision` is `int32_t`, `current_x` and
`current_y` are `uint32_t`. -/
structure CircleVars where
  decision : Int
  current_x : Nat
  current_y : Nat
deriving DecidableEq, Repr

/-- Lines 737-739: `decision = 3 - (Radius << 1)`, computed in `int` from the
`uint16_t` argument. -/
def circleInit (Radius : Nat) : CircleVars :=
  { decision := 3 - ((Radius : Int) * 2), current_x := 0, current_y := Radius }

/-- A `uint32_t` sum or difference passed to a `uint16_t` parameter. -/
def toParam16 (z : Int) : Nat := toUInt16 (toUInt32 z : Int)

/-- Lines 743-757: the eight positions passed to `Fast_LCD_DrawPixel` in one
iteration, in call order. -/
def circlePixels (Xpos Ypos : Nat) (v : CircleVars) : List Pixel :=
  [ (toParam16 ((Xpos : Int) + v.current_x), toParam16 ((Ypos : Int) - v.current_y)),
    (toParam16 ((Xpos : Int) - v.current_x), toParam16 ((Ypos : Int) - v.current_y)),
    (toParam16 ((Xpos : Int) + v.current_y), toParam16 ((Ypos : Int) - v.current_x)),
    (toParam16 ((Xpos : Int) - v.current_y), toParam16 ((Ypos : Int) - v.current_x)),
    (toParam16 ((Xpos : Int) + v.current_x), toParam16 ((Ypos : Int) + v.current_y)),
    (toParam16 ((Xpos : Int) - v.current_x), toParam16 ((Ypos : Int) + v.current_y)),
    (toParam16 ((Xpos : Int) + v.current_y), toParam16 ((Ypos : Int) + v.current_x)),
    (toParam16 ((Xpos : Int) - v.current_y), toParam16 ((Ypos : Int) + v.current_x)) ]

/-- Lines 759-768: the update of the locals.  The right-hand sides of `+=` are
`uint32_t` expressions, the sums are converted back to `int32_t`; `<< 2` is a
multiplication by 4. -/
def circleStep (v : CircleVars) : CircleVars :=
  if v.decision < 0 then
    { decision := toInt32 (v.decision + (toUInt32 ((v.current_x : Int) * 4 + 6) : Int)),
      current_x := toUInt32 ((v.current_x : Int) + 1),
      current_y := v.current_y }
  else
    { decision := toInt32 (v.decision +
        (toUInt32 (((v.current_x : Int) - (v.current_y : Int)) * 4 + 10) : Int)),
      current_x := toUInt32 ((v.current_x : Int) + 1),
      current_y := toUInt32 ((v.current_y : Int) - 1) }

/-- The loop `while (current_x <= current_y)` of `LCD_DrawCircle` (lines 741-769):
the positions passed to `Fast_LCD_DrawPixel`, in call order. -/
def circleLoop (Xpos Ypos : Nat) : Nat → CircleVars → Option (List Pixel)
  | 0, _ => none
  | fuel + 1, v =>
    if v.current_x ≤ v.current_y then
      (circleLoop Xpos Ypos fuel (circleStep v)).map (fun l => circlePixels Xpos Ypos v ++ l)
    else
      some []

/-- Function `LCD_DrawCircle(Xpos, Ypos, Radius)` as the sequence of `(Xpos, Ypos)`
arguments of its calls of `Fast_LCD_DrawPixel`; every call passes the colour
`DrawProp[ActiveLayer].TextColor`. -/
def LCD_DrawCircle_calls (fuel Xpos Ypos Radius : Nat) : Option (List Pixel) :=
  circleLoop Xpos Ypos fuel (circleInit Radius)

/-- Some pixel of `l` lies at offset `(a, b)` from `(Xpos, Ypos)`. -/
def emittedAt (l : List Pixel) (Xpos Ypos : Nat) (a b : Int) : Prop :=
  ∃ p ∈ l, (p.1 : Int) = (Xpos : Int) + a ∧ (p.2 : Int) = (Ypos : Int) + b

/-- The offset `(a, b)` is one of the eight images of `(cx, cy)` under the
symmetries of the square. -/
def inOctants (cx cy : Nat) (a b : Int) : Prop :=
  ((a = cx ∨ a = -(cx : Int)) ∧ (b = cy ∨ b = -(cy : Int))) ∨
  ((a = cy ∨ a = -(cy : Int)) ∧ (b = cx ∨ b = -(cx : Int)))

/-! ## Specification-side notions and sample states -/

/-- Bytes per pixel as the specification states them: 4 for ARGB8888 and
RGB888, 2 for RGB565, ARGB4444 and AL88, 1 for every other format. -/
def specBytesPerPixel : PixelFormat → Nat
  | PixelFormat.ARGB8888 => 4
  | PixelFormat.RGB888 => 4
  | PixelFormat.RGB565 => 2
  | PixelFormat.ARGB4444 => 2
  | PixelFormat.AL88 => 2
  | _ => 1

/-- Bytes per pixel as `LCD_DrawPixel` takes them: 2 for RGB565, 4 otherwise. -/
def drawBytesPerPixel (fmt : PixelFormat) : Nat :=
  if fmt = PixelFormat.RGB565 then 2 else 4

/-- The address `stride*Ypos + bytesPerPixel*Xpos` bytes after the start of the
active layer's frame buffer, with `stride = width*bytesPerPixel`, for a table
`bpp` of bytes per pixel; 32-bit address arithmetic. -/
def pixelAddress (bpp : PixelFormat → Nat) (s : LCD) (Xpos Ypos : Nat) : Nat :=
  ((s.LayerCfg s.ActiveLayer).FBStartAdress +
    ((s.LayerCfg s.ActiveLayer).ImageWidth * bpp (s.LayerCfg s.ActiveLayer).PixelFormat * Ypos +
      bpp (s.LayerCfg s.ActiveLayer).PixelFormat * Xpos)) % 2 ^ 32

/-- A state for concrete evaluations: one layer configuration of format `fmt`
at address `fb` of `width` x `height` pixels, text colour `textColor`, a
projection layer at `base` of the same size, a DMA2D engine that succeeds, and
every memory byte equal to `fill`. -/
def sampleLCD (fmt : PixelFormat) (fb width height textColor base : Nat) (fill : Fin 256) : LCD :=
  { ActiveLayer := 0
    DrawProp := fun _ =>
      { TextColor := textColor, BackColor := 0, pFont := { table := [], Width := 0, Height := 0 } }
    LayerCfg := fun _ =>
      { PixelFormat := fmt, FBStartAdress := fb, ImageWidth := width, ImageHeight := height }
    dma2dInit :=
      { Mode := DMA2D_Mode.DMA2D_M2M, ColorMode := DMA2D_ColorMode.DMA2D_ARGB8888,
        OutputOffset := 0 }
    dma2d := { initOK := true, configOK := true, startOK := true, toRGB565 := fun c => c % 65536 }
    ProjectionLayerAddress := fun _ => base
    LayerOfView := 0
    DisplayWIDTH := width
    LAYERS_SIZE := 4 * width * height
    mem := fun _ => fill }
/-! ## Polygons and triangles -/

/-- A polygon vertex: the structure `Point` with its `int16_t` fields `X` and `Y`. -/
structure Point where
  X : Int
  Y : Int
deriving DecidableEq, Repr

/-- The arguments `(x1, y1, x2, y2)` of a call of `LCD_DrawLine`. -/
abbrev LineCall := Nat × Nat × Nat × Nat

/-- The arguments `(x1, x2, x3, y1, y2, y3)` of a call of `FillTriangle`. -/
abbrev TriangleCall := Nat × Nat × Nat × Nat × Nat × Nat

/-- The loop `while(--PointCount)` of `LCD_DrawPolygon` (lines 849-855): the calls of
`LCD_DrawLine` it makes.  `Points` is the array the pointer was passed for, `k`
the number of `Points++` executed so far; `x` and `y` are `int16_t` locals,
`PointCount` is `uint16_t`. -/
def polygonLoop (Points : Int → Point) : Nat → Nat → Int → Option (List LineCall)
  | 0, _, _ => none
  | fuel + 1, PointCount, k =>
    if (PointCount + 65535) % 65536 ≠ 0 then
      (polygonLoop Points fuel ((PointCount + 65535) % 65536) (k + 1)).map (fun l =>
        (toUInt16 (toInt16 (Points k).X), toUInt16 (toInt16 (Points k).Y),
          toUInt16 (Points (k + 1)).X, toUInt16 (Points (k + 1)).Y) :: l)
    else
      some []

/-- Function `LCD_DrawPolygon` (lines 838-856) as the sequence of its calls of
`LCD_DrawLine`. -/
def LCD_DrawPolygon_calls (fuel : Nat) (Points : Int → Point) (PointCount : Nat) :
    Option (List LineCall) :=
  if PointCount < 2 then
    some []
  else
    (polygonLoop Points fuel PointCount 0).map (fun l =>
      (toUInt16 (Points 0).X, toUInt16 (Points 0).Y,
        toUInt16 (Points ((PointCount : Int) - 1)).X,
        toUInt16 (Points ((PointCount : Int) - 1)).Y) :: l)

/-- The effect of a sequence of `LCD_DrawLine` calls on the driver state. -/
def drawLines (fuel : Nat) (s : LCD) : List LineCall → Option LCD
  | [] => some s
  | c :: cs => (LCD_DrawLine fuel s c.1 c.2.1 c.2.2.1 c.2.2.2).bind (fun t => drawLines fuel t cs)

/-- Function `LCD_DrawPolygon` (lines 838-856) on the driver state. -/
def LCD_DrawPolygon (fuel : Nat) (s : LCD) (Points : Int → Point) (PointCount : Nat) :
    Option LCD :=
  (LCD_DrawPolygon_calls fuel Points PointCount).bind (drawLines fuel s)

/-- Lines 1237-1281 of `lcd.c`: the set-up of `FillTriangle` before its loop, for
the edge from `(x1, y1)` to `(x2, y2)`.  The locals have the names and types of
those of `LCD_DrawLine`. -/
def triangleInit (x1 y1 x2 y2 : Nat) : LineCfg × LineVars :=
  let deltax := toInt16 (ABS ((x2 : Int) - (x1 : Int)))
  let deltay := toInt16 (ABS ((y2 : Int) - (y1 : Int)))
  let x := toInt16 (x1 : Int)
  let y := toInt16 (y1 : Int)
  let xinc : Int := if x2 ≥ x1 then 1 else -1
  let yinc : Int := if y2 ≥ y1 then 1 else -1
  if deltax ≥ deltay then
    ({ xinc1 := 0, xinc2 := xinc, yinc1 := yinc, yinc2 := 0,
       den := deltax, num_add := deltay, num_pixels := deltax },
     { x := x, y := y, num := Int.tdiv deltax 2, curpixel := 0 })
  else
    ({ xinc1 := xinc, xinc2 := 0, yinc1 := 0, yinc2 := yinc,
       den := deltay, num_add := deltax, num_pixels := deltay },
     { x := x, y := y, num := Int.tdiv deltay 2, curpixel := 0 })

/-- Lines 1287-1295 of `lcd.c` and the `curpixel++` of the loop header: one
iteration of the loop of `FillTriangle` after its call of `LCD_DrawLine`. -/
def triangleStep (c : LineCfg) (v : LineVars) : LineVars :=
  let num := toInt16 (v.num + c.num_add)
  if num ≥ c.den then
    { x := toInt16 (toInt16 (v.x + c.xinc1) + c.xinc2),
      y := toInt16 (toInt16 (v.y + c.yinc1) + c.yinc2),
      num := toInt16 (num - c.den),
      curpixel := toInt16 (v.curpixel + 1) }
  else
    { x := toInt16 (v.x + c.xinc2),
      y := toInt16 (v.y + c.yinc2),
      num := num,
      curpixel := toInt16 (v.curpixel + 1) }

/-- The `for` loop of `FillTriangle` (lines 1283-1296): the calls
`LCD_DrawLine(x, y, x3, y3)` it makes, in order. -/
def triangleLoop (c : LineCfg) (x3 y3 : Nat) : Nat → LineVars → Option (List LineCall)
  | 0, _ => none
  | fuel + 1, v =>
    if v.curpixel ≤ c.num_pixels then
      (triangleLoop c x3 y3 fuel (triangleStep c v)).map
        (fun l => (toUInt16 v.x, toUInt16 v.y, x3, y3) :: l)
    else
      some []

/-- Function `FillTriangle` (lines 1231-1297) as the sequence of its calls of
`LCD_DrawLine`. -/
def FillTriangle_calls (fuel x1 x2 x3 y1 y2 y3 : Nat) : Option (List LineCall) :=
  triangleLoop (triangleInit x1 y1 x2 y2).1 x3 y3 fuel (triangleInit x1 y1 x2 y2).2

/-- Function `FillTriangle` (lines 1231-1297) on the driver state. -/
def FillTriangle (fuel : Nat) (s : LCD) (x1 x2 x3 y1 y2 y3 : Nat) : Option LCD :=
  (FillTriangle_calls fuel x1 x2 x3 y1 y2 y3).bind (drawLines fuel s)

/-- The effect of a sequence of `FillTriangle` calls on the driver state. -/
def fillTriangles (fuel : Nat) (s : LCD) : List TriangleCall → Option LCD
  | [] => some s
  | c :: cs =>
    (FillTriangle fuel s c.1 c.2.1 c.2.2.1 c.2.2.2.1 c.2.2.2.2.1 c.2.2.2.2.2).bind
      (fun t => fillTriangles fuel t cs)

/-- The locals of the bounding-box loop of `LCD_FillPolygon`: the four
`uint16_t` bounds and the `int16_t` counter. -/
structure BoxVars where
  image_left : Nat
  image_right : Nat
  image_top : Nat
  image_bottom : Nat
  counter : Int
deriving DecidableEq, Repr

/-- The loop `for(counter = 1; counter < PointCount; counter++)` of
`LCD_FillPolygon` (lines 1072-1093).  `pixelX` and `pixelY` are `int16_t`; the
comparisons with the `uint16_t` bounds are made in `int`. -/
def boxLoop (Points : Int → Point) (PointCount : Nat) : Nat → BoxVars → Option BoxVars
  | 0, _ => none
  | fuel + 1, b =>
    if b.counter < (PointCount : Int) then
      let pixelX := toInt16 (Points b.counter).X
      let pixelY := toInt16 (Points b.counter).Y
      boxLoop Points PointCount fuel
        { image_left := if pixelX < (b.image_left : Int) then toUInt16 pixelX else b.image_left,
          image_right := if pixelX > (b.image_right : Int) then toUInt16 pixelX else b.image_right,
          image_top := if pixelY < (b.image_top : Int) then toUInt16 pixelY else b.image_top,
          image_bottom :=
            if pixelY > (b.image_bottom : Int) then toUInt16 pixelY else b.image_bottom,
          counter := toInt16 (b.counter + 1) }
    else
      some b

/-- The loop `while(--PointCount)` of `LCD_FillPolygon` (lines 1106-1117): its calls
of `FillTriangle` and the final values of `X2` and `Y2`. -/
def fillPolygonLoop (Points : Int → Point) (X_center Y_center : Int) :
    Nat → Nat → Int → Int → Int → Option (List TriangleCall × Int × Int)
  | 0, _, _, _, _ => none
  | fuel + 1, PointCount, k, X2, Y2 =>
    if (PointCount + 65535) % 65536 ≠ 0 then
      let X := toInt16 (Points k).X
      let Y := toInt16 (Points k).Y
      let X2n := toInt16 (Points (k + 1)).X
      let Y2n := toInt16 (Points (k + 1)).Y
      (fillPolygonLoop Points X_center Y_center fuel ((PointCount + 65535) % 65536) (k + 1)
          X2n Y2n).map (fun r =>
        ((toUInt16 X, toUInt16 X2n, toUInt16 X_center, toUInt16 Y, toUInt16 Y2n,
            toUInt16 Y_center) ::
          (toUInt16 X, toUInt16 X_center, toUInt16 X2n, toUInt16 Y, toUInt16 Y_center,
            toUInt16 Y2n) ::
          (toUInt16 X_center, toUInt16 X2n, toUInt16 X, toUInt16 Y_center, toUInt16 Y2n,
            toUInt16 Y) :: r.1, r.2))
    else
      some ([], X2, Y2)

/-- Function `LCD_FillPolygon` (lines 1064-1122) as the sequence of its calls of
`FillTriangle`. -/
def LCD_FillPolygon_calls (fuel : Nat) (Points : Int → Point) (PointCount : Nat) :
    Option (List TriangleCall) :=
  (boxLoop Points PointCount fuel
    { image_left := toUInt16 (Points 0).X, image_right := toUInt16 (Points 0).X,
      image_top := toUInt16 (Points 0).Y, image_bottom := toUInt16 (Points 0).Y,
      counter := 1 }).bind fun b =>
    if PointCount < 2 then
      some []
    else
      let X_center := toInt16 ((((b.image_left + b.image_right) / 2 : Nat) : Int))
      let Y_center := toInt16 ((((b.image_bottom + b.image_top) / 2 : Nat) : Int))
      let X_first := toInt16 (Points 0).X
      let Y_first := toInt16 (Points 0).Y
      (fillPolygonLoop Points X_center Y_center fuel PointCount 0 0 0).map fun r =>
        r.1 ++
          [ (toUInt16 X_first, toUInt16 r.2.1, toUInt16 X_center, toUInt16 Y_first,
              toUInt16 r.2.2, toUInt16 Y_center),
            (toUInt16 X_first, toUInt16 X_center, toUInt16 r.2.1, toUInt16 Y_first,
              toUInt16 Y_center, toUInt16 r.2.2),
            (toUInt16 X_center, toUInt16 r.2.1, toUInt16 X_first, toUInt16 Y_center,
              toUInt16 r.2.2, toUInt16 Y_first) ]

/-- Function `LCD_FillPolygon` (lines 1064-1122) on the driver state. -/
def LCD_FillPolygon (fuel : Nat) (s : LCD) (Points : Int → Point) (PointCount : Nat) :
    Option LCD :=
  (LCD_FillPolygon_calls fuel Points PointCount).bind (fillTriangles fuel s)

/-- A sample vertex array: the triangle (0,0), (5,0), (5,5). -/
def samplePoints : Int → Point := fun i =>
  if i = 0 then { X := 0, Y := 0 } else if i = 1 then { X := 5, Y := 0 } else { X := 5, Y := 5 }
/-! ## `LCD_DrawBitmap` -/

/-- Modelled from the spec: the input colour modes `CM_ARGB8888`, `CM_RGB888` and
`CM_RGB565` of the DMA2D engine (constants of the HAL header, which is not part
of the sources): 32, 24 and 16 bits per source pixel. -/
inductive DMA2D_InputColorMode where
  | CM_ARGB8888 | CM_RGB888 | CM_RGB565
deriving DecidableEq, Repr

/-- The arguments `(pSrc, pDst, xSize, ColorMode)` of a call of
`LL_ConvertLineToARGB8888`. -/
abbrev ConvertCall := Nat × Nat × Nat × DMA2D_InputColorMode

/-- The locals `index`, `width`, `height` and `bit_pixel` of `LCD_DrawBitmap` after
the header has been read (all `uint32_t`). -/
structure BitmapHeader where
  index : Nat
  width : Nat
  height : Nat
  bit_pixel : Nat
deriving DecidableEq, Repr

/-- Lines 934-947 of `lcd.c`: the header fields, each 32-bit one assembled from two
16-bit reads as `lo | (hi << 16)`. -/
def readBitmapHeader (m : Mem) (pbmp : Nat) : BitmapHeader :=
  { index := read16 m (pbmp + 10) ||| ((read16 m (pbmp + 12) <<< 16) % 2 ^ 32),
    width := read16 m (pbmp + 18) ||| ((read16 m (pbmp + 20) <<< 16) % 2 ^ 32),
    height := read16 m (pbmp + 22) ||| ((read16 m (pbmp + 24) <<< 16) % 2 ^ 32),
    bit_pixel := read16 m (pbmp + 28) }

/-- Lines 953-964 of `lcd.c`: the input colour mode chosen from `bit_pixel/8`. -/
def bitmapColorMode (bit_pixel : Nat) : DMA2D_InputColorMode :=
  if bit_pixel / 8 = 4 then DMA2D_InputColorMode.CM_ARGB8888
  else if bit_pixel / 8 = 2 then DMA2D_InputColorMode.CM_RGB565
  else DMA2D_InputColorMode.CM_RGB888

/-- The loop `for(index=0; index < height; index++)` of `LCD_DrawBitmap` (lines
970-978): the calls of `LL_ConvertLineToARGB8888`.  `step` is
`LCD_GetXSize()*4`, `back` is `width*(bit_pixel/8)`; `index`, `address` and the
pointer `pbmp` are 32-bit values. -/
def bitmapLoop (h : BitmapHeader) (step back : Nat) :
    Nat → Nat → Nat → Nat → Option (List ConvertCall)
  | 0, _, _, _ => none
  | fuel + 1, index, address, pbmp =>
    if index < h.height then
      (bitmapLoop h step back fuel ((index + 1) % 2 ^ 32) ((address + step) % 2 ^ 32)
          ((pbmp + 2 ^ 32 - back % 2 ^ 32) % 2 ^ 32)).map
        (fun l => (pbmp, address, h.width, bitmapColorMode h.bit_pixel) :: l)
    else
      some []

/-- Function `LCD_DrawBitmap` (lines 928-979) as the sequence of its calls of
`LL_ConvertLineToARGB8888`; `Xpos` and `Ypos` are `uint32_t`, `height - 1` is
`uint32_t` arithmetic. -/
def LCD_DrawBitmap_calls (fuel : Nat) (s : LCD) (Xpos Ypos pbmp : Nat) :
    Option (List ConvertCall) :=
  let h := readBitmapHeader s.mem pbmp
  let address :=
    ((s.LayerCfg s.ActiveLayer).FBStartAdress + ((LCD_GetXSize s * Ypos) + Xpos) * 4) % 2 ^ 32
  let pbmp1 :=
    (pbmp + (h.index + h.width * ((h.height + 2 ^ 32 - 1) % 2 ^ 32) * (h.bit_pixel / 8))) % 2 ^ 32
  bitmapLoop h (LCD_GetXSize s * 4) (h.width * (h.bit_pixel / 8)) fuel 0 address pbmp1

/-- Bytes per source pixel of an input colour mode. -/
def inputBytes : DMA2D_InputColorMode → Nat
  | DMA2D_InputColorMode.CM_ARGB8888 => 4
  | DMA2D_InputColorMode.CM_RGB888 => 3
  | DMA2D_InputColorMode.CM_RGB565 => 2

/-- The source pixel stored at address `a` in the given input colour mode. -/
def readInput (m : Mem) (mode : DMA2D_InputColorMode) (a : Nat) : Nat :=
  match mode with
  | DMA2D_InputColorMode.CM_ARGB8888 => read32 m a
  | DMA2D_InputColorMode.CM_RGB888 => read16 m a + 65536 * read8 m (a + 2)
  | DMA2D_InputColorMode.CM_RGB565 => read16 m a

/-- Modelled from the spec: a started and completed memory-to-memory transfer with
pixel format conversion of the DMA2D engine (`HAL_DMA2D_Start` followed by
`HAL_DMA2D_PollForTransfer`), which is not part of the sources: one line of
`xSize` source pixels read at `pSrc` is converted to ARGB8888 and stored at
`pDst`.  `convert mode v` is the ARGB8888 value the engine produces for the
source pixel `v`. -/
def HAL_DMA2D_ConvertLine (convert : DMA2D_InputColorMode → Nat → Nat) (m : Mem)
    (mode : DMA2D_InputColorMode) (pSrc pDst xSize : Nat) : Mem :=
  (List.range xSize).foldl
    (fun t c => write32 t (pDst + 4 * c) (convert mode (readInput m mode (pSrc + inputBytes mode * c))))
    m

/-- Function `LL_ConvertLineToARGB8888` (lines 1347-1374).  The foreground layer
configuration it stores in the handler (input colour mode `ColorMode`, input
offset 0, alpha unchanged) is what the modelled engine is called with. -/
def LL_ConvertLineToARGB8888 (convert : DMA2D_InputColorMode → Nat → Nat) (s : LCD)
    (pSrc pDst xSize : Nat) (ColorMode : DMA2D_InputColorMode) : LCD :=
  let s1 : LCD := { s with dma2dInit :=
    { Mode := DMA2D_Mode.DMA2D_M2M_PFC, ColorMode := DMA2D_ColorMode.DMA2D_ARGB8888,
      OutputOffset := 0 } }
  if s1.dma2d.initOK then
    if s1.dma2d.configOK then
      if s1.dma2d.startOK then
        { s1 with mem := HAL_DMA2D_ConvertLine convert s1.mem ColorMode pSrc pDst xSize }
      else s1
    else s1
  else s1

/-- Function `LCD_DrawBitmap` (lines 928-979) on the driver state. -/
def LCD_DrawBitmap (convert : DMA2D_InputColorMode → Nat → Nat) (fuel : Nat) (s : LCD)
    (Xpos Ypos pbmp : Nat) : Option LCD :=
  (LCD_DrawBitmap_calls fuel s Xpos Ypos pbmp).map
    (fun l => l.foldl (fun t c => LL_ConvertLineToARGB8888 convert t c.1 c.2.1 c.2.2.1 c.2.2.2) s)

/-- A sample state with a 2 x 2 bitmap of 32 bits per pixel at address
`0x08000000`: data offset 54, the four pixels `0x04030201`, `0x08070605`,
`0x0C0B0A09`, `0x100F0E0D` stored bottom row first. -/
def sampleBitmapLCD : LCD :=
  { sampleLCD PixelFormat.ARGB8888 3221225472 800 480 4294901760 3221225472 0 with
    mem := fun a =>
      if a = 134217728 + 10 then 54
      else if a = 134217728 + 18 then 2
      else if a = 134217728 + 22 then 2
      else if a = 134217728 + 28 then 32
      else if 134217728 + 54 ≤ a ∧ a < 134217728 + 70 then Fin.ofNat (a - 134217728 - 53)
      else 0 }
/-! ## Text -/

/-- The arguments `(Xpos, Ypos, RGB_Code)` of a call of `LCD_DrawPixel`. -/
abbrev PixelCall := Nat × Nat × Nat

/-- Lines 1187-1204 of `lcd.c`: the value `line` for scan line `i` of the glyph data
`c` (`c k` is the byte at `c + k`, read as `uint8_t`): one, two or three bytes
combined, most significant first. -/
def glyphLine (c : Nat → Nat) (width i : Nat) : Nat :=
  let pchar := fun k => c ((width + 7) / 8 * i + k) % 256
  if (width + 7) / 8 = 1 then
    pchar 0
  else if (width + 7) / 8 = 2 then
    (pchar 0 <<< 8) ||| pchar 1
  else
    (pchar 0 <<< 16) ||| (pchar 1 <<< 8) ||| pchar 2

/-- Function `DrawChar` (lines 1172-1219) as the sequence of its calls of
`LCD_DrawPixel`.  `height` and `width` are the `uint16_t` font sizes, `offset` is
`uint8_t`, the counters `i` and `j` are `uint32_t` and stay below `height` and
`width`; `Xpos + j` and the incremented `Ypos` are converted to `uint16_t`, the
shift count `width - j + offset - 1` is a `uint32_t` value. -/
def DrawChar_calls (s : LCD) (Xpos Ypos : Nat) (c : Nat → Nat) : List PixelCall :=
  let height := (s.DrawProp s.ActiveLayer).pFont.Height
  let width := (s.DrawProp s.ActiveLayer).pFont.Width
  let offset := (8 * ((width + 7) / 8) - width) % 256
  (List.range height).flatMap fun i =>
    (List.range width).map fun j =>
      ((Xpos + j) % 65536, (Ypos + i) % 65536,
        if glyphLine c width i &&&
            (1 <<< toUInt32 ((width : Int) - (j : Int) + (offset : Int) - 1)) ≠ 0 then
          (s.DrawProp s.ActiveLayer).TextColor
        else
          (s.DrawProp s.ActiveLayer).BackColor)

/-- The alignment modes of `LCD_DisplayStringAt`; `OTHER_MODE` stands for every
value that reaches the `default` label of the `switch`. -/
inductive Text_AlignModeTypdef where
  | CENTER_MODE | RIGHT_MODE | LEFT_MODE | OTHER_MODE
deriving DecidableEq, Repr

/-- The arguments `(Xpos, Ypos, Ascii)` of a call of `LCD_DisplayChar`. -/
abbrev CharCall := Nat × Nat × Nat

/-- Lines 522-552 of `lcd.c`: the start column `ref_column` (`uint16_t`) for a text
of `size` characters; `xsize` and `size` are `uint32_t`, and the sums and
products are `uint32_t` arithmetic. -/
def startColumn (s : LCD) (Xpos size : Nat) (Mode : Text_AlignModeTypdef) : Nat :=
  let Width := (s.DrawProp s.ActiveLayer).pFont.Width
  let xsize := LCD_GetXSize s / Width
  let ref_column :=
    match Mode with
    | Text_AlignModeTypdef.CENTER_MODE =>
      (Xpos + ((xsize + 2 ^ 32 - size % 2 ^ 32) % 2 ^ 32 * Width) % 2 ^ 32 / 2) % 65536
    | Text_AlignModeTypdef.LEFT_MODE => Xpos % 65536
    | Text_AlignModeTypdef.RIGHT_MODE =>
      toUInt16 (-(Xpos : Int) +
        ((((xsize + 2 ^ 32 - size % 2 ^ 32) % 2 ^ 32 * Width) % 2 ^ 32 : Nat) : Int))
    | Text_AlignModeTypdef.OTHER_MODE => Xpos % 65536
  if ref_column < 1 ∨ ref_column ≥ 0x8000 then 1 else ref_column

/-- The loop of `LCD_DisplayStringAt` (lines 555-564): the calls of
`LCD_DisplayChar`.  `Text` holds the characters before the terminating zero;
`i` and `ref_column` are `uint16_t`; the masked difference
`(LCD_GetXSize() - i*Width) & 0xFFFF` is the difference reduced mod `2^16`. -/
def displayLoop (s : LCD) (Ypos : Nat) : List Nat → Nat → Nat → List CharCall
  | [], _, _ => []
  | ch :: rest, i, ref_column =>
    if toUInt16 ((LCD_GetXSize s : Int) - (i : Int) * ((s.DrawProp s.ActiveLayer).pFont.Width : Int))
        ≥ (s.DrawProp s.ActiveLayer).pFont.Width then
      (ref_column, Ypos, ch) ::
        displayLoop s Ypos rest ((i + 1) % 65536)
          ((ref_column + (s.DrawProp s.ActiveLayer).pFont.Width) % 65536)
    else
      []

/-- Function `LCD_DisplayStringAt` (lines 512-565) as the sequence of its calls of
`LCD_DisplayChar`, for a text given by its characters before the terminating
zero. -/
def LCD_DisplayStringAt_calls (s : LCD) (Xpos Ypos : Nat) (Text : List Nat)
    (Mode : Text_AlignModeTypdef) : List CharCall :=
  displayLoop s Ypos Text 0 (startColumn s Xpos Text.length Mode)

/-- The start column the specification states for `CENTER_MODE`:
`Xpos + ((charsPerLine - strlen) * glyphWidth) / 2` with
`charsPerLine = XSize / glyphWidth`. -/
def specCenterColumn (XSize glyphWidth Xpos strlen : Nat) : Int :=
  (Xpos : Int) + (((XSize / glyphWidth : Nat) : Int) - (strlen : Int)) * (glyphWidth : Int) / 2

/-- A sample state whose active font is `width` x `height` pixels with the glyph
table `table`, on a surface 800 pixels wide. -/
def sampleTextLCD (width height : Nat) (table : List Nat) : LCD :=
  { sampleLCD PixelFormat.ARGB8888 3221225472 800 480 4294901760 3221225472 0 with
    DrawProp := fun _ =>
      { TextColor := 4294901760, BackColor := 255,
        pFont := { table := table, Width := width, Height := height } } }

/-! ## `LCD_Clear`, `DrawFastLineVertical` and `LCD_DrawFullCircle` -/

/-- Function `LCD_Clear` (lines 463-467). -/
def LCD_Clear (s : LCD) (Color : Nat) : LCD :=
  LL_FillBuffer s s.ActiveLayer (s.LayerCfg s.ActiveLayer).FBStartAdress (LCD_GetXSize s)
    (LCD_GetYSize s) 0 Color

/-- The address `ProjectionLayerAddress[LayerOfView] + 4 * y * DisplayWIDTH + 4*x1`
of `DrawFastLineVertical`, computed in 32 bits. -/
def fastLineAddress (s : LCD) (x1 y : Nat) : Nat :=
  (s.ProjectionLayerAddress s.LayerOfView + 4 * y * s.DisplayWIDTH + 4 * x1) % 2 ^ 32

/-- The loop `while(y1 < y2) *(...(y1++)...) = DrawProp[ActiveLayer].TextColor;` of
`DrawFastLineVertical` (lines 1452-1453); `y1` is `uint16_t`.  The result is `none`
when the fuel runs out. -/
def fastLineLoop (s : LCD) (x1 y2 : Nat) : Nat → Nat → Mem → Option Mem
  | 0, _, _ => none
  | fuel + 1, y1, m =>
    if y1 < y2 then
      fastLineLoop s x1 y2 fuel ((y1 + 1) % 65536)
        (write32 m (fastLineAddress s x1 y1) (s.DrawProp s.ActiveLayer).TextColor)
    else
      some m

/-- Function `DrawFastLineVertical` (lines 1445-1456): the rows are swapped when
`y1 > y2`, the loop writes the rows below `y2` and a last store writes row `y2`.
No test is made on the addresses. -/
def DrawFastLineVertical (fuel : Nat) (s : LCD) (x1 y1 y2 : Nat) : Option LCD :=
  let lo := if y1 > y2 then y2 else y1
  let hi := if y1 > y2 then y1 else y2
  (fastLineLoop s x1 hi fuel lo s.mem).map fun m =>
    { s with mem := write32 m (fastLineAddress s x1 hi) (s.DrawProp s.ActiveLayer).TextColor }

/-- The locals of `LCD_DrawFullCircle` (all `int16_t`). -/
structure FullCircleVars where
  f : Int
  ddF_x : Int
  ddF_y : Int
  x : Int
  y : Int
deriving DecidableEq, Repr

/-- The initial values of the locals of `LCD_DrawFullCircle` (lines 776-780). -/
def fullCircleInit (radius : Nat) : FullCircleVars :=
  { f := toInt16 (1 - (radius : Int)),
    ddF_x := 1,
    ddF_y := toInt16 (-2 * (radius : Int)),
    x := 0,
    y := toInt16 (radius : Int) }

/-- The updates of one iteration of the loop of `LCD_DrawFullCircle`
(lines 801-809), made before the four spans are drawn. -/
def fullCircleStep (v : FullCircleVars) : FullCircleVars :=
  let v1 : FullCircleVars :=
    if v.f ≥ 0 then
      let y := toInt16 (v.y - 1)
      let ddF_y := toInt16 (v.ddF_y + 2)
      { v with y := y, ddF_y := ddF_y, f := toInt16 (v.f + ddF_y) }
    else v
  let x := toInt16 (v1.x + 1)
  let ddF_x := toInt16 (v1.ddF_x + 2)
  { v1 with x := x, ddF_x := ddF_x, f := toInt16 (v1.f + ddF_x) }

/-- A call `DrawFastLineVertical(x1, y1, y2)`. -/
abbrev SpanCall := Nat × Nat × Nat

/-- The four calls of `DrawFastLineVertical` of one iteration (lines 812, 818,
821, 824); the `int` sums are converted to the `uint16_t` parameters. -/
def fullCircleSpans (Xpos Ypos : Nat) (v : FullCircleVars) : List SpanCall :=
  [(toUInt16 ((Xpos : Int) + v.x), toUInt16 ((Ypos : Int) - v.y), toUInt16 ((Ypos : Int) + v.y)),
   (toUInt16 ((Xpos : Int) - v.x), toUInt16 ((Ypos : Int) - v.y), toUInt16 ((Ypos : Int) + v.y)),
   (toUInt16 ((Xpos : Int) + v.y), toUInt16 ((Ypos : Int) - v.x), toUInt16 ((Ypos : Int) + v.x)),
   (toUInt16 ((Xpos : Int) - v.y), toUInt16 ((Ypos : Int) - v.x), toUInt16 ((Ypos : Int) + v.x))]

/-- The loop `while(x < y)` of `LCD_DrawFullCircle` (lines 796-828): the values
of the locals at which the spans of each iteration are drawn.  The result is
`none` when the fuel runs out. -/
def fullCircleStates : Nat → FullCircleVars → Option (List FullCircleVars)
  | 0, _ => none
  | fuel + 1, v =>
    if v.x < v.y then
      (fullCircleStates fuel (fullCircleStep v)).map fun l => fullCircleStep v :: l
    else
      some []

/-- The calls of `DrawFastLineVertical` made by `LCD_DrawFullCircle`, in order. -/
def LCD_DrawFullCircle_spans (fuel Xpos Ypos radius : Nat) : Option (List SpanCall) :=
  (fullCircleStates fuel (fullCircleInit radius)).map fun l =>
    l.flatMap (fullCircleSpans Xpos Ypos)

/-- The effect of a sequence of `DrawFastLineVertical` calls. -/
def drawSpans (fuel : Nat) : LCD → List SpanCall → Option LCD
  | s, [] => some s
  | s, c :: cs => (DrawFastLineVertical fuel s c.1 c.2.1 c.2.2).bind fun t => drawSpans fuel t cs

/-- Function `LCD_DrawFullCircle` (lines 772-831) on the driver state: the
centre column is drawn by `LCD_DrawLine`, the other columns by
`DrawFastLineVertical`. -/
def LCD_DrawFullCircle (fuel : Nat) (s : LCD) (Xpos Ypos radius : Nat) : Option LCD :=
  let v := fullCircleInit radius
  (LCD_DrawLine fuel s (toUInt16 ((Xpos : Int) + v.x)) (toUInt16 ((Ypos : Int) - v.y))
      (toUInt16 ((Xpos : Int) + v.x)) (toUInt16 ((Ypos : Int) + v.y))).bind fun s1 =>
    (LCD_DrawFullCircle_spans fuel Xpos Ypos radius).bind fun l => drawSpans fuel s1 l

/-- A sample state whose DMA2D engine accepts the set-up but does not start the
transfer (`HAL_DMA2D_Start` fails). -/
def sampleFailedLCD : LCD :=
  { sampleLCD PixelFormat.ARGB8888 3221225472 800 480 4294901760 3221225472 0 with
    dma2d := { initOK := true, configOK := true, startOK := false,
               toRGB565 := fun c => c % 65536 } }

/-! ## Layer selection and draw state -/

/-- Function `LCD_SelectLayer` (lines 273-276): the argument is stored as it is. -/
def LCD_SelectLayer (s : LCD) (LayerIndex : Nat) : LCD :=
  { s with ActiveLayer := LayerIndex }

/-- Function `LCD_SetXSize` (line 185). -/
def LCD_SetXSize (s : LCD) (imageWidthPixels : Nat) : LCD :=
  let c := s.LayerCfg s.ActiveLayer
  let c1 := { c with ImageWidth := imageWidthPixels }
  { s with LayerCfg := Function.update s.LayerCfg s.ActiveLayer c1 }

/-- Function `LCD_SetYSize` (line 195). -/
def LCD_SetYSize (s : LCD) (imageHeightPixels : Nat) : LCD :=
  let c := s.LayerCfg s.ActiveLayer
  let c1 := { c with ImageHeight := imageHeightPixels }
  { s with LayerCfg := Function.update s.LayerCfg s.ActiveLayer c1 }

/-- Function `LCD_GetTextColor` (line 379). -/
def LCD_GetTextColor (s : LCD) : Nat := (s.DrawProp s.ActiveLayer).TextColor

/-- Function `LCD_SetBackColor` (line 389). -/
def LCD_SetBackColor (s : LCD) (Color : Nat) : LCD :=
  let d := s.DrawProp s.ActiveLayer
  { s with DrawProp := Function.update s.DrawProp s.ActiveLayer { d with BackColor := Color } }

/-- Function `LCD_GetBackColor` (line 398). -/
def LCD_GetBackColor (s : LCD) : Nat := (s.DrawProp s.ActiveLayer).BackColor

/-- Function `LCD_SetFont` (line 408); the font pointer is modelled by the font
it points to. -/
def LCD_SetFont (s : LCD) (fonts : sFONT) : LCD :=
  let d := s.DrawProp s.ActiveLayer
  { s with DrawProp := Function.update s.DrawProp s.ActiveLayer { d with pFont := fonts } }

/-- Function `LCD_GetFont` (line 417). -/
def LCD_GetFont (s : LCD) : sFONT := (s.DrawProp s.ActiveLayer).pFont

/-- A state that differs from `sampleLCD` in the configuration of its layers:
an RGB565 frame buffer of 320 x 240 pixels at another address. -/
def sampleOtherLCD : LCD :=
  { sampleLCD PixelFormat.ARGB8888 3221225472 800 480 4294901760 3221225472 0 with
    LayerCfg := fun _ =>
      { PixelFormat := PixelFormat.RGB565, FBStartAdress := 3225419776, ImageWidth := 320,
        ImageHeight := 240 } }

/-! ## The memory writes of `LCD_DrawLine` -/

/-- The store a call `Fast_LCD_DrawPixel(Xpos, Ypos, TextColor)` makes in state
`s`: address and value, or `none` when the address fails the window test. -/
def fastWrite (s : LCD) (p : Pixel) : Option (Nat × Nat) :=
  if (s.ProjectionLayerAddress s.LayerOfView + 2 ^ 32 - 1) % 2 ^ 32 < fastAddress s p.1 p.2 ∧
      fastAddress s p.1 p.2 < (s.ProjectionLayerAddress s.LayerOfView + s.LAYERS_SIZE) % 2 ^ 32 then
    some (fastAddress s p.1 p.2, (s.DrawProp s.ActiveLayer).TextColor)
  else
    none

/-- The stores `LCD_DrawLine(x1, y1, x2, y2)` makes in state `s`, in order. -/
def LCD_DrawLine_writes (fuel : Nat) (s : LCD) (x1 y1 x2 y2 : Nat) : Option (List (Nat × Nat)) :=
  (LCD_DrawLine_calls fuel x1 y1 x2 y2).map fun l => l.filterMap (fastWrite s)

/-- The effect of a sequence of 32-bit stores on the memory. -/
def applyWrites (m : Mem) (w : List (Nat × Nat)) : Mem :=
  w.foldl (fun m aw => write32 m aw.1 aw.2) m

/-! ## Notions used to state the properties of `LCD_FillPolygon` -/

/-- The three calls of `FillTriangle` made for the edge from `(px, py)` to
`(qx, qy)` and the centre `(cx, cy)`, in the order of lines 1114-1116. -/
def fanCalls (px py qx qy cx cy : Nat) : List TriangleCall :=
  [(px, qx, cx, py, qy, cy), (px, cx, qx, py, cy, qy), (cx, qx, px, cy, qy, py)]

/-- The bounds `b` of the bounding-box loop are those of the first `k` points:
each bound is attained and no point lies outside; `counter = k`. -/
structure BoxInv (Points : Int → Point) (k : Nat) (b : BoxVars) : Prop where
  cnt : b.counter = (k : Int)
  lo : b.image_right ≤ 32767 ∧ b.image_bottom ≤ 32767
  inside : ∀ i : Nat, i < k →
    (b.image_left : Int) ≤ (Points (i : Int)).X ∧ (Points (i : Int)).X ≤ (b.image_right : Int) ∧
    (b.image_top : Int) ≤ (Points (i : Int)).Y ∧ (Points (i : Int)).Y ≤ (b.image_bottom : Int)
  left : ∃ i : Nat, i < k ∧ (Points (i : Int)).X = (b.image_left : Int)
  right : ∃ i : Nat, i < k ∧ (Points (i : Int)).X = (b.image_right : Int)
  top : ∃ i : Nat, i < k ∧ (Points (i : Int)).Y = (b.image_top : Int)
  bottom : ∃ i : Nat, i < k ∧ (Points (i : Int)).Y = (b.image_bottom : Int)

/-- A vertex array whose points are all at the origin. -/
def originPoints : Int → Point := fun _ => { X := 0, Y := 0 }

/-! ## The iterations of `LCD_DrawCircle` -/

/-- The loop `while (current_x <= current_y)` of `LCD_DrawCircle` (lines 741-769):
the values of the locals at which the eight points of each iteration are
emitted.  The result is `none` when the fuel runs out. -/
def circleStates : Nat → CircleVars → Option (List CircleVars)
  | 0, _ => none
  | fuel + 1, v =>
    if v.current_x ≤ v.current_y then
      (circleStates fuel (circleStep v)).map fun l => v :: l
    else
      some []

/-- The locals `v` of `LCD_DrawCircle(_, _, R)` with `e = x^2 + y^2 - R^2`: the
decision variable is `2e + 4x - 2y + 3`, and while the loop runs the point
`(x, y)` is within `R` of the circle. -/
structure CircleInv (R : Nat) (v : CircleVars) (e : Int) : Prop where
  e_eq : e = (v.current_x : Int) * (v.current_x : Int) + (v.current_y : Int) * (v.current_y : Int)
    - (R : Int) * (R : Int)
  d_eq : v.decision = 2 * e + 4 * (v.current_x : Int) - 2 * (v.current_y : Int) + 3
  y_le : v.current_y ≤ R
  pos : v.current_x ≤ v.current_y → 1 ≤ v.current_y
  err : v.current_x ≤ v.current_y → -(R : Int) ≤ e ∧ e ≤ (R : Int)

/-! ## The invariant of the loop of `LCD_DrawFullCircle` -/

/-- The relations the comments of lines 798-800 state for the locals of
`LCD_DrawFullCircle(_, _, R)`, with the bounds that keep every `int16_t`
operation of an iteration from wrapping. -/
structure FullInv (R : Nat) (v : FullCircleVars) : Prop where
  ddx : v.ddF_x = 2 * v.x + 1
  ddy : v.ddF_y = -2 * v.y
  f_eq : v.f = v.x * v.x + v.y * v.y - (R : Int) * (R : Int) + 2 * v.x - v.y + 1
  x0 : 0 ≤ v.x
  y0 : 0 ≤ v.y
  y_le : v.y ≤ (R : Int)
  xy : v.x ≤ v.y + 1
  f_lo : -2 * (R : Int) ≤ v.f
  f_hi : v.x < v.y → v.f ≤ 2 * v.x + 2

/-! ## The loop of `LCD_DrawEllipse` and `LCD_FillEllipse` -/

/-- The `int` locals `x`, `y` and `err` of `LCD_DrawEllipse` and
`LCD_FillEllipse`.  The pixel positions also involve the `float` quotient
`x/k`, which takes no part in the control of the loop and is not modelled. -/
structure EllipseVars where
  x : Int
  y : Int
  err : Int
deriving DecidableEq, Repr

/-- Lines 868 and 1134: `x = 0, y = -YRadius, err = 2-2*XRadius`.  Signed overflow
is undefined in C; results are reduced to 32 bits here, and the properties below
are stated for arguments with which no reduction happens. -/
def ellipseInit (XRadius YRadius : Int) : EllipseVars :=
  { x := 0, y := toInt32 (-YRadius), err := toInt32 (2 - toInt32 (2 * XRadius)) }

/-- The statement `if (e2 > y) err += ++y*2+1;` (lines 883 and 1153). -/
def ellipseYStep (v : EllipseVars) (e2 : Int) : EllipseVars :=
  if e2 > v.y then
    let y := toInt32 (v.y + 1)
    { x := v.x, y := y, err := toInt32 (v.err + toInt32 (toInt32 (y * 2) + 1)) }
  else
    v

/-- The updates of one iteration of the loop of `LCD_DrawEllipse` (lines 878-883),
made after the four pixels are drawn: `e2 = err; if (e2 <= x) { err += ++x*2+1;
if (-y == x && e2 <= y) e2 = 0; } if (e2 > y) err += ++y*2+1;`. -/
def ellipseStep (v : EllipseVars) : EllipseVars :=
  if v.err ≤ v.x then
    let x := toInt32 (v.x + 1)
    let err := toInt32 (v.err + toInt32 (toInt32 (x * 2) + 1))
    let e2 := if toInt32 (-v.y) = x ∧ v.err ≤ v.y then 0 else v.err
    ellipseYStep { x := x, y := v.y, err := err } e2
  else
    ellipseYStep v v.err

/-- The loop `do { ... } while (y <= 0);` of `LCD_DrawEllipse` (lines 875-885):
the values of the locals at which the pixels of each iteration are drawn.  The
result is `none` when the fuel runs out. -/
def ellipseLoop : Nat → EllipseVars → Option (List EllipseVars)
  | 0, _ => none
  | fuel + 1, v =>
    if (ellipseStep v).y ≤ 0 then
      (ellipseLoop fuel (ellipseStep v)).map fun l => v :: l
    else
      some [v]

/-- Function `LCD_DrawEllipse` (lines 866-886) as the sequence of the values of
its locals at which it draws. -/
def LCD_DrawEllipse_states (fuel : Nat) (XRadius YRadius : Int) : Option (List EllipseVars) :=
  ellipseLoop fuel (ellipseInit XRadius YRadius)

/-- The updates of one iteration of the loop of `LCD_FillEllipse` (lines
1148-1153), made after the two spans are drawn; the text is that of
`LCD_DrawEllipse`. -/
def fillEllipseStep (v : EllipseVars) : EllipseVars :=
  if v.err ≤ v.x then
    let x := toInt32 (v.x + 1)
    let err := toInt32 (v.err + toInt32 (toInt32 (x * 2) + 1))
    let e2 := if toInt32 (-v.y) = x ∧ v.err ≤ v.y then 0 else v.err
    ellipseYStep { x := x, y := v.y, err := err } e2
  else
    ellipseYStep v v.err

/-- The loop `do { ... } while (y <= 0);` of `LCD_FillEllipse` (lines 1143-1155). -/
def fillEllipseLoop : Nat → EllipseVars → Option (List EllipseVars)
  | 0, _ => none
  | fuel + 1, v =>
    if (fillEllipseStep v).y ≤ 0 then
      (fillEllipseLoop fuel (fillEllipseStep v)).map fun l => v :: l
    else
      some [v]

/-- Function `LCD_FillEllipse` (lines 1132-1156) as the sequence of the values of
its locals at which it draws. -/
def LCD_FillEllipse_states (fuel : Nat) (XRadius YRadius : Int) : Option (List EllipseVars) :=
  fillEllipseLoop fuel (ellipseInit XRadius YRadius)

/-- The relations between the locals of the ellipse loop for radii `a`, `b` at
the start of an iteration: `err` in closed form and the bounds that keep the
`int` operations from overflowing. -/
structure EllInv (a b : Int) (v : EllipseVars) : Prop where
  x0 : 0 ≤ v.x
  y_lo : -b ≤ v.y
  y_hi : v.y ≤ 0
  err_eq : v.err = 2 - 2 * a + v.x * v.x + 2 * v.x + v.y * v.y + 2 * v.y - b * b + 2 * b
  x_tight : 1 ≤ v.x → (v.x - 1) * (v.x - 1) + (v.x - 1) ≤ 2 * a + b * b
  err_hi : v.err ≤ 3 * v.x + 5 ∧ (v.y < 0 → v.err ≤ 3 * v.x + 4)

/-! ## `LCD_DisplayStringAtLine` -/

/-- Function `LCD_DisplayStringAtLine` (lines 573-576) as the sequence of its
calls of `LCD_DisplayChar`: `LCD_DisplayStringAt(0, LINE(Line), ptr, LEFT_MODE)`.
The macro `LINE` is defined in a header that is not part of the sources; its
value is the parameter `LINE`, converted to the `uint16_t` parameter `Ypos`. -/
def LCD_DisplayStringAtLine_calls (LINE : Nat → Nat) (s : LCD) (Line : Nat) (ptr : List Nat) :
    List CharCall :=
  LCD_DisplayStringAt_calls s 0 (LINE Line % 65536) ptr Text_AlignModeTypdef.LEFT_MODE

/-- Modelled from the spec: the calls the driver makes to the display-controller
collaborator (the HAL LTDC driver and its macros `__HAL_LTDC_LAYER_ENABLE`,
`__HAL_LTDC_LAYER_DISABLE` and `__HAL_LTDC_RELOAD_CONFIG`, none of which is part
of the sources), each with its arguments after the handle `&hLtdcHandler`. -/
inductive LTDC_Call where
  | ConfigLayer (pLayerCfg : LTDC_LayerCfgTypeDef) (LayerIdx : Nat)
  | LAYER_ENABLE (LayerIdx : Nat)
  | LAYER_DISABLE (LayerIdx : Nat)
  | RELOAD_CONFIG
  | SetAlpha (Alpha LayerIdx : Nat)
  | SetAddress (Address LayerIdx : Nat)
  | SetWindowSize (XSize YSize LayerIdx : Nat)
  | SetWindowPosition (X0 Y0 LayerIdx : Nat)
  | ConfigColorKeying (RGBValue LayerIdx : Nat)
  | EnableColorKeying (LayerIdx : Nat)
  | DisableColorKeying (LayerIdx : Nat)

/-- Modelled from the spec: the type `FunctionalState` of the parameter `State`
of `LCD_SetLayerVisible`, declared in a header that is not part of the sources;
the driver only compares it with `ENABLE`. -/
inductive FunctionalState where
  | DISABLE | ENABLE
deriving DecidableEq, Repr

/-- Modelled from the spec: what the headers and libraries that are not part of
the sources provide to the functions of `lcd.c` and `timer13.c`; every value is
left open.
* `ltdc c cfg` is the content of `hLtdcHandler.LayerCfg` after the call `c` of
  the display-controller collaborator, made when it is `cfg`.  The collaborator
  receives `&hLtdcHandler` only; `ActiveLayer`, `DrawProp` and `LayerIndex` are
  `static` variables of `lcd.c` that no other file can name.
* `convert` is the pixel conversion of the accelerated convert-copy.
* `fontMemory f` is the memory around the glyph table of the font `f`.
* `ellipseQuotient x XRadius YRadius` is the value `(uint16_t)(x/k)` of
  `LCD_DrawEllipse` and `LCD_FillEllipse`, where `k = (float)(rad2/rad1)` is the
  `float` quotient of the radii; `float` arithmetic is not modelled.
* `LINE s Line` is the value of the macro `LINE(Line)` in the state `s`.
* the remaining fields are the constants of those names. -/
structure Board where
  ltdc : LTDC_Call → (Nat → LTDC_LayerCfgTypeDef) → (Nat → LTDC_LayerCfgTypeDef)
  convert : DMA2D_InputColorMode → Nat → Nat
  fontMemory : sFONT → Int → Nat
  ellipseQuotient : Int → Int → Int → Nat
  LINE : LCD → Nat → Nat
  LCD_COLOR_WHITE : Nat
  LCD_COLOR_BLACK : Nat
  Font24 : sFONT
  GOST_B_22x24 : sFONT
  LAYER_1_OFFSET : Nat
  SDRAM_BANK_ADDR : Nat
  TIM_DIER_UIE : Nat
  TIM_CR1_CEN : Nat
  TIM_SR_UIF : Nat

/-- A call of the display-controller collaborator on the driver state. -/
def HAL_LTDC (b : Board) (s : LCD) (c : LTDC_Call) : LCD :=
  { s with LayerCfg := b.ltdc c s.LayerCfg }

/-! ## Layer configuration -/

/-- Function `LCD_LayerDefaultInit` (lines 206-232).  Of `layer_cfg` the fields
kept are those of `LTDC_LayerCfgTypeDef`; the sizes are read before the
collaborator is called. -/
def LCD_LayerDefaultInit (b : Board) (s : LCD) (LayerIndex FB_Address : Nat) : LCD :=
  let layer_cfg : LTDC_LayerCfgTypeDef :=
    { PixelFormat := PixelFormat.ARGB8888, FBStartAdress := FB_Address,
      ImageWidth := LCD_GetXSize s, ImageHeight := LCD_GetYSize s }
  let s1 := HAL_LTDC b s (LTDC_Call.ConfigLayer layer_cfg LayerIndex)
  let p : LCD_DrawPropTypeDef :=
    { TextColor := b.LCD_COLOR_BLACK, BackColor := b.LCD_COLOR_WHITE, pFont := b.Font24 }
  { s1 with DrawProp := Function.update s1.DrawProp LayerIndex p }

/-- Function `LCD_SetLayerVisible` (lines 287-298). -/
def LCD_SetLayerVisible (b : Board) (s : LCD) (LayerIndex : Nat) (State : FunctionalState) :
    LCD :=
  let s1 :=
    if State = FunctionalState.ENABLE then
      HAL_LTDC b s (LTDC_Call.LAYER_ENABLE LayerIndex)
    else
      HAL_LTDC b s (LTDC_Call.LAYER_DISABLE LayerIndex)
  HAL_LTDC b s1 LTDC_Call.RELOAD_CONFIG

/-- The registers of the timer `TIM13` that `timer13.c` writes; a register holds
the value last written to it. -/
structure TIM_TypeDef where
  PSC : Nat
  ARR : Nat
  DIER : Nat
  CR1 : Nat
  SR : Nat

/-- The state of the module: that of the drawing routines; the `static` variable
`LayerIndex` of `lcd.c` (line 130), which only `LCD_InitParams` and
`LCD_SetColorPixel` use; the register `DAC->DHR12R1`, holding the value last
written to it; the registers of `TIM13`; whether `NVIC_EnableIRQ` has been
called for the timer interrupt; and the `static` variable `Counter` of
`TIM13_IRQHandler`. -/
structure Driver where
  lcd : LCD
  LayerIndex : Nat
  DAC_DHR12R1 : Nat
  TIM13 : TIM_TypeDef
  TIM13_IRQ : Bool
  Counter : Nat

/-- Function `LCD_InitParams` (lines 1387-1392): the static `LayerIndex` is set
and used as the index, whatever `ActiveLayer` is. -/
def LCD_InitParams (d : Driver) (LayerIndexGet BackColor TextColor : Nat) (pFont : sFONT) :
    Driver :=
  let p : LCD_DrawPropTypeDef := { TextColor := TextColor, BackColor := BackColor, pFont := pFont }
  let s := d.lcd
  let s1 := { s with DrawProp := Function.update s.DrawProp LayerIndexGet p }
  { d with lcd := s1, LayerIndex := LayerIndexGet }

/-- Function `LCD_Init` (lines 1400-1420); the sum of the two constants is
converted to the `uint32_t` parameter `FB_Address`. -/
def LCD_Init (b : Board) (d : Driver) : Driver :=
  let s1 := LCD_SetLayerVisible b d.lcd 1 FunctionalState.DISABLE
  let s2 := LCD_SetXSize s1 800
  let s3 := LCD_SetYSize s2 480
  let s4 := LCD_LayerDefaultInit b s3 0 ((b.LAYER_1_OFFSET + b.SDRAM_BANK_ADDR) % 2 ^ 32)
  let s5 := LCD_SelectLayer s4 0
  LCD_InitParams { d with lcd := s5 } 0 0 0xFFFF0000 b.GOST_B_22x24

theorem toInt16_of_range {z : Int} (h1 : -32768 ≤ z) (h2 : z ≤ 32767) : toInt16 z = z := by
  unfold toInt16; omega

theorem toUInt16_of_range {z : Int} (h1 : 0 ≤ z) (h2 : z ≤ 65535) : (toUInt16 z : Int) = z := by
  unfold toUInt16; omega

theorem toUInt16_natCast {n : Nat} (h : n ≤ 65535) : toUInt16 (n : Int) = n := by
  unfold toUInt16; omega

theorem lineStep_curpixel (c : LineCfg) (v : LineVars) :
    (lineStep c v).curpixel = toInt16 (v.curpixel + 1) := by
  unfold lineStep
  dsimp only
  split <;> rfl

/-- More fuel does not change a result. -/
theorem lineLoop_fuel_succ (c : LineCfg) (fuel : Nat) (v : LineVars) (l : List Pixel)
    (h : lineLoop c fuel v = some l) : lineLoop c (fuel + 1) v = some l := by
  induction fuel generalizing v l with
  | zero => simp [lineLoop] at h
  | succ n ih =>
    rw [lineLoop] at h
    rw [lineLoop]
    split
    · rename_i hc
      rw [if_pos hc] at h
      cases hr : lineLoop c n (lineStep c v) with
      | none => rw [hr] at h; simp at h
      | some l1 =>
        rw [hr] at h
        rw [ih _ _ hr]
        exact h
    · rename_i hc
      rw [if_neg hc] at h
      exact h

theorem lineLoop_fuel_le (c : LineCfg) (f1 f2 : Nat) (v : LineVars) (l : List Pixel)
    (hle : f1 ≤ f2) (h : lineLoop c f1 v = some l) : lineLoop c f2 v = some l := by
  induction hle with
  | refl => exact h
  | step _ ih => exact lineLoop_fuel_succ c _ v l ih

/-- Two terminating runs from the same state give the same calls. -/
theorem lineLoop_deterministic (c : LineCfg) (f1 f2 : Nat) (v : LineVars) (l1 l2 : List Pixel)
    (h1 : lineLoop c f1 v = some l1) (h2 : lineLoop c f2 v = some l2) : l1 = l2 := by
  have a := lineLoop_fuel_le c f1 (max f1 f2) v l1 (le_max_left _ _) h1
  have b := lineLoop_fuel_le c f2 (max f1 f2) v l2 (le_max_right _ _) h2
  rw [a] at b
  exact Option.some.inj b

/-- While the counter cannot wrap, the loop runs `num_pixels + 1 - curpixel` times
and emits the pixel of each intermediate state. -/
theorem lineLoop_eq_map (c : LineCfg) (N : Nat) (hN : c.num_pixels = (N : Int)) (hN2 : N ≤ 32766) :
    ∀ (n j : Nat) (v : LineVars) (fuel : Nat), j + n = N + 1 → v.curpixel = (j : Int) → n < fuel →
      lineLoop c fuel v = some ((List.range n).map (fun i => linePixel ((lineStep c)^[i] v))) := by
  intro n
  induction n with
  | zero =>
    intro j v fuel hj hv hf
    obtain ⟨f, rfl⟩ : ∃ f, fuel = f + 1 := ⟨fuel - 1, by omega⟩
    rw [lineLoop, if_neg (by rw [hv, hN]; omega)]
    rfl
  | succ n ih =>
    intro j v fuel hj hv hf
    obtain ⟨f, rfl⟩ : ∃ f, fuel = f + 1 := ⟨fuel - 1, by omega⟩
    rw [lineLoop, if_pos (by rw [hv, hN]; omega)]
    have hstep : (lineStep c v).curpixel = ((j + 1 : Nat) : Int) := by
      rw [lineStep_curpixel, hv, toInt16_of_range (by omega) (by omega)]
      push_cast; rfl
    rw [ih (j + 1) (lineStep c v) f (by omega) hstep (by omega)]
    simp only [Option.map_some', List.range_succ_eq_map, List.map_cons, List.map_map,
      Function.iterate_zero, id_eq, linePixel]
    rfl

theorem ABS_sub_eq (a b : Nat) : ABS ((b : Int) - (a : Int)) = (absDiff a b : Int) := by
  unfold ABS absDiff
  split <;> split <;> omega

theorem lineInit_curpixel (x1 y1 x2 y2 : Nat) : (lineInit x1 y1 x2 y2).2.curpixel = 0 := by
  unfold lineInit
  dsimp only
  split <;> rfl

theorem lineInit_num_pixels (x1 y1 x2 y2 : Nat)
    (hx : absDiff x1 x2 ≤ 32767) (hy : absDiff y1 y2 ≤ 32767) :
    (lineInit x1 y1 x2 y2).1.num_pixels = ((max (absDiff x1 x2) (absDiff y1 y2) : Nat) : Int) := by
  unfold lineInit
  dsimp only
  rw [ABS_sub_eq, ABS_sub_eq, toInt16_of_range (by omega) (by omega),
    toInt16_of_range (by omega) (by omega)]
  split
  · rename_i h
    dsimp only
    omega
  · rename_i h
    dsimp only
    omega

/-- C1 (amended): when both coordinate differences are at most 32766, so that
they fit `int16_t` and the loop counter cannot wrap, `LCD_DrawLine` terminates
after exactly `max(|x2-x1|, |y2-y1|) + 1` calls of `Fast_LCD_DrawPixel`. -/
theorem LCD_DrawLine_call_count (x1 y1 x2 y2 fuel : Nat)
    (hx : absDiff x1 x2 ≤ 32766) (hy : absDiff y1 y2 ≤ 32766)
    (hfuel : max (absDiff x1 x2) (absDiff y1 y2) + 1 < fuel) :
    ∃ l, LCD_DrawLine_calls fuel x1 y1 x2 y2 = some l ∧
      l.length = max (absDiff x1 x2) (absDiff y1 y2) + 1 := by
  refine ⟨_, lineLoop_eq_map _ (max (absDiff x1 x2) (absDiff y1 y2))
    (lineInit_num_pixels x1 y1 x2 y2 (by omega) (by omega)) (by omega)
    (max (absDiff x1 x2) (absDiff y1 y2) + 1) 0 _ fuel (by omega)
    (by rw [lineInit_curpixel]; rfl) hfuel, ?_⟩
  simp

theorem LCD_DrawLine_call_count_witness :
    ∃ l, LCD_DrawLine_calls 5 0 0 3 1 = some l ∧ l.length = max (absDiff 0 3) (absDiff 0 1) + 1 :=
  LCD_DrawLine_call_count 0 0 3 1 5 (by decide) (by decide) (by decide)

/-- C1 as stated fails: for the line from (0,0) to (40000,0) the difference
40000 does not fit `int16_t`, the loop bound becomes 0, and no run of
`LCD_DrawLine` makes the claimed 40001 calls (it makes exactly one). -/
theorem LCD_DrawLine_call_count_counterexample :
    LCD_DrawLine_calls 2 0 0 40000 0 = some [(0, 0)] ∧
    ¬ ∃ fuel l, LCD_DrawLine_calls fuel 0 0 40000 0 = some l ∧
        l.length = max (absDiff 0 40000) (absDiff 0 0) + 1 := by
  have h : LCD_DrawLine_calls 2 0 0 40000 0 = some [(0, 0)] := by decide
  refine ⟨h, ?_⟩
  rintro ⟨fuel, l, hl, hlen⟩
  have := lineLoop_deterministic _ _ _ _ _ _ hl h
  subst this
  revert hlen
  decide

theorem LineInv.zero (c : LineCfg) (v0 : LineVars) (g : LineGood c v0) : LineInv c v0 0 0 v0 where
  cur := by simp
  m_range := by simp
  x_eq := by simp
  y_eq := by simp
  x_range := by simp
  y_range := by simp
  num_eq := by simp
  num_range := g.num0

/-- One iteration keeps the invariant; it either carries (`m + 1`) or not. -/
theorem LineInv.step (c : LineCfg) (v0 : LineVars) (g : LineGood c v0) (k : Nat) (m : Int)
    (v : LineVars) (hk : k ≤ 16383) (hc : -16384 ≤ v0.curpixel ∧ v0.curpixel ≤ 16383)
    (h : LineInv c v0 k m v) :
    (LineInv c v0 (k + 1) m (lineStep c v) ∧ (lineStep c v).x = v.x + c.xinc2 ∧
        (lineStep c v).y = v.y + c.yinc2) ∨
    (LineInv c v0 (k + 1) (m + 1) (lineStep c v) ∧ (lineStep c v).x = v.x + c.xinc1 + c.xinc2 ∧
        (lineStep c v).y = v.y + c.yinc1 + c.yinc2) := by
  obtain ⟨hcur, hm, hx, hy, hxr, hyr, hn, hnr⟩ := h
  obtain ⟨gx, gy, ga, gn, gxi, gyi⟩ := g
  have e1 : toInt16 (v.num + c.num_add) = v.num + c.num_add :=
    toInt16_of_range (by omega) (by omega)
  have e2 : toInt16 (v.curpixel + 1) = v.curpixel + 1 := toInt16_of_range (by omega) (by omega)
  unfold lineStep
  dsimp only
  rw [e1, e2]
  by_cases hcarry : v.num + c.num_add ≥ c.den
  · right
    rw [if_pos hcarry]
    dsimp only
    have e3 : toInt16 (v.x + c.xinc1) = v.x + c.xinc1 := toInt16_of_range (by omega) (by omega)
    have e4 : toInt16 (v.y + c.yinc1) = v.y + c.yinc1 := toInt16_of_range (by omega) (by omega)
    have e5 : toInt16 (v.x + c.xinc1 + c.xinc2) = v.x + c.xinc1 + c.xinc2 :=
      toInt16_of_range (by omega) (by omega)
    have e6 : toInt16 (v.y + c.yinc1 + c.yinc2) = v.y + c.yinc1 + c.yinc2 :=
      toInt16_of_range (by omega) (by omega)
    have e7 : toInt16 (v.num + c.num_add - c.den) = v.num + c.num_add - c.den :=
      toInt16_of_range (by omega) (by omega)
    rw [e3, e4, e5, e6, e7]
    refine ⟨⟨?_, ?_, ?_, ?_, ?_, ?_, ?_, ?_⟩, rfl, rfl⟩
    · dsimp only; push_cast; omega
    · push_cast; omega
    · dsimp only; push_cast; rw [hx]; ring
    · dsimp only; push_cast; rw [hy]; ring
    · dsimp only; push_cast; omega
    · dsimp only; push_cast; omega
    · dsimp only; push_cast; linear_combination hn
    · dsimp only; omega
  · left
    rw [if_neg hcarry]
    dsimp only
    have e5 : toInt16 (v.x + c.xinc2) = v.x + c.xinc2 := toInt16_of_range (by omega) (by omega)
    have e6 : toInt16 (v.y + c.yinc2) = v.y + c.yinc2 := toInt16_of_range (by omega) (by omega)
    rw [e5, e6]
    refine ⟨⟨?_, ?_, ?_, ?_, ?_, ?_, ?_, ?_⟩, rfl, rfl⟩
    · dsimp only; push_cast; omega
    · push_cast; omega
    · dsimp only; push_cast; rw [hx]; ring
    · dsimp only; push_cast; rw [hy]; ring
    · dsimp only; push_cast; omega
    · dsimp only; push_cast; omega
    · dsimp only; push_cast; linear_combination hn
    · dsimp only; omega

/-- Every state reached within 16384 iterations satisfies the invariant. -/
theorem LineInv.iterate (c : LineCfg) (v0 : LineVars) (g : LineGood c v0)
    (hc : -16384 ≤ v0.curpixel ∧ v0.curpixel ≤ 16383) (k : Nat) (hk : k ≤ 16384) :
    ∃ m, LineInv c v0 k m ((lineStep c)^[k] v0) := by
  induction k with
  | zero => exact ⟨0, LineInv.zero c v0 g⟩
  | succ k ih =>
    obtain ⟨m, hm⟩ := ih (by omega)
    rw [Function.iterate_succ_apply']
    rcases LineInv.step c v0 g k m _ (by omega) hc hm with h | h
    · exact ⟨m, h.1⟩
    · exact ⟨m + 1, h.1⟩

theorem lineInit_x_major (x1 y1 x2 y2 : Nat) (h1 : x1 ≤ 16383) (h2 : y1 ≤ 16383)
    (h3 : x2 ≤ 16383) (h4 : y2 ≤ 16383) (hmaj : absDiff y1 y2 ≤ absDiff x1 x2) :
    lineInit x1 y1 x2 y2 =
      ({ xinc1 := 0, xinc2 := if x2 ≥ x1 then 1 else -1,
         yinc1 := if y2 ≥ y1 then 1 else -1, yinc2 := 0,
         den := (absDiff x1 x2 : Int), num_add := (absDiff y1 y2 : Int),
         num_pixels := (absDiff x1 x2 : Int) },
       { x := (x1 : Int), y := (y1 : Int), num := ((absDiff x1 x2 / 2 : Nat) : Int),
         curpixel := 0 }) := by
  have hdx : absDiff x1 x2 ≤ 16383 := by unfold absDiff; split <;> omega
  have hdy : absDiff y1 y2 ≤ 16383 := by unfold absDiff; split <;> omega
  unfold lineInit
  dsimp only
  rw [ABS_sub_eq, ABS_sub_eq, toInt16_of_range (by omega) (by omega),
    toInt16_of_range (by omega) (by omega), toInt16_of_range (by omega) (by omega),
    toInt16_of_range (by omega) (by omega), if_pos (by omega),
    Int.tdiv_eq_ediv (by omega) (by omega)]
  rfl

theorem lineInit_y_major (x1 y1 x2 y2 : Nat) (h1 : x1 ≤ 16383) (h2 : y1 ≤ 16383)
    (h3 : x2 ≤ 16383) (h4 : y2 ≤ 16383) (hmaj : absDiff x1 x2 < absDiff y1 y2) :
    lineInit x1 y1 x2 y2 =
      ({ xinc1 := if x2 ≥ x1 then 1 else -1, xinc2 := 0,
         yinc1 := 0, yinc2 := if y2 ≥ y1 then 1 else -1,
         den := (absDiff y1 y2 : Int), num_add := (absDiff x1 x2 : Int),
         num_pixels := (absDiff y1 y2 : Int) },
       { x := (x1 : Int), y := (y1 : Int), num := ((absDiff y1 y2 / 2 : Nat) : Int),
         curpixel := 0 }) := by
  have hdx : absDiff x1 x2 ≤ 16383 := by unfold absDiff; split <;> omega
  have hdy : absDiff y1 y2 ≤ 16383 := by unfold absDiff; split <;> omega
  unfold lineInit
  dsimp only
  rw [ABS_sub_eq, ABS_sub_eq, toInt16_of_range (by omega) (by omega),
    toInt16_of_range (by omega) (by omega), toInt16_of_range (by omega) (by omega),
    toInt16_of_range (by omega) (by omega), if_neg (by omega),
    Int.tdiv_eq_ediv (by omega) (by omega)]
  rfl

/-- The carry count is determined by the error-term equation. -/
theorem lineMinor_unique (D d k : Nat) (m num : Int) (hD : 0 < D) (hm : 0 ≤ m)
    (heq : num + (D : Int) * m = ((D / 2 : Nat) : Int) + (k : Int) * (d : Int))
    (h0 : 0 ≤ num) (h1 : num < D) : m = (lineMinor D d k : Int) := by
  obtain ⟨mn, rfl⟩ := Int.eq_ofNat_of_zero_le hm
  obtain ⟨nn, rfl⟩ := Int.eq_ofNat_of_zero_le h0
  have heq2 : nn + D * mn = D / 2 + k * d := by exact_mod_cast heq
  have h1n : nn < D := by exact_mod_cast h1
  unfold lineMinor
  rw [← heq2, Nat.add_mul_div_left _ _ hD, Nat.div_eq_of_lt h1n]
  simp

theorem lineMinor_le (D d k : Nat) (hk : k ≤ D) : lineMinor D d k ≤ d := by
  unfold lineMinor
  rcases Nat.eq_zero_or_pos D with h | h
  · subst h; simp
  · calc (D / 2 + k * d) / D ≤ (D / 2 + D * d) / D :=
          Nat.div_le_div_right (by have := Nat.mul_le_mul_right d hk; omega)
      _ = D / 2 / D + d := Nat.add_mul_div_left _ _ h
      _ = d := by rw [Nat.div_eq_of_lt (by omega)]; simp

theorem toUInt16_towards (a b n : Nat) (ha : a ≤ 16383) (hb : b ≤ 16383)
    (hn : n ≤ absDiff a b) (z : Int)
    (hz : z = (a : Int) + (n : Int) * (if b ≥ a then 1 else -1)) :
    toUInt16 z = towards a b n := by
  unfold absDiff at hn
  unfold towards toUInt16
  by_cases h : a ≤ b
  · rw [if_pos h] at hn hz ⊢
    omega
  · rw [if_neg h] at hn hz ⊢
    omega

/-- Within the first `max(|x2-x1|, |y2-y1|) + 1` iterations the loop state
is at the `k`-th point of the closed form. -/
theorem linePixel_iterate (x1 y1 x2 y2 k : Nat) (h1 : x1 ≤ 16383) (h2 : y1 ≤ 16383)
    (h3 : x2 ≤ 16383) (h4 : y2 ≤ 16383) (hk : k ≤ max (absDiff x1 x2) (absDiff y1 y2)) :
    linePixel ((lineStep (lineInit x1 y1 x2 y2).1)^[k] (lineInit x1 y1 x2 y2).2) =
      linePoint x1 y1 x2 y2 k := by
  have hdx : absDiff x1 x2 ≤ 16383 := by unfold absDiff; split <;> omega
  have hdy : absDiff y1 y2 ≤ 16383 := by unfold absDiff; split <;> omega
  by_cases hmaj : absDiff y1 y2 ≤ absDiff x1 x2
  · rw [lineInit_x_major x1 y1 x2 y2 h1 h2 h3 h4 hmaj]
    have hk2 : k ≤ absDiff x1 x2 := by omega
    have g : LineGood
        { xinc1 := 0, xinc2 := if x2 ≥ x1 then 1 else -1,
          yinc1 := if y2 ≥ y1 then 1 else -1, yinc2 := 0,
          den := (absDiff x1 x2 : Int), num_add := (absDiff y1 y2 : Int),
          num_pixels := (absDiff x1 x2 : Int) }
        { x := (x1 : Int), y := (y1 : Int), num := ((absDiff x1 x2 / 2 : Nat) : Int),
          curpixel := 0 } := by
      constructor <;> dsimp only <;> (try split) <;> omega
    obtain ⟨m, hinv⟩ := LineInv.iterate _ _ g (by dsimp only; omega) k (by omega)
    obtain ⟨-, hm, hx, hy, -, -, hn, hnr⟩ := hinv
    dsimp only at hx hy hn hnr
    unfold linePoint
    rw [if_pos hmaj]
    rcases Nat.eq_zero_or_pos (absDiff x1 x2) with hD | hD
    · have hk0 : k = 0 := by omega
      subst hk0
      have hd0 : absDiff y1 y2 = 0 := by omega
      simp [linePixel, towards, lineMinor, hD, hd0, toUInt16_natCast (show x1 ≤ 65535 by omega),
        toUInt16_natCast (show y1 ≤ 65535 by omega)]
    · have hmu := lineMinor_unique (absDiff x1 x2) (absDiff y1 y2) k m _ hD hm.1 hn hnr.1
        (hnr.2.2 (by exact_mod_cast hD))
      have hml := lineMinor_le (absDiff x1 x2) (absDiff y1 y2) k hk2
      unfold linePixel
      rw [toUInt16_towards x1 x2 k h1 h3 hk2 _ (by rw [hx]; ring),
        toUInt16_towards y1 y2 (lineMinor (absDiff x1 x2) (absDiff y1 y2) k) h2 h4
          (by omega) _ (by rw [hy, hmu]; ring)]
  · have hmaj2 : absDiff x1 x2 < absDiff y1 y2 := by omega
    rw [lineInit_y_major x1 y1 x2 y2 h1 h2 h3 h4 hmaj2]
    have hk2 : k ≤ absDiff y1 y2 := by omega
    have g : LineGood
        { xinc1 := if x2 ≥ x1 then 1 else -1, xinc2 := 0,
          yinc1 := 0, yinc2 := if y2 ≥ y1 then 1 else -1,
          den := (absDiff y1 y2 : Int), num_add := (absDiff x1 x2 : Int),
          num_pixels := (absDiff y1 y2 : Int) }
        { x := (x1 : Int), y := (y1 : Int), num := ((absDiff y1 y2 / 2 : Nat) : Int),
          curpixel := 0 } := by
      constructor <;> dsimp only <;> (try split) <;> omega
    obtain ⟨m, hinv⟩ := LineInv.iterate _ _ g (by dsimp only; omega) k (by omega)
    obtain ⟨-, hm, hx, hy, -, -, hn, hnr⟩ := hinv
    dsimp only at hx hy hn hnr
    unfold linePoint
    rw [if_neg hmaj]
    have hD : 0 < absDiff y1 y2 := by omega
    have hmu := lineMinor_unique (absDiff y1 y2) (absDiff x1 x2) k m _ hD hm.1 hn hnr.1
      (hnr.2.2 (by exact_mod_cast hD))
    have hml := lineMinor_le (absDiff y1 y2) (absDiff x1 x2) k hk2
    unfold linePixel
    rw [toUInt16_towards x1 x2 (lineMinor (absDiff y1 y2) (absDiff x1 x2) k) h1 h3
        (by omega) _ (by rw [hx, hmu]; ring),
      toUInt16_towards y1 y2 k h2 h4 hk2 _ (by rw [hy]; ring)]

/-- For coordinates up to 16383 `LCD_DrawLine` terminates and its calls are the
points of the closed form, in order. -/
theorem LCD_DrawLine_calls_eq (x1 y1 x2 y2 fuel : Nat) (h1 : x1 ≤ 16383) (h2 : y1 ≤ 16383)
    (h3 : x2 ≤ 16383) (h4 : y2 ≤ 16383)
    (hfuel : max (absDiff x1 x2) (absDiff y1 y2) + 1 < fuel) :
    LCD_DrawLine_calls fuel x1 y1 x2 y2 =
      some ((List.range (max (absDiff x1 x2) (absDiff y1 y2) + 1)).map
        (linePoint x1 y1 x2 y2)) := by
  have hdx : absDiff x1 x2 ≤ 16383 := by unfold absDiff; split <;> omega
  have hdy : absDiff y1 y2 ≤ 16383 := by unfold absDiff; split <;> omega
  unfold LCD_DrawLine_calls
  rw [lineLoop_eq_map _ (max (absDiff x1 x2) (absDiff y1 y2))
    (lineInit_num_pixels x1 y1 x2 y2 (by omega) (by omega)) (by omega)
    (max (absDiff x1 x2) (absDiff y1 y2) + 1) 0 _ fuel (by omega)
    (by rw [lineInit_curpixel]; rfl) hfuel]
  congr 1
  apply List.map_congr_left
  intro k hk
  rw [List.mem_range] at hk
  exact linePixel_iterate x1 y1 x2 y2 k h1 h2 h3 h4 (by omega)

theorem lineMinor_zero (D d : Nat) : lineMinor D d 0 = 0 := by
  unfold lineMinor
  rcases Nat.eq_zero_or_pos D with h | h
  · subst h; simp
  · simp only [Nat.zero_mul, Nat.add_zero]
    exact Nat.div_eq_of_lt (by omega)

theorem lineMinor_last (D d : Nat) (hd : d ≤ D) : lineMinor D d D = d := by
  unfold lineMinor
  rcases Nat.eq_zero_or_pos D with h | h
  · subst h; simp; omega
  · rw [Nat.add_mul_div_left _ _ h, Nat.div_eq_of_lt (by omega)]; simp

theorem lineMinor_succ (D d k : Nat) (hd : d ≤ D) :
    lineMinor D d (k + 1) = lineMinor D d k ∨ lineMinor D d (k + 1) = lineMinor D d k + 1 := by
  unfold lineMinor
  rcases Nat.eq_zero_or_pos D with h | h
  · subst h; simp
  · have e : D / 2 + (k + 1) * d = D / 2 + k * d + d := by ring
    have a : (D / 2 + k * d) / D ≤ (D / 2 + k * d + d) / D :=
      Nat.div_le_div_right (by omega)
    have b : (D / 2 + k * d + d) / D ≤ (D / 2 + k * d + D) / D :=
      Nat.div_le_div_right (by omega)
    rw [Nat.add_div_right _ h] at b
    rw [e]
    omega

theorem towards_zero (a b : Nat) : towards a b 0 = a := by
  unfold towards; split <;> rfl

theorem towards_absDiff (a b : Nat) : towards a b (absDiff a b) = b := by
  unfold towards absDiff; split <;> omega

theorem towards_succ (a b n : Nat) (hn : n + 1 ≤ absDiff a b) :
    (towards a b (n + 1) : Int) = towards a b n + (if a ≤ b then 1 else -1) := by
  unfold absDiff at hn
  unfold towards
  split <;> rename_i h
  · push_cast; omega
  · rw [if_neg h] at hn
    omega

theorem towards_inj (a b n n2 : Nat) (hn : n ≤ absDiff a b) (hn2 : n2 ≤ absDiff a b)
    (h : towards a b n = towards a b n2) : n = n2 := by
  unfold absDiff at hn hn2
  unfold towards at h
  split at h <;> rename_i hab
  · omega
  · rw [if_neg hab] at hn hn2
    omega

theorem towards_surj (a b t : Nat) (h1 : min a b ≤ t) (h2 : t ≤ max a b) :
    absDiff a t ≤ absDiff a b ∧ towards a b (absDiff a t) = t := by
  unfold towards absDiff
  split <;> split <;> omega

/-- C2: for coordinates up to 16383, `LCD_DrawLine` terminates, the first
position it passes to `Fast_LCD_DrawPixel` is `(x1, y1)` and the last one is
`(x2, y2)`. -/
theorem LCD_DrawLine_endpoints (x1 y1 x2 y2 fuel : Nat) (h1 : x1 ≤ 16383) (h2 : y1 ≤ 16383)
    (h3 : x2 ≤ 16383) (h4 : y2 ≤ 16383)
    (hfuel : max (absDiff x1 x2) (absDiff y1 y2) + 1 < fuel) :
    ∃ l, LCD_DrawLine_calls fuel x1 y1 x2 y2 = some l ∧
      l.head? = some (x1, y1) ∧ l.getLast? = some (x2, y2) := by
  refine ⟨_, LCD_DrawLine_calls_eq x1 y1 x2 y2 fuel h1 h2 h3 h4 hfuel, ?_, ?_⟩
  · rw [List.head?_map, List.head?_range, if_neg (by omega)]
    simp only [Option.map_some', linePoint, towards_zero, lineMinor_zero]
    split <;> rfl
  · rw [List.getLast?_map, List.getLast?_range, if_neg (by omega)]
    simp only [Option.map_some', Nat.add_sub_cancel, linePoint]
    by_cases hmaj : absDiff y1 y2 ≤ absDiff x1 x2
    · rw [if_pos hmaj, max_eq_left hmaj, lineMinor_last _ _ hmaj, towards_absDiff, towards_absDiff]
    · rw [if_neg hmaj, max_eq_right (by omega), lineMinor_last _ _ (by omega), towards_absDiff,
        towards_absDiff]

theorem LCD_DrawLine_endpoints_witness :
    ∃ l, LCD_DrawLine_calls 7 5 5 2 0 = some l ∧
      l.head? = some (5, 5) ∧ l.getLast? = some (2, 0) :=
  LCD_DrawLine_endpoints 5 5 2 0 7 (by decide) (by decide) (by decide) (by decide) (by decide)

theorem getElem?_map_range {α : Type} (f : Nat → α) (n k : Nat) (p : α)
    (h : ((List.range n).map f)[k]? = some p) : k < n ∧ p = f k := by
  have hk : k < n := by
    by_contra hc
    rw [List.getElem?_eq_none (by simp; omega)] at h
    simp at h
  rw [List.getElem?_map, List.getElem?_range hk] at h
  simp at h
  exact ⟨hk, h.symm⟩

/-- C3: for coordinates up to 16383, consecutive pixels of `LCD_DrawLine` move
exactly one step towards `(x2, y2)` along the dominant axis (x when
`|x2-x1| >= |y2-y1|`, else y) and zero or one step along the other axis; no
pixel is emitted twice and every dominant-axis position between the end points
is visited. -/
theorem LCD_DrawLine_steps (x1 y1 x2 y2 fuel : Nat) (h1 : x1 ≤ 16383) (h2 : y1 ≤ 16383)
    (h3 : x2 ≤ 16383) (h4 : y2 ≤ 16383)
    (hfuel : max (absDiff x1 x2) (absDiff y1 y2) + 1 < fuel) :
    ∃ l, LCD_DrawLine_calls fuel x1 y1 x2 y2 = some l ∧
      (∀ (k : Nat) (p q : Pixel), l[k]? = some p → l[k + 1]? = some q →
        (absDiff y1 y2 ≤ absDiff x1 x2 →
          (q.1 : Int) = p.1 + (if x1 ≤ x2 then 1 else -1) ∧
          ((q.2 : Int) = p.2 ∨ (q.2 : Int) = p.2 + (if y1 ≤ y2 then 1 else -1))) ∧
        (absDiff x1 x2 < absDiff y1 y2 →
          (q.2 : Int) = p.2 + (if y1 ≤ y2 then 1 else -1) ∧
          ((q.1 : Int) = p.1 ∨ (q.1 : Int) = p.1 + (if x1 ≤ x2 then 1 else -1)))) ∧
      l.Nodup ∧
      (absDiff y1 y2 ≤ absDiff x1 x2 →
        ∀ t, min x1 x2 ≤ t → t ≤ max x1 x2 → ∃ p ∈ l, p.1 = t) ∧
      (absDiff x1 x2 < absDiff y1 y2 →
        ∀ t, min y1 y2 ≤ t → t ≤ max y1 y2 → ∃ p ∈ l, p.2 = t) := by
  refine ⟨_, LCD_DrawLine_calls_eq x1 y1 x2 y2 fuel h1 h2 h3 h4 hfuel, ?_, ?_, ?_, ?_⟩
  · intro k p q hp hq
    obtain ⟨-, rfl⟩ := getElem?_map_range _ _ _ _ hp
    obtain ⟨hk, rfl⟩ := getElem?_map_range _ _ _ _ hq
    constructor
    · intro hmaj
      rw [max_eq_left hmaj] at hk
      unfold linePoint
      rw [if_pos hmaj, if_pos hmaj]
      dsimp only
      refine ⟨towards_succ x1 x2 k (by omega), ?_⟩
      have hle := lineMinor_le (absDiff x1 x2) (absDiff y1 y2) (k + 1) (by omega)
      rcases lineMinor_succ (absDiff x1 x2) (absDiff y1 y2) k hmaj with e | e
      · left; rw [e]
      · right
        rw [e] at hle ⊢
        exact towards_succ y1 y2 _ hle
    · intro hmaj
      rw [max_eq_right (by omega)] at hk
      unfold linePoint
      rw [if_neg (by omega), if_neg (by omega)]
      dsimp only
      refine ⟨towards_succ y1 y2 k (by omega), ?_⟩
      have hle := lineMinor_le (absDiff y1 y2) (absDiff x1 x2) (k + 1) (by omega)
      rcases lineMinor_succ (absDiff y1 y2) (absDiff x1 x2) k (by omega) with e | e
      · left; rw [e]
      · right
        rw [e] at hle ⊢
        exact towards_succ x1 x2 _ hle
  · apply List.Nodup.map_on _ (List.nodup_range _)
    intro a ha b hb hab
    rw [List.mem_range] at ha hb
    by_cases hmaj : absDiff y1 y2 ≤ absDiff x1 x2
    · rw [max_eq_left hmaj] at ha hb
      simp only [linePoint, if_pos hmaj, Prod.mk.injEq] at hab
      exact towards_inj x1 x2 a b (by omega) (by omega) hab.1
    · rw [max_eq_right (by omega)] at ha hb
      simp only [linePoint, if_neg hmaj, Prod.mk.injEq] at hab
      exact towards_inj y1 y2 a b (by omega) (by omega) hab.2
  · intro hmaj t ht1 ht2
    obtain ⟨hk, ht⟩ := towards_surj x1 x2 t ht1 ht2
    refine ⟨linePoint x1 y1 x2 y2 (absDiff x1 t), List.mem_map.2 ⟨absDiff x1 t, ?_, rfl⟩, ?_⟩
    · rw [List.mem_range, max_eq_left hmaj]; omega
    · unfold linePoint; rw [if_pos hmaj]; exact ht
  · intro hmaj t ht1 ht2
    obtain ⟨hk, ht⟩ := towards_surj y1 y2 t ht1 ht2
    refine ⟨linePoint x1 y1 x2 y2 (absDiff y1 t), List.mem_map.2 ⟨absDiff y1 t, ?_, rfl⟩, ?_⟩
    · rw [List.mem_range, max_eq_right (by omega)]; omega
    · unfold linePoint; rw [if_neg (by omega)]; exact ht

theorem LCD_DrawLine_steps_witness :
    ∃ l, LCD_DrawLine_calls 7 5 5 2 0 = some l ∧
      (∀ (k : Nat) (p q : Pixel), l[k]? = some p → l[k + 1]? = some q →
        (absDiff 5 0 ≤ absDiff 5 2 →
          (q.1 : Int) = p.1 + (if 5 ≤ 2 then 1 else -1) ∧
          ((q.2 : Int) = p.2 ∨ (q.2 : Int) = p.2 + (if 5 ≤ 0 then 1 else -1))) ∧
        (absDiff 5 2 < absDiff 5 0 →
          (q.2 : Int) = p.2 + (if 5 ≤ 0 then 1 else -1) ∧
          ((q.1 : Int) = p.1 ∨ (q.1 : Int) = p.1 + (if 5 ≤ 2 then 1 else -1)))) ∧
      l.Nodup ∧
      (absDiff 5 0 ≤ absDiff 5 2 →
        ∀ t, min 5 2 ≤ t → t ≤ max 5 2 → ∃ p ∈ l, p.1 = t) ∧
      (absDiff 5 2 < absDiff 5 0 →
        ∀ t, min 5 0 ≤ t → t ≤ max 5 0 → ∃ p ∈ l, p.2 = t) :=
  LCD_DrawLine_steps 5 5 2 0 7 (by decide) (by decide) (by decide) (by decide) (by decide)

/-! ## Memory accesses -/

theorem byteOf_val (v i : Nat) : (byteOf v i).val = v / 256 ^ i % 256 := rfl

theorem read32_write32_same (m : Mem) (a v : Nat) : read32 (write32 m a v) a = v % 2 ^ 32 := by
  have e1 : a + 1 ≠ a := by omega
  have e2 : a + 2 ≠ a := by omega
  have e3 : a + 3 ≠ a := by omega
  simp only [read32, write32, if_true, if_false, e1, e2, e3, byteOf_val, add_right_inj,
    OfNat.ofNat_ne_one, Nat.succ_ne_self, if_neg, not_false_eq_true, reduceCtorEq]
  norm_num
  omega

theorem write32_outside (m : Mem) (a v i : Nat) (h : i < a ∨ a + 4 ≤ i) :
    write32 m a v i = m i := by
  unfold write32
  rw [if_neg (by omega), if_neg (by omega), if_neg (by omega), if_neg (by omega)]

theorem read32_write32_disjoint (m : Mem) (a b v : Nat) (h : b + 4 ≤ a ∨ a + 4 ≤ b) :
    read32 (write32 m a v) b = read32 m b := by
  unfold read32
  rw [write32_outside m a v b (by omega), write32_outside m a v (b + 1) (by omega),
    write32_outside m a v (b + 2) (by omega), write32_outside m a v (b + 3) (by omega)]

theorem read16_write16_same (m : Mem) (a v : Nat) : read16 (write16 m a v) a = v % 2 ^ 16 := by
  have e1 : a + 1 ≠ a := by omega
  simp only [read16, write16, if_true, if_false, e1, byteOf_val]
  norm_num
  omega

theorem read16_lt (m : Mem) (a : Nat) : read16 m a < 2 ^ 16 := by
  unfold read16
  have h0 := (m a).isLt
  have h1 := (m (a + 1)).isLt
  omega

theorem read8_lt (m : Mem) (a : Nat) : read8 m a < 2 ^ 8 := by
  unfold read8
  have h0 := (m a).isLt
  omega

theorem read32_lt (m : Mem) (a : Nat) : read32 m a < 2 ^ 32 := by
  unfold read32
  have h0 := (m a).isLt
  have h1 := (m (a + 1)).isLt
  have h2 := (m (a + 2)).isLt
  have h3 := (m (a + 3)).isLt
  omega

/-! ## `Fast_LCD_DrawPixel` -/

/-- The window test of `Fast_LCD_DrawPixel` as the code evaluates it. -/
theorem Fast_LCD_DrawPixel_eq (s : LCD) (Xpos Ypos ARGB_Code : Nat) :
    Fast_LCD_DrawPixel s Xpos Ypos ARGB_Code =
      if (s.ProjectionLayerAddress s.LayerOfView + 2 ^ 32 - 1) % 2 ^ 32 < fastAddress s Xpos Ypos ∧
          fastAddress s Xpos Ypos < (s.ProjectionLayerAddress s.LayerOfView + s.LAYERS_SIZE) % 2 ^ 32
      then { s with mem := write32 s.mem (fastAddress s Xpos Ypos) ARGB_Code }
      else s := by
  unfold Fast_LCD_DrawPixel
  dsimp only
  by_cases h1 : fastAddress s Xpos Ypos > (s.ProjectionLayerAddress s.LayerOfView + 2 ^ 32 - 1) % 2 ^ 32
  · by_cases h2 : fastAddress s Xpos Ypos <
        (s.ProjectionLayerAddress s.LayerOfView + s.LAYERS_SIZE) % 2 ^ 32
    · rw [if_pos h1, if_pos h2, if_pos ⟨h1, h2⟩]
    · rw [if_pos h1, if_neg h2, if_neg (fun h => h2 h.2)]
  · rw [if_neg h1, if_neg (fun h => h1 h.1)]

/-- C4 (amended): for a base address of at least 1 with
`base + LAYERS_SIZE < 2^32` (neither bound of the window test wraps in 32 bits),
`Fast_LCD_DrawPixel` stores the colour in the 32-bit word at
`addr = base + 4*(Ypos*DisplayWIDTH + Xpos)` (mod `2^32`) and changes nothing
else when `base <= addr < base + LAYERS_SIZE`, and changes nothing at all
otherwise.  A write at `base + LAYERS_SIZE` is dropped; with `LAYERS_SIZE >= 4`
writes at `base` and at `base + LAYERS_SIZE - 4` are performed. -/
theorem Fast_LCD_DrawPixel_window (s : LCD) (Xpos Ypos colour : Nat)
    (hbase : 1 ≤ s.ProjectionLayerAddress s.LayerOfView)
    (hwin : s.ProjectionLayerAddress s.LayerOfView + s.LAYERS_SIZE < 2 ^ 32) :
    (s.ProjectionLayerAddress s.LayerOfView ≤ fastAddress s Xpos Ypos ∧
      fastAddress s Xpos Ypos < s.ProjectionLayerAddress s.LayerOfView + s.LAYERS_SIZE →
        Fast_LCD_DrawPixel s Xpos Ypos colour =
          { s with mem := write32 s.mem (fastAddress s Xpos Ypos) colour } ∧
        read32 (Fast_LCD_DrawPixel s Xpos Ypos colour).mem (fastAddress s Xpos Ypos) =
          colour % 2 ^ 32 ∧
        ∀ i, i < fastAddress s Xpos Ypos ∨ fastAddress s Xpos Ypos + 4 ≤ i →
          (Fast_LCD_DrawPixel s Xpos Ypos colour).mem i = s.mem i) ∧
    (¬ (s.ProjectionLayerAddress s.LayerOfView ≤ fastAddress s Xpos Ypos ∧
      fastAddress s Xpos Ypos < s.ProjectionLayerAddress s.LayerOfView + s.LAYERS_SIZE) →
        Fast_LCD_DrawPixel s Xpos Ypos colour = s) ∧
    (fastAddress s Xpos Ypos = s.ProjectionLayerAddress s.LayerOfView + s.LAYERS_SIZE →
        Fast_LCD_DrawPixel s Xpos Ypos colour = s) ∧
    (4 ≤ s.LAYERS_SIZE →
      (fastAddress s Xpos Ypos = s.ProjectionLayerAddress s.LayerOfView ∨
        fastAddress s Xpos Ypos = s.ProjectionLayerAddress s.LayerOfView + s.LAYERS_SIZE - 4) →
        Fast_LCD_DrawPixel s Xpos Ypos colour =
          { s with mem := write32 s.mem (fastAddress s Xpos Ypos) colour }) := by
  have haddr : fastAddress s Xpos Ypos < 2 ^ 32 := Nat.mod_lt _ (by decide)
  have key : ∀ (hin : s.ProjectionLayerAddress s.LayerOfView ≤ fastAddress s Xpos Ypos ∧
      fastAddress s Xpos Ypos < s.ProjectionLayerAddress s.LayerOfView + s.LAYERS_SIZE),
      Fast_LCD_DrawPixel s Xpos Ypos colour =
        { s with mem := write32 s.mem (fastAddress s Xpos Ypos) colour } := by
    intro hin
    rw [Fast_LCD_DrawPixel_eq, if_pos]
    constructor <;> omega
  have drop : ¬ (s.ProjectionLayerAddress s.LayerOfView ≤ fastAddress s Xpos Ypos ∧
      fastAddress s Xpos Ypos < s.ProjectionLayerAddress s.LayerOfView + s.LAYERS_SIZE) →
        Fast_LCD_DrawPixel s Xpos Ypos colour = s := by
    intro hout
    rw [Fast_LCD_DrawPixel_eq, if_neg]
    intro hc
    apply hout
    constructor <;> omega
  refine ⟨fun hin => ⟨key hin, ?_, ?_⟩, drop, fun h => drop (by omega), fun h4 h => key (by omega)⟩
  · rw [key hin]
    exact read32_write32_same _ _ _
  · intro i hi
    rw [key hin]
    exact write32_outside _ _ _ _ hi

theorem Fast_LCD_DrawPixel_window_witness :
    (sampleLCD PixelFormat.ARGB8888 3221225472 800 480 4294901760 3221225472 0).ProjectionLayerAddress 0
        ≤ fastAddress (sampleLCD PixelFormat.ARGB8888 3221225472 800 480 4294901760 3221225472 0) 3 2 ∧
      Fast_LCD_DrawPixel (sampleLCD PixelFormat.ARGB8888 3221225472 800 480 4294901760 3221225472 0)
          0 480 4294901760 =
        sampleLCD PixelFormat.ARGB8888 3221225472 800 480 4294901760 3221225472 0 :=
  ⟨by decide,
   (Fast_LCD_DrawPixel_window
      (sampleLCD PixelFormat.ARGB8888 3221225472 800 480 4294901760 3221225472 0) 0 480 4294901760
      (by decide) (by decide)).2.2.1 (by decide)⟩

/-- C4 as stated fails for the base address 0: the lower bound of the window test
is `addressDraw > base - 1` in `uint32_t` arithmetic, `0 - 1` is `0xFFFFFFFF`, and
the write at `addr = base` that the claim promises is dropped. -/
theorem Fast_LCD_DrawPixel_window_counterexample :
    (sampleLCD PixelFormat.ARGB8888 0 800 480 4294901760 0 0).ProjectionLayerAddress 0 = 0 ∧
    fastAddress (sampleLCD PixelFormat.ARGB8888 0 800 480 4294901760 0 0) 0 0 = 0 ∧
    0 < (sampleLCD PixelFormat.ARGB8888 0 800 480 4294901760 0 0).LAYERS_SIZE ∧
    Fast_LCD_DrawPixel (sampleLCD PixelFormat.ARGB8888 0 800 480 4294901760 0 0) 0 0 4294901760 =
      sampleLCD PixelFormat.ARGB8888 0 800 480 4294901760 0 0 ∧
    read32 (Fast_LCD_DrawPixel (sampleLCD PixelFormat.ARGB8888 0 800 480 4294901760 0 0)
      0 0 4294901760).mem 0 ≠ 4294901760 := by
  refine ⟨rfl, by decide, by decide, ?_, ?_⟩
  · rw [Fast_LCD_DrawPixel_eq, if_neg (by decide)]
  · rw [Fast_LCD_DrawPixel_eq, if_neg (by decide)]
    decide

/-! ## `LCD_DrawPixel` and `LCD_ReadPixel` -/

/-- C5 (amended): `LCD_DrawPixel` stores at byte offset
`stride*Ypos + bytesPerPixel*Xpos` (address arithmetic mod `2^32`) from the
active layer's frame-buffer start, with `stride = width*bytesPerPixel`, where
`bytesPerPixel` is 2 for RGB565 (a 16-bit store of the low half of the colour)
and 4 for every other format (a 32-bit store). -/
theorem LCD_DrawPixel_offset (s : LCD) (Xpos Ypos c : Nat) :
    drawBytesPerPixel PixelFormat.RGB565 = 2 ∧
    (∀ fmt, fmt ≠ PixelFormat.RGB565 → drawBytesPerPixel fmt = 4) ∧
    ((s.LayerCfg s.ActiveLayer).PixelFormat = PixelFormat.RGB565 →
      LCD_DrawPixel s Xpos Ypos c =
        { s with mem :=
            write16 s.mem (pixelAddress drawBytesPerPixel s Xpos Ypos) (c % 2 ^ 16) }) ∧
    ((s.LayerCfg s.ActiveLayer).PixelFormat ≠ PixelFormat.RGB565 →
      LCD_DrawPixel s Xpos Ypos c =
        { s with mem := write32 s.mem (pixelAddress drawBytesPerPixel s Xpos Ypos) c }) := by
  refine ⟨rfl, fun fmt h => by simp [drawBytesPerPixel, h], ?_, ?_⟩
  · intro h
    unfold LCD_DrawPixel layerAddress LCD_GetXSize pixelAddress drawBytesPerPixel
    simp only [if_pos h]
    congr 3
    ring_nf
  · intro h
    unfold LCD_DrawPixel layerAddress LCD_GetXSize pixelAddress drawBytesPerPixel
    simp only [if_neg h]
    congr 3
    ring_nf

/-- C5 as stated fails: on an ARGB4444 layer the specification's 2 bytes per
pixel put pixel (1, 0) at byte offset 2, but `LCD_DrawPixel` stores a 32-bit word
at offset 4; the byte at offset 2 keeps its value. -/
theorem LCD_DrawPixel_offset_counterexample :
    pixelAddress specBytesPerPixel
      (sampleLCD PixelFormat.ARGB4444 3221225472 800 480 0 3221225472 0) 1 0 = 3221225472 + 2 ∧
    (LCD_DrawPixel (sampleLCD PixelFormat.ARGB4444 3221225472 800 480 0 3221225472 0)
      1 0 287454020).mem (3221225472 + 2) = 0 ∧
    (LCD_DrawPixel (sampleLCD PixelFormat.ARGB4444 3221225472 800 480 0 3221225472 0)
      1 0 287454020).mem (3221225472 + 3) = 0 ∧
    read32 (LCD_DrawPixel (sampleLCD PixelFormat.ARGB4444 3221225472 800 480 0 3221225472 0)
      1 0 287454020).mem (3221225472 + 4) = 287454020 := by
  decide

/-- On an RGB565 layer a pixel read back right after it was drawn is the low
16 bits of the colour. -/
theorem LCD_ReadPixel_DrawPixel_RGB565 (s : LCD) (Xpos Ypos c : Nat)
    (hfmt : (s.LayerCfg s.ActiveLayer).PixelFormat = PixelFormat.RGB565) :
    LCD_ReadPixel (LCD_DrawPixel s Xpos Ypos c) Xpos Ypos = c % 2 ^ 16 := by
  unfold LCD_DrawPixel
  rw [if_pos hfmt]
  unfold LCD_ReadPixel
  simp only [hfmt, layerAddress, LCD_GetXSize, reduceCtorEq, if_false, true_or, if_true]
  rw [read16_write16_same]
  exact Nat.mod_mod _ _

/-- C6 (code defect): on an ARGB8888 layer `LCD_DrawPixel(2, 0, c)` stores at byte
offset 8 while `LCD_ReadPixel(2, 0)` reads at byte offset 4, so the value read
back is the old content of another pixel, not `c`. -/
theorem LCD_ReadPixel_DrawPixel_ARGB8888 :
    LCD_ReadPixel
      (LCD_DrawPixel (sampleLCD PixelFormat.ARGB8888 3221225472 800 480 0 3221225472 0)
        2 0 4294901760) 2 0 = 0 ∧
    layerAddress (sampleLCD PixelFormat.ARGB8888 3221225472 800 480 0 3221225472 0) 4 2 0
      = 3221225472 + 8 ∧
    layerAddress (sampleLCD PixelFormat.ARGB8888 3221225472 800 480 0 3221225472 0) 2 2 0
      = 3221225472 + 4 := by
  decide

/-- C7 (amended): `LCD_ReadPixel` reads at `FBStartAdress + 2*(Ypos*XSize + Xpos)`
with a width chosen by the active layer's format: 4 bytes, returned unmodified,
for ARGB8888; 4 bytes with the top byte masked off (`& 0x00FFFFFF`, result below
`2^24`) for RGB888; 2 bytes for RGB565, ARGB4444 and AL88 (result below `2^16`);
1 byte for every other format (result below `2^8`). -/
theorem LCD_ReadPixel_width (s : LCD) (Xpos Ypos : Nat) :
    ((s.LayerCfg s.ActiveLayer).PixelFormat = PixelFormat.ARGB8888 →
      LCD_ReadPixel s Xpos Ypos = read32 s.mem (layerAddress s 2 Xpos Ypos)) ∧
    ((s.LayerCfg s.ActiveLayer).PixelFormat = PixelFormat.RGB888 →
      LCD_ReadPixel s Xpos Ypos = read32 s.mem (layerAddress s 2 Xpos Ypos) % 2 ^ 24 ∧
      LCD_ReadPixel s Xpos Ypos < 2 ^ 24) ∧
    ((s.LayerCfg s.ActiveLayer).PixelFormat = PixelFormat.RGB565 ∨
      (s.LayerCfg s.ActiveLayer).PixelFormat = PixelFormat.ARGB4444 ∨
      (s.LayerCfg s.ActiveLayer).PixelFormat = PixelFormat.AL88 →
      LCD_ReadPixel s Xpos Ypos = read16 s.mem (layerAddress s 2 Xpos Ypos) ∧
      LCD_ReadPixel s Xpos Ypos < 2 ^ 16) ∧
    ((s.LayerCfg s.ActiveLayer).PixelFormat = PixelFormat.ARGB1555 ∨
      (s.LayerCfg s.ActiveLayer).PixelFormat = PixelFormat.L8 ∨
      (s.LayerCfg s.ActiveLayer).PixelFormat = PixelFormat.AL44 →
      LCD_ReadPixel s Xpos Ypos = read8 s.mem (layerAddress s 2 Xpos Ypos) ∧
      LCD_ReadPixel s Xpos Ypos < 2 ^ 8) := by
  have hmask : ∀ n : Nat, n &&& 0x00FFFFFF = n % 2 ^ 24 := fun n =>
    Nat.and_pow_two_sub_one_eq_mod n 24
  refine ⟨?_, ?_, ?_, ?_⟩
  · intro h
    simp [LCD_ReadPixel, h]
  · intro h
    have e : LCD_ReadPixel s Xpos Ypos = read32 s.mem (layerAddress s 2 Xpos Ypos) % 2 ^ 24 := by
      simp only [LCD_ReadPixel, h, reduceCtorEq, if_false, if_true]
      exact hmask _
    exact ⟨e, by rw [e]; exact Nat.mod_lt _ (by decide)⟩
  · intro h
    have e : LCD_ReadPixel s Xpos Ypos = read16 s.mem (layerAddress s 2 Xpos Ypos) := by
      rcases h with h | h | h <;> simp [LCD_ReadPixel, h]
    exact ⟨e, by rw [e]; exact read16_lt _ _⟩
  · intro h
    have e : LCD_ReadPixel s Xpos Ypos = read8 s.mem (layerAddress s 2 Xpos Ypos) := by
      rcases h with h | h | h <;> simp [LCD_ReadPixel, h]
    exact ⟨e, by rw [e]; exact read8_lt _ _⟩

/-- C7 as stated fails for RGB888: the four bytes read are `0xFFFFFFFF`, the
value returned is `0x00FFFFFF`. -/
theorem LCD_ReadPixel_width_counterexample :
    read32 (sampleLCD PixelFormat.RGB888 3221225472 800 480 0 3221225472 255).mem
      (layerAddress (sampleLCD PixelFormat.RGB888 3221225472 800 480 0 3221225472 255) 2 0 0)
      = 4294967295 ∧
    LCD_ReadPixel (sampleLCD PixelFormat.RGB888 3221225472 800 480 0 3221225472 255) 0 0
      = 16777215 := by
  decide

/-! ## Block fills -/

theorem foldl_write32_outside (v : Nat) (l : List Nat) (m : Mem) (i : Nat)
    (h : ∀ a ∈ l, i < a ∨ a + 4 ≤ i) :
    (l.foldl (fun m a => write32 m a v) m) i = m i := by
  induction l generalizing m with
  | nil => rfl
  | cons a rest ih =>
    rw [List.foldl_cons, ih _ (fun b hb => h b (List.mem_cons_of_mem _ hb)),
      write32_outside _ _ _ _ (h a (List.mem_cons_self _ _))]

theorem foldl_write32_read_disjoint (v : Nat) (l : List Nat) (m : Mem) (b : Nat)
    (h : ∀ a ∈ l, b + 4 ≤ a ∨ a + 4 ≤ b) :
    read32 (l.foldl (fun m a => write32 m a v) m) b = read32 m b := by
  unfold read32
  rw [foldl_write32_outside v l m b (fun a ha => by have := h a ha; omega),
    foldl_write32_outside v l m (b + 1) (fun a ha => by have := h a ha; omega),
    foldl_write32_outside v l m (b + 2) (fun a ha => by have := h a ha; omega),
    foldl_write32_outside v l m (b + 3) (fun a ha => by have := h a ha; omega)]

theorem foldl_write32_read (v : Nat) (l : List Nat) (m : Mem) (b : Nat) (hb : b ∈ l)
    (h : ∀ a ∈ l, a = b ∨ b + 4 ≤ a ∨ a + 4 ≤ b) :
    read32 (l.foldl (fun m a => write32 m a v) m) b = v % 2 ^ 32 := by
  induction l generalizing m with
  | nil => simp at hb
  | cons a rest ih =>
    rw [List.foldl_cons]
    by_cases hr : b ∈ rest
    · exact ih _ hr (fun c hc => h c (List.mem_cons_of_mem _ hc))
    · have hab : b = a := by
        rcases List.mem_cons.1 hb with e | e
        · exact e
        · exact absurd e hr
      subst hab
      rw [foldl_write32_read_disjoint v rest _ b, read32_write32_same]
      intro c hc
      rcases h c (List.mem_cons_of_mem _ hc) with e | e
      · subst e; exact absurd hc hr
      · exact e

theorem mem_blockAddresses (bpp dst W H off a : Nat) :
    a ∈ blockAddresses bpp dst W H off ↔
      ∃ r, r < H ∧ ∃ c, c < W ∧ a = dst + bpp * (r * (W + off) + c) := by
  unfold blockAddresses
  simp only [List.mem_flatMap, List.mem_map, List.mem_range]
  constructor
  · rintro ⟨r, hr, c, hc, rfl⟩
    exact ⟨r, hr, c, hc, rfl⟩
  · rintro ⟨r, hr, c, hc, rfl⟩
    exact ⟨r, hr, c, hc, rfl⟩

theorem index_inj (n x y x2 y2 : Nat) (hx : x < n) (hx2 : x2 < n)
    (h : n * y + x = n * y2 + x2) : y = y2 ∧ x = x2 := by
  have h1 : (n * y + x) % n = (n * y2 + x2) % n := by rw [h]
  rw [Nat.mul_add_mod, Nat.mul_add_mod, Nat.mod_eq_of_lt hx, Nat.mod_eq_of_lt hx2] at h1
  subst h1
  have hn : 0 < n := by omega
  exact ⟨Nat.eq_of_mul_eq_mul_left hn (Nat.add_right_cancel h), rfl⟩

theorem index_lt (n h x y : Nat) (hx : x < n) (hy : y < h) : n * y + x < n * h := by
  calc n * y + x < n * y + n := by omega
    _ = n * (y + 1) := by ring
    _ ≤ n * h := Nat.mul_le_mul_left n hy

theorem LCD_SetTextColor_same (s : LCD) :
    LCD_SetTextColor s (s.DrawProp s.ActiveLayer).TextColor = s := by
  unfold LCD_SetTextColor
  dsimp only
  rw [Function.update_eq_self]

/-- Function `LL_FillBuffer` on a layer that is not RGB565 when the three HAL calls succeed. -/
theorem LL_FillBuffer_ARGB8888 (s : LCD) (LayerIndex pDst xSize ySize OffLine ColorIndex : Nat)
    (hfmt : (s.LayerCfg s.ActiveLayer).PixelFormat ≠ PixelFormat.RGB565)
    (h1 : s.dma2d.initOK = true) (h2 : s.dma2d.configOK = true) (h3 : s.dma2d.startOK = true) :
    LL_FillBuffer s LayerIndex pDst xSize ySize OffLine ColorIndex =
      { s with
        dma2dInit := { Mode := DMA2D_Mode.DMA2D_R2M, ColorMode := DMA2D_ColorMode.DMA2D_ARGB8888,
                       OutputOffset := OffLine }
        mem := (blockAddresses 4 pDst xSize ySize OffLine).foldl
          (fun m a => write32 m a ColorIndex) s.mem } := by
  unfold LL_FillBuffer HAL_DMA2D_Transfer
  simp only [h1, h2, h3, if_true, if_neg hfmt]

/-- The memory after a successful `LCD_FillRect` on a layer that is not RGB565
whose rectangle lies inside the surface. -/
theorem LCD_FillRect_eq (s : LCD) (Xpos Ypos Width Height : Nat)
    (hfmt : (s.LayerCfg s.ActiveLayer).PixelFormat ≠ PixelFormat.RGB565)
    (h1 : s.dma2d.initOK = true) (h2 : s.dma2d.configOK = true) (h3 : s.dma2d.startOK = true) :
    LCD_FillRect s Xpos Ypos Width Height =
      { s with
        dma2dInit := { Mode := DMA2D_Mode.DMA2D_R2M, ColorMode := DMA2D_ColorMode.DMA2D_ARGB8888,
                       OutputOffset := (LCD_GetXSize s + 2 ^ 32 - Width) % 2 ^ 32 }
        mem := (blockAddresses 4 (lineAddress s Xpos Ypos) Width Height
            ((LCD_GetXSize s + 2 ^ 32 - Width) % 2 ^ 32)).foldl
          (fun m a => write32 m a (s.DrawProp s.ActiveLayer).TextColor) s.mem } := by
  unfold LCD_FillRect
  dsimp only
  rw [LCD_SetTextColor_same, LL_FillBuffer_ARGB8888 s _ _ _ _ _ _ hfmt h1 h2 h3]

/-- Inside the surface the block written by `LCD_FillRect` is the rectangle. -/
theorem fillRect_addresses (s : LCD) (Xpos Ypos Width Height a : Nat)
    (hfmt : (s.LayerCfg s.ActiveLayer).PixelFormat ≠ PixelFormat.RGB565)
    (hfit : (s.LayerCfg s.ActiveLayer).FBStartAdress + 4 * (LCD_GetXSize s * LCD_GetYSize s)
      ≤ 2 ^ 32)
    (hx : Xpos + Width ≤ LCD_GetXSize s) (hy : Ypos + Height ≤ LCD_GetYSize s) :
    a ∈ blockAddresses 4 (lineAddress s Xpos Ypos) Width Height
        ((LCD_GetXSize s + 2 ^ 32 - Width) % 2 ^ 32) ↔
      ∃ r, r < Height ∧ ∃ c, c < Width ∧
        a = (s.LayerCfg s.ActiveLayer).FBStartAdress +
          4 * (LCD_GetXSize s * (Ypos + r) + (Xpos + c)) := by
  rw [mem_blockAddresses]
  constructor
  · rintro ⟨r, hr, c, hc, rfl⟩
    refine ⟨r, hr, c, hc, ?_⟩
    have hlt := index_lt (LCD_GetXSize s) (LCD_GetYSize s) Xpos Ypos (by omega) (by omega)
    have hX : LCD_GetXSize s < 2 ^ 32 := by
      have : LCD_GetXSize s * 1 ≤ LCD_GetXSize s * LCD_GetYSize s :=
        Nat.mul_le_mul_left _ (by omega)
      omega
    unfold lineAddress
    rw [if_neg hfmt, Nat.mod_eq_of_lt (by omega)]
    have hoff : (LCD_GetXSize s + 2 ^ 32 - Width) % 2 ^ 32 = LCD_GetXSize s - Width := by omega
    rw [hoff, Nat.add_sub_cancel' (by omega : Width ≤ LCD_GetXSize s)]
    ring
  · rintro ⟨r, hr, c, hc, rfl⟩
    refine ⟨r, hr, c, hc, ?_⟩
    have hlt := index_lt (LCD_GetXSize s) (LCD_GetYSize s) Xpos Ypos (by omega) (by omega)
    have hX : LCD_GetXSize s < 2 ^ 32 := by
      have : LCD_GetXSize s * 1 ≤ LCD_GetXSize s * LCD_GetYSize s :=
        Nat.mul_le_mul_left _ (by omega)
      omega
    unfold lineAddress
    rw [if_neg hfmt, Nat.mod_eq_of_lt (by omega)]
    have hoff : (LCD_GetXSize s + 2 ^ 32 - Width) % 2 ^ 32 = LCD_GetXSize s - Width := by omega
    rw [hoff, Nat.add_sub_cancel' (by omega : Width ≤ LCD_GetXSize s)]
    ring

/-- C8: when the three HAL calls succeed and the DMA2D engine performs its
register-to-memory fill, `LCD_FillRect` on an ARGB8888 layer whose frame buffer
lies in the 32-bit address space, for a rectangle inside the surface, sets
exactly the pixels with `Xpos <= x < Xpos+Width`, `Ypos <= y < Ypos+Height` to
`TextColor`; every other pixel of the surface, every byte outside the frame
buffer, the draw properties and the layer configuration are unchanged. -/
theorem LCD_FillRect_pixels (s : LCD) (Xpos Ypos Width Height : Nat)
    (hfmt : (s.LayerCfg s.ActiveLayer).PixelFormat = PixelFormat.ARGB8888)
    (h1 : s.dma2d.initOK = true) (h2 : s.dma2d.configOK = true) (h3 : s.dma2d.startOK = true)
    (hfit : (s.LayerCfg s.ActiveLayer).FBStartAdress + 4 * (LCD_GetXSize s * LCD_GetYSize s)
      ≤ 2 ^ 32)
    (hcol : (s.DrawProp s.ActiveLayer).TextColor < 2 ^ 32)
    (hx : Xpos + Width ≤ LCD_GetXSize s) (hy : Ypos + Height ≤ LCD_GetYSize s) :
    (∀ x y, x < LCD_GetXSize s → y < LCD_GetYSize s →
      pixel32 (LCD_FillRect s Xpos Ypos Width Height) x y =
        if Xpos ≤ x ∧ x < Xpos + Width ∧ Ypos ≤ y ∧ y < Ypos + Height then
          (s.DrawProp s.ActiveLayer).TextColor
        else pixel32 s x y) ∧
    (∀ i, i < (s.LayerCfg s.ActiveLayer).FBStartAdress ∨
        (s.LayerCfg s.ActiveLayer).FBStartAdress + 4 * (LCD_GetXSize s * LCD_GetYSize s) ≤ i →
      (LCD_FillRect s Xpos Ypos Width Height).mem i = s.mem i) ∧
    (LCD_FillRect s Xpos Ypos Width Height).DrawProp = s.DrawProp ∧
    (LCD_FillRect s Xpos Ypos Width Height).LayerCfg = s.LayerCfg ∧
    (LCD_FillRect s Xpos Ypos Width Height).ActiveLayer = s.ActiveLayer := by
  have hne : (s.LayerCfg s.ActiveLayer).PixelFormat ≠ PixelFormat.RGB565 := by
    rw [hfmt]; decide
  have hmem := fillRect_addresses s Xpos Ypos Width Height
  rw [LCD_FillRect_eq s Xpos Ypos Width Height hne h1 h2 h3]
  refine ⟨?_, ?_, rfl, rfl, rfl⟩
  · intro x y hxs hys
    show read32 _ ((s.LayerCfg s.ActiveLayer).FBStartAdress + 4 * (LCD_GetXSize s * y + x)) = _
    by_cases hin : Xpos ≤ x ∧ x < Xpos + Width ∧ Ypos ≤ y ∧ y < Ypos + Height
    · rw [if_pos hin, foldl_write32_read, Nat.mod_eq_of_lt hcol]
      · refine (hmem _ hne hfit hx hy).2 ⟨y - Ypos, by omega, x - Xpos, by omega, ?_⟩
        rw [Nat.add_sub_cancel' hin.2.2.1, Nat.add_sub_cancel' hin.1]
      · intro a ha
        obtain ⟨r, -, c, -, rfl⟩ := (hmem _ hne hfit hx hy).1 ha
        omega
    · rw [if_neg hin, foldl_write32_read_disjoint]
      · rfl
      · intro a ha
        obtain ⟨r, hr, c, hc, rfl⟩ := (hmem _ hne hfit hx hy).1 ha
        have hneq : LCD_GetXSize s * (Ypos + r) + (Xpos + c) ≠ LCD_GetXSize s * y + x := by
          intro e
          have := index_inj (LCD_GetXSize s) (Xpos + c) (Ypos + r) x y (by omega) hxs e
          omega
        omega
  · intro i hi
    dsimp only
    apply foldl_write32_outside
    intro a ha
    obtain ⟨r, hr, c, hc, rfl⟩ := (hmem _ hne hfit hx hy).1 ha
    have hlt := index_lt (LCD_GetXSize s) (LCD_GetYSize s) (Xpos + c) (Ypos + r)
      (by omega) (by omega)
    omega

theorem LCD_FillRect_pixels_witness :
    pixel32 (LCD_FillRect (sampleLCD PixelFormat.ARGB8888 3221225472 800 480 4294901760
        3221225472 0) 0 0 10 1) 0 0 = 4294901760 ∧
    pixel32 (LCD_FillRect (sampleLCD PixelFormat.ARGB8888 3221225472 800 480 4294901760
        3221225472 0) 0 0 10 1) 9 0 = 4294901760 ∧
    pixel32 (LCD_FillRect (sampleLCD PixelFormat.ARGB8888 3221225472 800 480 4294901760
        3221225472 0) 0 0 10 1) 10 0 = 0 ∧
    pixel32 (LCD_FillRect (sampleLCD PixelFormat.ARGB8888 3221225472 800 480 4294901760
        3221225472 0) 0 0 10 1) 0 1 = 0 :=
  have h := LCD_FillRect_pixels
    (sampleLCD PixelFormat.ARGB8888 3221225472 800 480 4294901760 3221225472 0) 0 0 10 1
    rfl rfl rfl rfl (by decide) (by decide) (by decide) (by decide)
  ⟨(h.1 0 0 (by decide) (by decide)).trans (if_pos (by decide)),
   (h.1 9 0 (by decide) (by decide)).trans (if_pos (by decide)),
   (h.1 10 0 (by decide) (by decide)).trans (if_neg (by decide)),
   (h.1 0 1 (by decide) (by decide)).trans (if_neg (by decide))⟩

/-- C9 (code defect): `LCD_DrawRect(0, 0, 2, 2)` on an ARGB8888 surface paints the
corners (0,0), (2,0) and (0,2) but leaves the corner (2,2) untouched: the second
horizontal line stops at `Xpos+Width-1` and the second vertical line at
`Ypos+Height-1`, so the outline is not closed. -/
theorem LCD_DrawRect_corner :
    pixel32 (LCD_DrawRect (sampleLCD PixelFormat.ARGB8888 3221225472 800 480 4294901760
        3221225472 0) 0 0 2 2) 0 0 = 4294901760 ∧
    pixel32 (LCD_DrawRect (sampleLCD PixelFormat.ARGB8888 3221225472 800 480 4294901760
        3221225472 0) 0 0 2 2) 2 0 = 4294901760 ∧
    pixel32 (LCD_DrawRect (sampleLCD PixelFormat.ARGB8888 3221225472 800 480 4294901760
        3221225472 0) 0 0 2 2) 0 2 = 4294901760 ∧
    pixel32 (LCD_DrawRect (sampleLCD PixelFormat.ARGB8888 3221225472 800 480 4294901760
        3221225472 0) 0 0 2 2) 2 2 = 0 ∧
    pixel32 (LCD_DrawRect (sampleLCD PixelFormat.ARGB8888 3221225472 800 480 4294901760
        3221225472 0) 0 0 2 2) 1 1 = 0 := by
  decide

/-! ## `LCD_DrawCircle` -/

theorem toParam16_of_range {z : Int} (h1 : 0 ≤ z) (h2 : z ≤ 65535) :
    (toParam16 z : Int) = z := by
  unfold toParam16 toUInt16 toUInt32
  omega

theorem toUInt32_of_range {z : Int} (h1 : 0 ≤ z) (h2 : z ≤ 4294967295) :
    (toUInt32 z : Int) = z := by
  unfold toUInt32
  omega

theorem emittedAt_append (l1 l2 : List Pixel) (Xpos Ypos : Nat) (a b : Int) :
    emittedAt (l1 ++ l2) Xpos Ypos a b ↔ emittedAt l1 Xpos Ypos a b ∨ emittedAt l2 Xpos Ypos a b := by
  unfold emittedAt
  constructor
  · rintro ⟨p, hp, h⟩
    rcases List.mem_append.1 hp with h1 | h1
    · exact Or.inl ⟨p, h1, h⟩
    · exact Or.inr ⟨p, h1, h⟩
  · rintro (⟨p, hp, h⟩ | ⟨p, hp, h⟩)
    · exact ⟨p, List.mem_append_left _ hp, h⟩
    · exact ⟨p, List.mem_append_right _ hp, h⟩

/-- While no coordinate wraps, one iteration emits exactly the eight images of
`(current_x, current_y)`. -/
theorem emittedAt_circlePixels (Xpos Ypos : Nat) (v : CircleVars) (a b : Int)
    (hxy : v.current_x ≤ v.current_y) (hX : v.current_y ≤ Xpos) (hY : v.current_y ≤ Ypos)
    (hX2 : Xpos + v.current_y ≤ 65535) (hY2 : Ypos + v.current_y ≤ 65535) :
    emittedAt (circlePixels Xpos Ypos v) Xpos Ypos a b ↔
      inOctants v.current_x v.current_y a b := by
  have e1 := toParam16_of_range (z := (Xpos : Int) + v.current_x) (by omega) (by omega)
  have e2 := toParam16_of_range (z := (Xpos : Int) - v.current_x) (by omega) (by omega)
  have e3 := toParam16_of_range (z := (Xpos : Int) + v.current_y) (by omega) (by omega)
  have e4 := toParam16_of_range (z := (Xpos : Int) - v.current_y) (by omega) (by omega)
  have e5 := toParam16_of_range (z := (Ypos : Int) + v.current_x) (by omega) (by omega)
  have e6 := toParam16_of_range (z := (Ypos : Int) - v.current_x) (by omega) (by omega)
  have e7 := toParam16_of_range (z := (Ypos : Int) + v.current_y) (by omega) (by omega)
  have e8 := toParam16_of_range (z := (Ypos : Int) - v.current_y) (by omega) (by omega)
  unfold emittedAt inOctants circlePixels
  constructor
  · rintro ⟨p, hp, h1, h2⟩
    simp only [List.mem_cons, List.mem_singleton, List.not_mem_nil, or_false] at hp
    rcases hp with rfl | rfl | rfl | rfl | rfl | rfl | rfl | rfl <;> dsimp only at h1 h2 <;> omega
  · rintro (⟨ha | ha, hb | hb⟩ | ⟨ha | ha, hb | hb⟩)
    · exact ⟨_, by simp only [List.mem_cons]; right; right; right; right; left; rfl,
        by dsimp only; omega, by dsimp only; omega⟩
    · exact ⟨_, by simp only [List.mem_cons]; left; rfl,
        by dsimp only; omega, by dsimp only; omega⟩
    · exact ⟨_, by simp only [List.mem_cons]; right; right; right; right; right; left; rfl,
        by dsimp only; omega, by dsimp only; omega⟩
    · exact ⟨_, by simp only [List.mem_cons]; right; left; rfl,
        by dsimp only; omega, by dsimp only; omega⟩
    · exact ⟨_, by simp only [List.mem_cons]; right; right; right; right; right; right; left; rfl,
        by dsimp only; omega, by dsimp only; omega⟩
    · exact ⟨_, by simp only [List.mem_cons]; right; right; left; rfl,
        by dsimp only; omega, by dsimp only; omega⟩
    · exact ⟨_, by
          simp only [List.mem_cons]; right; right; right; right; right; right; right; left; rfl,
        by dsimp only; omega, by dsimp only; omega⟩
    · exact ⟨_, by simp only [List.mem_cons]; right; right; right; left; rfl,
        by dsimp only; omega, by dsimp only; omega⟩

/-- The loop terminates, and every emitted offset comes with its eight images. -/
theorem circleLoop_symmetric (Xpos Ypos R : Nat) (hX : R ≤ Xpos) (hY : R ≤ Ypos)
    (hX2 : Xpos + R ≤ 65535) (hY2 : Ypos + R ≤ 65535) :
    ∀ (fuel : Nat) (v : CircleVars), v.current_y ≤ R → (v.current_x = 0 → 1 ≤ v.current_y) →
      v.current_y + 1 - v.current_x < fuel →
      ∃ l, circleLoop Xpos Ypos fuel v = some l ∧
        ∀ a b, emittedAt l Xpos Ypos a b →
          ∃ cx cy, inOctants cx cy a b ∧
            ∀ a2 b2, inOctants cx cy a2 b2 → emittedAt l Xpos Ypos a2 b2 := by
  intro fuel
  induction fuel with
  | zero => intro v _ _ h; omega
  | succ fuel ih =>
    intro v hy h0 hf
    rw [circleLoop]
    by_cases hle : v.current_x ≤ v.current_y
    · rw [if_pos hle]
      have hy1 : 1 ≤ v.current_y := by
        rcases Nat.eq_zero_or_pos v.current_x with h | h
        · exact h0 h
        · omega
      have hcx : (circleStep v).current_x = v.current_x + 1 := by
        have := toUInt32_of_range (z := (v.current_x : Int) + 1) (by omega) (by omega)
        unfold circleStep
        split <;> dsimp only <;> omega
      have hcy : (circleStep v).current_y = v.current_y ∨
          (circleStep v).current_y = v.current_y - 1 := by
        have := toUInt32_of_range (z := (v.current_y : Int) - 1) (by omega) (by omega)
        unfold circleStep
        split
        · left; rfl
        · right; dsimp only; omega
      obtain ⟨l, hl, hsym⟩ := ih (circleStep v) (by omega) (by omega) (by omega)
      refine ⟨circlePixels Xpos Ypos v ++ l, by rw [hl]; rfl, ?_⟩
      intro a b hab
      rcases (emittedAt_append _ _ _ _ _ _).1 hab with h | h
      · refine ⟨v.current_x, v.current_y,
          (emittedAt_circlePixels Xpos Ypos v a b hle (by omega) (by omega) (by omega)
            (by omega)).1 h, ?_⟩
        intro a2 b2 h2
        exact (emittedAt_append _ _ _ _ _ _).2 (Or.inl
          ((emittedAt_circlePixels Xpos Ypos v a2 b2 hle (by omega) (by omega) (by omega)
            (by omega)).2 h2))
      · obtain ⟨cx, cy, hin, hall⟩ := hsym a b h
        exact ⟨cx, cy, hin, fun a2 b2 h2 => (emittedAt_append _ _ _ _ _ _).2 (Or.inr (hall a2 b2 h2))⟩
    · rw [if_neg hle]
      refine ⟨[], rfl, ?_⟩
      rintro a b ⟨p, hp, -⟩
      simp at hp

/-- C10: for `Radius >= 1`, a centre at least `Radius` away from 0 and with
`Xpos+Radius`, `Ypos+Radius` at most 65535, `LCD_DrawCircle` terminates and the
set of pixels it emits is 8-way symmetric about the centre: with the offset
`(a, b)` it contains the offsets `(-a, b)`, `(a, -b)`, `(-a, -b)`, `(b, a)`,
`(-b, a)`, `(b, -a)` and `(-b, -a)`. -/
theorem LCD_DrawCircle_symmetric (fuel Xpos Ypos Radius : Nat) (hR : 1 ≤ Radius)
    (hX : Radius ≤ Xpos) (hY : Radius ≤ Ypos)
    (hX2 : Xpos + Radius ≤ 65535) (hY2 : Ypos + Radius ≤ 65535) (hfuel : Radius + 1 < fuel) :
    ∃ l, LCD_DrawCircle_calls fuel Xpos Ypos Radius = some l ∧
      ∀ a b : Int, emittedAt l Xpos Ypos a b →
        emittedAt l Xpos Ypos (-a) b ∧ emittedAt l Xpos Ypos a (-b) ∧
        emittedAt l Xpos Ypos (-a) (-b) ∧ emittedAt l Xpos Ypos b a ∧
        emittedAt l Xpos Ypos (-b) a ∧ emittedAt l Xpos Ypos b (-a) ∧
        emittedAt l Xpos Ypos (-b) (-a) := by
  obtain ⟨l, hl, hsym⟩ := circleLoop_symmetric Xpos Ypos Radius hX hY hX2 hY2 fuel
    (circleInit Radius) (le_refl _) (fun _ => hR) (by simp only [circleInit]; omega)
  refine ⟨l, hl, ?_⟩
  intro a b hab
  obtain ⟨cx, cy, hin, hall⟩ := hsym a b hab
  unfold inOctants at hin
  refine ⟨hall _ _ ?_, hall _ _ ?_, hall _ _ ?_, hall _ _ ?_, hall _ _ ?_, hall _ _ ?_,
    hall _ _ ?_⟩ <;> unfold inOctants <;> omega

theorem LCD_DrawCircle_symmetric_witness :
    ∃ l, LCD_DrawCircle_calls 5 10 10 3 = some l ∧
      ∀ a b : Int, emittedAt l 10 10 a b →
        emittedAt l 10 10 (-a) b ∧ emittedAt l 10 10 a (-b) ∧
        emittedAt l 10 10 (-a) (-b) ∧ emittedAt l 10 10 b a ∧
        emittedAt l 10 10 (-b) a ∧ emittedAt l 10 10 b (-a) ∧
        emittedAt l 10 10 (-b) (-a) :=
  LCD_DrawCircle_symmetric 5 10 10 3 (by decide) (by decide) (by decide) (by decide)
    (by decide) (by decide)
/-! ## `LCD_DrawPolygon` and `LCD_FillPolygon` -/

theorem toUInt16_toInt16 (z : Int) : toUInt16 (toInt16 z) = toUInt16 z := by
  unfold toUInt16 toInt16
  omega

/-- The call of `LCD_DrawLine` for the edge from `P` to `Q`. -/
theorem polygonLoop_eq (Points : Int → Point) :
    ∀ (n fuel PointCount : Nat) (k : Int), PointCount = n + 1 → PointCount ≤ 65535 → n < fuel →
      polygonLoop Points fuel PointCount k =
        some ((List.range n).map (fun (i : Nat) =>
          (toUInt16 (Points (k + (i : Int))).X, toUInt16 (Points (k + (i : Int))).Y,
            toUInt16 (Points (k + (i : Int) + 1)).X,
            toUInt16 (Points (k + (i : Int) + 1)).Y))) := by
  intro n
  induction n with
  | zero =>
    intro fuel PointCount k hP _ hf
    obtain ⟨f, rfl⟩ : ∃ f, fuel = f + 1 := ⟨fuel - 1, by omega⟩
    subst hP
    rw [polygonLoop, if_neg (by decide)]
    rfl
  | succ n ih =>
    intro fuel PointCount k hP hle hf
    obtain ⟨f, rfl⟩ : ∃ f, fuel = f + 1 := ⟨fuel - 1, by omega⟩
    have hdec : (PointCount + 65535) % 65536 = n + 1 := by omega
    rw [polygonLoop, hdec, if_pos (by omega), ih f (n + 1) (k + 1) rfl (by omega) (by omega)]
    simp only [Option.map_some', List.range_succ_eq_map, List.map_cons, List.map_map,
      toUInt16_toInt16, Nat.cast_zero, add_zero, Option.some.injEq, List.cons.injEq, true_and]
    apply List.map_congr_left
    intro i _
    simp only [Function.comp_apply, Nat.cast_succ]
    have e1 : k + 1 + (i : Int) = k + ((i : Int) + 1) := by ring
    rw [e1]

/-- C11: for `n >= 2` points (`n` is the `uint16_t` argument `PointCount`),
`LCD_DrawPolygon` terminates after exactly `n` calls of `LCD_DrawLine`: first the
closing edge between `P0` and `P(n-1)`, then the edges from `Pi` to `P(i+1)` for
`i = 0 .. n-2`, in this order. -/
theorem LCD_DrawPolygon_edges (Points : Int → Point) (n fuel : Nat) (hn : 2 ≤ n)
    (hmax : n ≤ 65535) (hfuel : n ≤ fuel) :
    ∃ l, LCD_DrawPolygon_calls fuel Points n = some l ∧
      l = (toUInt16 (Points 0).X, toUInt16 (Points 0).Y,
            toUInt16 (Points ((n : Int) - 1)).X, toUInt16 (Points ((n : Int) - 1)).Y) ::
          (List.range (n - 1)).map (fun (i : Nat) =>
            (toUInt16 (Points (i : Int)).X, toUInt16 (Points (i : Int)).Y,
              toUInt16 (Points ((i : Int) + 1)).X, toUInt16 (Points ((i : Int) + 1)).Y)) ∧
      l.length = n := by
  refine ⟨_, ?_, rfl, ?_⟩
  · unfold LCD_DrawPolygon_calls
    rw [if_neg (by omega), polygonLoop_eq Points (n - 1) fuel n 0 (by omega) hmax (by omega)]
    simp only [Option.map_some', zero_add]
  · simp only [List.length_cons, List.length_map, List.length_range]
    omega

theorem LCD_DrawPolygon_edges_witness :
    ∃ l, LCD_DrawPolygon_calls 3 samplePoints 3 = some l ∧
      l = (toUInt16 (samplePoints 0).X, toUInt16 (samplePoints 0).Y,
            toUInt16 (samplePoints (((3 : Nat) : Int) - 1)).X,
            toUInt16 (samplePoints (((3 : Nat) : Int) - 1)).Y) ::
          (List.range (3 - 1)).map (fun (i : Nat) =>
            (toUInt16 (samplePoints (i : Int)).X, toUInt16 (samplePoints (i : Int)).Y,
              toUInt16 (samplePoints ((i : Int) + 1)).X,
              toUInt16 (samplePoints ((i : Int) + 1)).Y)) ∧
      l.length = 3 :=
  LCD_DrawPolygon_edges samplePoints 3 3 (by decide) (by decide) (by decide)

/-- C12: with `PointCount < 2` neither `LCD_DrawPolygon` nor `LCD_FillPolygon` makes
a call of `LCD_DrawLine` or `FillTriangle`, and both return with the driver state
(frame buffer and draw properties) unchanged. -/
theorem polygon_too_few_points (s : LCD) (Points : Int → Point) (PointCount fuel : Nat)
    (h : PointCount < 2) (hfuel : 1 ≤ fuel) :
    LCD_DrawPolygon_calls fuel Points PointCount = some [] ∧
    LCD_FillPolygon_calls fuel Points PointCount = some [] ∧
    LCD_DrawPolygon fuel s Points PointCount = some s ∧
    LCD_FillPolygon fuel s Points PointCount = some s := by
  obtain ⟨f, rfl⟩ : ∃ f, fuel = f + 1 := ⟨fuel - 1, by omega⟩
  have h1 : LCD_DrawPolygon_calls (f + 1) Points PointCount = some [] := by
    unfold LCD_DrawPolygon_calls
    rw [if_pos h]
  have h2 : LCD_FillPolygon_calls (f + 1) Points PointCount = some [] := by
    unfold LCD_FillPolygon_calls
    rw [boxLoop, if_neg (by dsimp only; omega)]
    simp only [Option.some_bind, if_pos h]
  refine ⟨h1, h2, ?_, ?_⟩
  · unfold LCD_DrawPolygon
    rw [h1]
    rfl
  · unfold LCD_FillPolygon
    rw [h2]
    rfl

theorem polygon_too_few_points_witness :
    LCD_DrawPolygon_calls 1 samplePoints 1 = some [] ∧
    LCD_FillPolygon_calls 1 samplePoints 1 = some [] ∧
    LCD_DrawPolygon 1 (sampleLCD PixelFormat.ARGB8888 3221225472 800 480 4294901760 3221225472 0)
        samplePoints 1 =
      some (sampleLCD PixelFormat.ARGB8888 3221225472 800 480 4294901760 3221225472 0) ∧
    LCD_FillPolygon 1 (sampleLCD PixelFormat.ARGB8888 3221225472 800 480 4294901760 3221225472 0)
        samplePoints 1 =
      some (sampleLCD PixelFormat.ARGB8888 3221225472 800 480 4294901760 3221225472 0) :=
  polygon_too_few_points
    (sampleLCD PixelFormat.ARGB8888 3221225472 800 480 4294901760 3221225472 0)
    samplePoints 1 1 (by decide) (by decide)
/-! ## `LCD_DrawBitmap` -/

theorem or_shiftLeft16 (a b : Nat) (ha : a < 2 ^ 16) (hb : b < 2 ^ 16) :
    a ||| ((b <<< 16) % 2 ^ 32) = a + 65536 * b := by
  have h1 : (b <<< 16) % 2 ^ 32 = b <<< 16 := by
    rw [Nat.shiftLeft_eq]
    exact Nat.mod_eq_of_lt (by omega)
  rw [h1, Nat.lor_comm, Nat.shiftLeft_eq, Nat.mul_comm, ← Nat.mul_add_lt_is_or ha]
  omega

theorem read16_or_read16 (m : Mem) (a : Nat) :
    read16 m a ||| ((read16 m (a + 2) <<< 16) % 2 ^ 32) = read32 m a := by
  rw [or_shiftLeft16 _ _ (read16_lt m a) (read16_lt m (a + 2))]
  unfold read16 read32
  have e : a + 2 + 1 = a + 3 := rfl
  rw [e]
  omega

theorem readBitmapHeader_height_lt (m : Mem) (pbmp : Nat) :
    (readBitmapHeader m pbmp).height < 2 ^ 32 := by
  unfold readBitmapHeader
  dsimp only
  rw [read16_or_read16]
  exact read32_lt _ _

/-- The loop of `LCD_DrawBitmap` runs `height - index` times; each call gets the
pointer and the address of the previous one moved by `back` and `step`. -/
theorem bitmapLoop_eq (h : BitmapHeader) (step back : Nat) (hh : h.height < 2 ^ 32) :
    ∀ (n fuel index address pbmp : Nat), index + n = h.height → n < fuel →
      bitmapLoop h step back fuel index address pbmp =
        some ((List.range n).map (fun i =>
          ((fun p => (p + 2 ^ 32 - back % 2 ^ 32) % 2 ^ 32)^[i] pbmp,
            (fun a => (a + step) % 2 ^ 32)^[i] address, h.width, bitmapColorMode h.bit_pixel))) := by
  intro n
  induction n with
  | zero =>
    intro fuel index address pbmp hi hf
    obtain ⟨f, rfl⟩ : ∃ f, fuel = f + 1 := ⟨fuel - 1, by omega⟩
    rw [bitmapLoop, if_neg (by omega)]
    rfl
  | succ n ih =>
    intro fuel index address pbmp hi hf
    obtain ⟨f, rfl⟩ : ∃ f, fuel = f + 1 := ⟨fuel - 1, by omega⟩
    rw [bitmapLoop, if_pos (by omega), Nat.mod_eq_of_lt (by omega : index + 1 < 2 ^ 32),
      ih f (index + 1) _ _ (by omega) (by omega)]
    simp only [Option.map_some', List.range_succ_eq_map, List.map_cons, List.map_map,
      Function.iterate_zero, id_eq]
    rfl

theorem iterate_add_mod (step a : Nat) (i : Nat) :
    (fun a => (a + step) % 2 ^ 32)^[i] (a % 2 ^ 32) = (a + i * step) % 2 ^ 32 := by
  induction i with
  | zero => simp
  | succ i ih =>
    rw [Function.iterate_succ_apply', ih]
    have e : a + (i + 1) * step = a + i * step + step := by ring
    rw [e]
    omega

theorem iterate_sub_mod (back p : Nat) (i : Nat) :
    ((fun p => (p + 2 ^ 32 - back % 2 ^ 32) % 2 ^ 32)^[i] (p % 2 ^ 32) + i * back) % 2 ^ 32 =
      p % 2 ^ 32 ∧
    (fun p => (p + 2 ^ 32 - back % 2 ^ 32) % 2 ^ 32)^[i] (p % 2 ^ 32) < 2 ^ 32 := by
  induction i with
  | zero => simp; omega
  | succ i ih =>
    rw [Function.iterate_succ_apply']
    have e : (i + 1) * back = i * back + back := by ring
    rw [e]
    omega

/-- The source pointer of the `i`-th call. -/
theorem bitmap_source (pbmp o w h B i : Nat) (hi : i < h) (hh : h < 2 ^ 32) :
    (fun p => (p + 2 ^ 32 - (w * B) % 2 ^ 32) % 2 ^ 32)^[i]
        ((pbmp + (o + w * ((h + 2 ^ 32 - 1) % 2 ^ 32) * B)) % 2 ^ 32) =
      (pbmp + (o + w * (h - 1 - i) * B)) % 2 ^ 32 := by
  obtain ⟨h1, h2⟩ := iterate_sub_mod (w * B) (pbmp + (o + w * ((h + 2 ^ 32 - 1) % 2 ^ 32) * B)) i
  have e1 : (h + 2 ^ 32 - 1) % 2 ^ 32 = h - 1 := by omega
  rw [e1] at h1 h2 ⊢
  have e2 : pbmp + (o + w * (h - 1) * B) = pbmp + (o + w * (h - 1 - i) * B) + i * (w * B) := by
    have : h - 1 = (h - 1 - i) + i := by omega
    rw [this]
    have : h - 1 - i + i - i = h - 1 - i := by omega
    rw [this]
    ring
  have h3 : Nat.ModEq (2 ^ 32)
      ((fun p => (p + 2 ^ 32 - (w * B) % 2 ^ 32) % 2 ^ 32)^[i]
        ((pbmp + (o + w * (h - 1) * B)) % 2 ^ 32))
      (pbmp + (o + w * (h - 1 - i) * B)) := by
    apply Nat.ModEq.add_right_cancel' (i * (w * B))
    unfold Nat.ModEq
    rw [h1, e2]
  unfold Nat.ModEq at h3
  rw [← h3, Nat.mod_eq_of_lt h2]

/-- For every header `LCD_DrawBitmap` terminates after `height` calls of
`LL_ConvertLineToARGB8888`; the `i`-th call converts `width` pixels from byte
offset `index + width*(height-1-i)*(bit_pixel/8)` of the buffer to the address of
pixel `(Xpos, Ypos+i)`. -/
theorem LCD_DrawBitmap_calls_eq (fuel : Nat) (s : LCD) (Xpos Ypos pbmp : Nat)
    (hfuel : (readBitmapHeader s.mem pbmp).height < fuel) :
    LCD_DrawBitmap_calls fuel s Xpos Ypos pbmp =
      some ((List.range (readBitmapHeader s.mem pbmp).height).map (fun i =>
        ((pbmp + ((readBitmapHeader s.mem pbmp).index +
            (readBitmapHeader s.mem pbmp).width * ((readBitmapHeader s.mem pbmp).height - 1 - i) *
              ((readBitmapHeader s.mem pbmp).bit_pixel / 8))) % 2 ^ 32,
          ((s.LayerCfg s.ActiveLayer).FBStartAdress +
            4 * (LCD_GetXSize s * (Ypos + i) + Xpos)) % 2 ^ 32,
          (readBitmapHeader s.mem pbmp).width,
          bitmapColorMode (readBitmapHeader s.mem pbmp).bit_pixel))) := by
  have hh := readBitmapHeader_height_lt s.mem pbmp
  unfold LCD_DrawBitmap_calls
  dsimp only
  rw [bitmapLoop_eq _ _ _ hh (readBitmapHeader s.mem pbmp).height fuel 0 _ _ (by omega) hfuel]
  congr 1
  apply List.map_congr_left
  intro i hi
  rw [List.mem_range] at hi
  rw [bitmap_source pbmp _ _ _ _ i hi hh, iterate_add_mod]
  congr 2
  ring_nf

/-! ### The memory written by a bitmap transfer -/

theorem foldl_writes_outside {α : Type} (f g : α → Nat) (l : List α) (m : Mem) (a : Nat)
    (h : ∀ c ∈ l, a < f c ∨ f c + 4 ≤ a) :
    (l.foldl (fun t c => write32 t (f c) (g c)) m) a = m a := by
  induction l generalizing m with
  | nil => rfl
  | cons c rest ih =>
    rw [List.foldl_cons, ih _ (fun b hb => h b (List.mem_cons_of_mem _ hb)),
      write32_outside _ _ _ _ (h c (List.mem_cons_self _ _))]

theorem foldl_writes_read_disjoint {α : Type} (f g : α → Nat) (l : List α) (m : Mem) (b : Nat)
    (h : ∀ c ∈ l, b + 4 ≤ f c ∨ f c + 4 ≤ b) :
    read32 (l.foldl (fun t c => write32 t (f c) (g c)) m) b = read32 m b := by
  unfold read32
  rw [foldl_writes_outside f g l m b (fun c hc => by have := h c hc; omega),
    foldl_writes_outside f g l m (b + 1) (fun c hc => by have := h c hc; omega),
    foldl_writes_outside f g l m (b + 2) (fun c hc => by have := h c hc; omega),
    foldl_writes_outside f g l m (b + 3) (fun c hc => by have := h c hc; omega)]

theorem foldl_writes_read {α : Type} (f g : α → Nat) (l : List α) (m : Mem) (c0 : α)
    (hc0 : c0 ∈ l) (h : ∀ c ∈ l, c = c0 ∨ f c0 + 4 ≤ f c ∨ f c + 4 ≤ f c0) :
    read32 (l.foldl (fun t c => write32 t (f c) (g c)) m) (f c0) = g c0 % 2 ^ 32 := by
  induction l generalizing m with
  | nil => simp at hc0
  | cons a rest ih =>
    rw [List.foldl_cons]
    by_cases hr : c0 ∈ rest
    · exact ih _ hr (fun c hc => h c (List.mem_cons_of_mem _ hc))
    · have hab : c0 = a := by
        rcases List.mem_cons.1 hc0 with e | e
        · exact e
        · exact absurd e hr
      subst hab
      rw [foldl_writes_read_disjoint f g rest _ (f c0), read32_write32_same]
      intro c hc
      rcases h c (List.mem_cons_of_mem _ hc) with e | e
      · subst e; exact absurd hc hr
      · exact e

theorem convertLine_outside (convert : DMA2D_InputColorMode → Nat → Nat) (m : Mem)
    (mode : DMA2D_InputColorMode) (pSrc pDst xSize a : Nat)
    (h : a < pDst ∨ pDst + 4 * xSize ≤ a) :
    HAL_DMA2D_ConvertLine convert m mode pSrc pDst xSize a = m a := by
  unfold HAL_DMA2D_ConvertLine
  apply foldl_writes_outside (fun c => pDst + 4 * c)
  intro c hc
  rw [List.mem_range] at hc
  omega

theorem convertLine_read (convert : DMA2D_InputColorMode → Nat → Nat) (m : Mem)
    (mode : DMA2D_InputColorMode) (pSrc pDst xSize c : Nat) (hc : c < xSize) :
    read32 (HAL_DMA2D_ConvertLine convert m mode pSrc pDst xSize) (pDst + 4 * c) =
      convert mode (readInput m mode (pSrc + inputBytes mode * c)) % 2 ^ 32 := by
  unfold HAL_DMA2D_ConvertLine
  apply foldl_writes_read (fun c => pDst + 4 * c)
    (fun c => convert mode (readInput m mode (pSrc + inputBytes mode * c)))
  · exact List.mem_range.2 hc
  · intro d _
    omega

theorem convertLine_read_disjoint (convert : DMA2D_InputColorMode → Nat → Nat) (m : Mem)
    (mode : DMA2D_InputColorMode) (pSrc pDst xSize b : Nat)
    (h : b + 4 ≤ pDst ∨ pDst + 4 * xSize ≤ b ∨
      ∃ k, b = pDst + 4 * k ∧ xSize ≤ k) :
    read32 (HAL_DMA2D_ConvertLine convert m mode pSrc pDst xSize) b = read32 m b := by
  unfold HAL_DMA2D_ConvertLine
  apply foldl_writes_read_disjoint (fun c => pDst + 4 * c)
  intro c hc
  rw [List.mem_range] at hc
  rcases h with h | h | ⟨k, rfl, hk⟩ <;> omega

theorem LL_ConvertLineToARGB8888_ok (convert : DMA2D_InputColorMode → Nat → Nat) (s : LCD)
    (pSrc pDst xSize : Nat) (ColorMode : DMA2D_InputColorMode)
    (h1 : s.dma2d.initOK = true) (h2 : s.dma2d.configOK = true) (h3 : s.dma2d.startOK = true) :
    LL_ConvertLineToARGB8888 convert s pSrc pDst xSize ColorMode =
      { s with
        dma2dInit := { Mode := DMA2D_Mode.DMA2D_M2M_PFC,
                       ColorMode := DMA2D_ColorMode.DMA2D_ARGB8888, OutputOffset := 0 }
        mem := HAL_DMA2D_ConvertLine convert s.mem ColorMode pSrc pDst xSize } := by
  unfold LL_ConvertLineToARGB8888
  simp only [h1, h2, h3, if_true]

theorem mul_succ_le (n a b : Nat) (h : a + 1 ≤ b) : n * a + n ≤ n * b := by
  calc n * a + n = n * (a + 1) := by ring
    _ ≤ n * b := Nat.mul_le_mul_left n h

/-- With a DMA2D engine that succeeds, a sequence of line conversions only changes
the memory (and the DMA2D handler configuration). -/
theorem foldl_convert_fields (convert : DMA2D_InputColorMode → Nat → Nat)
    (l : List ConvertCall) (s : LCD)
    (h1 : s.dma2d.initOK = true) (h2 : s.dma2d.configOK = true) (h3 : s.dma2d.startOK = true) :
    (l.foldl (fun t c => LL_ConvertLineToARGB8888 convert t c.1 c.2.1 c.2.2.1 c.2.2.2) s).mem =
        l.foldl (fun m c => HAL_DMA2D_ConvertLine convert m c.2.2.2 c.1 c.2.1 c.2.2.1) s.mem ∧
    (l.foldl (fun t c => LL_ConvertLineToARGB8888 convert t c.1 c.2.1 c.2.2.1 c.2.2.2) s).LayerCfg =
        s.LayerCfg ∧
    (l.foldl (fun t c => LL_ConvertLineToARGB8888 convert t c.1 c.2.1 c.2.2.1 c.2.2.2)
        s).ActiveLayer = s.ActiveLayer ∧
    (l.foldl (fun t c => LL_ConvertLineToARGB8888 convert t c.1 c.2.1 c.2.2.1 c.2.2.2) s).DrawProp =
        s.DrawProp := by
  induction l generalizing s with
  | nil => exact ⟨rfl, rfl, rfl, rfl⟩
  | cons c rest ih =>
    rw [List.foldl_cons, List.foldl_cons, LL_ConvertLineToARGB8888_ok convert s _ _ _ _ h1 h2 h3]
    exact ih _ h1 h2 h3

/-- The memory after the first `k` rows of a 32-bit bitmap transfer whose source
data start at `S` and whose destination is the rectangle at `(Xpos, Ypos)` of a
frame buffer at `FB` of `XS` x `YS` pixels. -/
theorem blit_rows (convert : DMA2D_InputColorMode → Nat → Nat)
    (hconv : ∀ v, convert DMA2D_InputColorMode.CM_ARGB8888 v = v)
    (m0 : Mem) (FB XS YS Xpos Ypos S w h : Nat)
    (hx : Xpos + w ≤ XS) (hy : Ypos + h ≤ YS)
    (hdis : S + 4 * (w * h) ≤ FB ∨ FB + 4 * (XS * YS) ≤ S) :
    ∀ k, k ≤ h →
      (∀ a, a < FB ∨ FB + 4 * (XS * YS) ≤ a →
        (((List.range k).map (fun i =>
            ((S + 4 * (w * (h - 1 - i)), FB + 4 * (XS * (Ypos + i) + Xpos), w,
              DMA2D_InputColorMode.CM_ARGB8888) : ConvertCall))).foldl
          (fun m c => HAL_DMA2D_ConvertLine convert m c.2.2.2 c.1 c.2.1 c.2.2.1) m0) a = m0 a) ∧
      (∀ i c, i < k → c < w →
        read32 (((List.range k).map (fun i =>
            ((S + 4 * (w * (h - 1 - i)), FB + 4 * (XS * (Ypos + i) + Xpos), w,
              DMA2D_InputColorMode.CM_ARGB8888) : ConvertCall))).foldl
          (fun m c => HAL_DMA2D_ConvertLine convert m c.2.2.2 c.1 c.2.1 c.2.2.1) m0)
          (FB + 4 * (XS * (Ypos + i) + (Xpos + c))) =
        read32 m0 (S + 4 * (w * (h - 1 - i) + c))) ∧
      (∀ x y, x < XS → y < YS → ¬ (Xpos ≤ x ∧ x < Xpos + w ∧ Ypos ≤ y ∧ y < Ypos + k) →
        read32 (((List.range k).map (fun i =>
            ((S + 4 * (w * (h - 1 - i)), FB + 4 * (XS * (Ypos + i) + Xpos), w,
              DMA2D_InputColorMode.CM_ARGB8888) : ConvertCall))).foldl
          (fun m c => HAL_DMA2D_ConvertLine convert m c.2.2.2 c.1 c.2.1 c.2.2.1) m0)
          (FB + 4 * (XS * y + x)) =
        read32 m0 (FB + 4 * (XS * y + x))) := by
  intro k
  induction k with
  | zero =>
    intro _
    exact ⟨fun _ _ => rfl, fun i c hi _ => absurd hi (Nat.not_lt_zero _), fun _ _ _ _ _ => rfl⟩
  | succ k ih =>
    intro hk
    obtain ⟨ihA, ihB, ihC⟩ := ih (by omega)
    have hrow : XS * (Ypos + k) + XS ≤ XS * YS := mul_succ_le XS (Ypos + k) YS (by omega)
    rw [List.range_succ, List.map_append, List.foldl_append]
    simp only [List.map_cons, List.map_nil, List.foldl_cons, List.foldl_nil]
    refine ⟨?_, ?_, ?_⟩
    · intro a ha
      rw [convertLine_outside _ _ _ _ _ _ _ (by omega)]
      exact ihA a ha
    · intro i c hi hc
      by_cases hik : i < k
      · have hle : XS * (Ypos + i) + XS ≤ XS * (Ypos + k) :=
          mul_succ_le XS (Ypos + i) (Ypos + k) (by omega)
        rw [convertLine_read_disjoint _ _ _ _ _ _ _ (Or.inl (by omega))]
        exact ihB i c hik hc
      · have hik2 : i = k := by omega
        subst hik2
        have e : FB + 4 * (XS * (Ypos + i) + (Xpos + c)) =
            FB + 4 * (XS * (Ypos + i) + Xpos) + 4 * c := by ring
        rw [e, convertLine_read _ _ _ _ _ _ _ hc, hconv]
        have hsrc : w * (h - 1 - i) + w ≤ w * h := mul_succ_le w (h - 1 - i) h (by omega)
        have e2 : S + 4 * (w * (h - 1 - i)) + inputBytes DMA2D_InputColorMode.CM_ARGB8888 * c =
            S + 4 * (w * (h - 1 - i) + c) := by
          show S + 4 * (w * (h - 1 - i)) + 4 * c = S + 4 * (w * (h - 1 - i) + c)
          ring
        rw [e2]
        show read32 _ _ % 2 ^ 32 = _
        rw [Nat.mod_eq_of_lt (read32_lt _ _)]
        unfold read32
        rw [ihA _ (by omega), ihA _ (by omega), ihA _ (by omega), ihA _ (by omega)]
    · intro x y hxs hys hout
      have hyrow : XS * y + XS ≤ XS * YS := mul_succ_le XS y YS (by omega)
      rw [convertLine_read_disjoint]
      · exact ihC x y hxs hys (by omega)
      · rcases Nat.lt_trichotomy y (Ypos + k) with hlt | heq | hgt
        · have := mul_succ_le XS y (Ypos + k) (by omega)
          left; omega
        · subst heq
          by_cases hxl : x < Xpos
          · left; omega
          · right; left; omega
        · have := mul_succ_le XS (Ypos + k) y (by omega)
          right; left; omega

theorem foldl_convert_zero_width (convert : DMA2D_InputColorMode → Nat → Nat)
    (l : List ConvertCall) (m : Mem) (h : ∀ c ∈ l, c.2.2.1 = 0) :
    l.foldl (fun m c => HAL_DMA2D_ConvertLine convert m c.2.2.2 c.1 c.2.1 c.2.2.1) m = m := by
  induction l generalizing m with
  | nil => rfl
  | cons c rest ih =>
    rw [List.foldl_cons, ih _ (fun d hd => h d (List.mem_cons_of_mem _ hd)),
      h c (List.mem_cons_self _ _)]
    rfl

theorem pixel32_of_fields (t s : LCD) (hl : t.LayerCfg = s.LayerCfg)
    (ha : t.ActiveLayer = s.ActiveLayer) (x y : Nat) :
    pixel32 t x y =
      read32 t.mem ((s.LayerCfg s.ActiveLayer).FBStartAdress + 4 * (LCD_GetXSize s * y + x)) := by
  unfold pixel32 LCD_GetXSize
  rw [hl, ha]

/-- C13: for a header with data offset `o`, width `w`, height `h` and `bp` bits per
pixel, `LCD_DrawBitmap` terminates after exactly `h` calls of
`LL_ConvertLineToARGB8888`; the `i`-th call converts `w` pixels from byte offset
`o + w*(h-1-i)*(bp/8)` of the buffer to the address of pixel `(Xpos, Ypos+i)`
(32-bit addresses).  For a 32-bit source converted identically by an engine
that succeeds, with the bitmap inside the surface and its data outside the
frame buffer, destination pixel `(Xpos+c, Ypos+i)` ends up equal to source pixel
`c` of source row `h-1-i`, and nothing else changes in or outside the frame
buffer. -/
theorem LCD_DrawBitmap_rows (convert : DMA2D_InputColorMode → Nat → Nat) (fuel : Nat) (s : LCD)
    (Xpos Ypos pbmp o w h bp : Nat)
    (hhd : readBitmapHeader s.mem pbmp = { index := o, width := w, height := h, bit_pixel := bp })
    (hfuel : h < fuel) :
    (∃ l, LCD_DrawBitmap_calls fuel s Xpos Ypos pbmp = some l ∧ l.length = h ∧
      ∀ i, i < h →
        l[i]? = some ((pbmp + (o + w * (h - 1 - i) * (bp / 8))) % 2 ^ 32,
          ((s.LayerCfg s.ActiveLayer).FBStartAdress +
            4 * (LCD_GetXSize s * (Ypos + i) + Xpos)) % 2 ^ 32,
          w, bitmapColorMode bp)) ∧
    (bp / 8 = 4 → (∀ v, convert DMA2D_InputColorMode.CM_ARGB8888 v = v) →
      s.dma2d.initOK = true → s.dma2d.configOK = true → s.dma2d.startOK = true →
      (s.LayerCfg s.ActiveLayer).FBStartAdress + 4 * (LCD_GetXSize s * LCD_GetYSize s) ≤ 2 ^ 32 →
      Xpos + w ≤ LCD_GetXSize s → Ypos + h ≤ LCD_GetYSize s →
      pbmp + o + 4 * (w * h) ≤ 2 ^ 32 →
      (pbmp + o + 4 * (w * h) ≤ (s.LayerCfg s.ActiveLayer).FBStartAdress ∨
        (s.LayerCfg s.ActiveLayer).FBStartAdress + 4 * (LCD_GetXSize s * LCD_GetYSize s)
          ≤ pbmp + o) →
      ∃ t, LCD_DrawBitmap convert fuel s Xpos Ypos pbmp = some t ∧
        (∀ i c, i < h → c < w →
          pixel32 t (Xpos + c) (Ypos + i) = read32 s.mem (pbmp + o + 4 * (w * (h - 1 - i) + c))) ∧
        (∀ x y, x < LCD_GetXSize s → y < LCD_GetYSize s →
          ¬ (Xpos ≤ x ∧ x < Xpos + w ∧ Ypos ≤ y ∧ y < Ypos + h) →
          pixel32 t x y = pixel32 s x y) ∧
        (∀ a, a < (s.LayerCfg s.ActiveLayer).FBStartAdress ∨
            (s.LayerCfg s.ActiveLayer).FBStartAdress + 4 * (LCD_GetXSize s * LCD_GetYSize s) ≤ a →
          t.mem a = s.mem a)) := by
  have hcalls := LCD_DrawBitmap_calls_eq fuel s Xpos Ypos pbmp (by rw [hhd]; exact hfuel)
  rw [hhd] at hcalls
  dsimp only at hcalls
  constructor
  · refine ⟨_, hcalls, by simp, ?_⟩
    intro i hi
    rw [List.getElem?_map, List.getElem?_range hi]
    rfl
  · intro hB hconv h1 h2 h3 hfit hx hy hsrc hdis
    unfold LCD_DrawBitmap
    rw [hcalls]
    refine ⟨_, rfl, ?_⟩
    obtain ⟨fm, fl, fa, -⟩ := foldl_convert_fields convert
      ((List.range h).map (fun i =>
        (((pbmp + (o + w * (h - 1 - i) * (bp / 8))) % 2 ^ 32,
          ((s.LayerCfg s.ActiveLayer).FBStartAdress +
            4 * (LCD_GetXSize s * (Ypos + i) + Xpos)) % 2 ^ 32,
          w, bitmapColorMode bp) : ConvertCall))) s h1 h2 h3
    simp only [pixel32_of_fields _ s fl fa, fm]
    rcases Nat.eq_zero_or_pos w with hw | hw
    · subst hw
      rw [foldl_convert_zero_width]
      · exact ⟨fun i c _ hc => absurd hc (Nat.not_lt_zero _), fun _ _ _ _ _ => rfl,
          fun _ _ => rfl⟩
      · intro c hc
        obtain ⟨i, -, rfl⟩ := List.mem_map.1 hc
        rfl
    · have hlist : (List.range h).map (fun i =>
          (((pbmp + (o + w * (h - 1 - i) * (bp / 8))) % 2 ^ 32,
            ((s.LayerCfg s.ActiveLayer).FBStartAdress +
              4 * (LCD_GetXSize s * (Ypos + i) + Xpos)) % 2 ^ 32,
            w, bitmapColorMode bp) : ConvertCall)) =
          (List.range h).map (fun i =>
            ((pbmp + o + 4 * (w * (h - 1 - i)),
              (s.LayerCfg s.ActiveLayer).FBStartAdress + 4 * (LCD_GetXSize s * (Ypos + i) + Xpos),
              w, DMA2D_InputColorMode.CM_ARGB8888) : ConvertCall)) := by
        apply List.map_congr_left
        intro i hi
        rw [List.mem_range] at hi
        have a1 : w * (h - 1 - i) + w ≤ w * h := mul_succ_le w (h - 1 - i) h (by omega)
        have a2 : LCD_GetXSize s * (Ypos + i) + LCD_GetXSize s ≤ LCD_GetXSize s * LCD_GetYSize s :=
          mul_succ_le _ (Ypos + i) _ (by omega)
        have a3 : bitmapColorMode bp = DMA2D_InputColorMode.CM_ARGB8888 := by
          unfold bitmapColorMode
          rw [if_pos hB]
        have a4 : pbmp + (o + w * (h - 1 - i) * 4) = pbmp + o + 4 * (w * (h - 1 - i)) := by ring
        rw [hB, a3, a4, Nat.mod_eq_of_lt (by omega), Nat.mod_eq_of_lt (by omega)]
      rw [hlist]
      obtain ⟨rA, rB, rC⟩ := blit_rows convert hconv s.mem (s.LayerCfg s.ActiveLayer).FBStartAdress
        (LCD_GetXSize s) (LCD_GetYSize s) Xpos Ypos (pbmp + o) w h hx hy hdis h (le_refl _)
      exact ⟨fun i c hi hc => rB i c hi hc, fun x y hxs hys hout => rC x y hxs hys hout,
        fun a ha => rA a ha⟩

theorem LCD_DrawBitmap_rows_witness :
    ∃ t, LCD_DrawBitmap (fun _ v => v) 3 sampleBitmapLCD 1 1 134217728 = some t ∧
      pixel32 t (1 + 0) (1 + 0) =
        read32 sampleBitmapLCD.mem (134217728 + 54 + 4 * (2 * (2 - 1 - 0) + 0)) ∧
      read32 sampleBitmapLCD.mem (134217728 + 54 + 4 * (2 * (2 - 1 - 0) + 0)) = 202050057 := by
  obtain ⟨t, ht, hpix, -, -⟩ :=
    (LCD_DrawBitmap_rows (fun _ v => v) 3 sampleBitmapLCD 1 1 134217728 54 2 2 32
      (by decide) (by decide)).2 rfl (fun _ => rfl) rfl rfl rfl (by decide) (by decide)
      (by decide) (by decide) (by decide)
  exact ⟨t, ht, hpix 0 0 (by decide) (by decide), by decide⟩

/-- C14: `LCD_DrawBitmap` takes the data offset from the 32-bit little-endian
value of bytes 10..13 of the buffer, the width from bytes 18..21, the height
from bytes 22..25 and the bits per pixel from the 16-bit little-endian value of
bytes 28..29; it terminates after `height` calls, each for `width` pixels in the
input colour mode ARGB8888 when `bit_pixel/8 = 4`, RGB565 when `bit_pixel/8 = 2`
and RGB888 otherwise. -/
theorem LCD_DrawBitmap_header (fuel : Nat) (s : LCD) (Xpos Ypos pbmp : Nat)
    (hfuel : read32 s.mem (pbmp + 22) < fuel) :
    (readBitmapHeader s.mem pbmp).index = read32 s.mem (pbmp + 10) ∧
    (readBitmapHeader s.mem pbmp).width = read32 s.mem (pbmp + 18) ∧
    (readBitmapHeader s.mem pbmp).height = read32 s.mem (pbmp + 22) ∧
    (readBitmapHeader s.mem pbmp).bit_pixel = read16 s.mem (pbmp + 28) ∧
    ∃ l, LCD_DrawBitmap_calls fuel s Xpos Ypos pbmp = some l ∧
      l.length = read32 s.mem (pbmp + 22) ∧
      ∀ c ∈ l, c.2.2.1 = read32 s.mem (pbmp + 18) ∧
        c.2.2.2 =
          (if read16 s.mem (pbmp + 28) / 8 = 4 then DMA2D_InputColorMode.CM_ARGB8888
           else if read16 s.mem (pbmp + 28) / 8 = 2 then DMA2D_InputColorMode.CM_RGB565
           else DMA2D_InputColorMode.CM_RGB888) := by
  have e1 : (readBitmapHeader s.mem pbmp).index = read32 s.mem (pbmp + 10) :=
    read16_or_read16 s.mem (pbmp + 10)
  have e2 : (readBitmapHeader s.mem pbmp).width = read32 s.mem (pbmp + 18) :=
    read16_or_read16 s.mem (pbmp + 18)
  have e3 : (readBitmapHeader s.mem pbmp).height = read32 s.mem (pbmp + 22) :=
    read16_or_read16 s.mem (pbmp + 22)
  have e4 : (readBitmapHeader s.mem pbmp).bit_pixel = read16 s.mem (pbmp + 28) := rfl
  refine ⟨e1, e2, e3, e4, _,
    LCD_DrawBitmap_calls_eq fuel s Xpos Ypos pbmp (by rw [e3]; exact hfuel), ?_, ?_⟩
  · rw [List.length_map, List.length_range, e3]
  · intro c hc
    obtain ⟨i, -, rfl⟩ := List.mem_map.1 hc
    exact ⟨e2, by rw [e4]; rfl⟩

theorem LCD_DrawBitmap_header_witness :
    (readBitmapHeader sampleBitmapLCD.mem 134217728).index = 54 ∧
    ∃ l, LCD_DrawBitmap_calls 3 sampleBitmapLCD 1 1 134217728 = some l ∧ l.length = 2 := by
  obtain ⟨h1, -, -, -, l, hl, hlen, -⟩ :=
    LCD_DrawBitmap_header 3 sampleBitmapLCD 1 1 134217728 (by decide)
  exact ⟨h1.trans (by decide), l, hl, hlen.trans (by decide)⟩
/-! ## `DrawChar` -/

theorem and_one_shiftLeft_ne_zero (x k : Nat) : x &&& (1 <<< k) ≠ 0 ↔ x.testBit k = true := by
  rw [Nat.one_shiftLeft]
  constructor
  · intro h
    by_contra hb
    apply h
    apply Nat.eq_of_testBit_eq
    intro j
    rw [Nat.testBit_and, Nat.testBit_two_pow, Nat.zero_testBit]
    by_cases hkj : k = j
    · subst hkj
      simp only [Bool.not_eq_true] at hb
      rw [hb]
      rfl
    · simp [hkj]
  · intro h h0
    have : (x &&& 2 ^ k).testBit k = true := by
      rw [Nat.testBit_and, h, Nat.testBit_two_pow_self]
      rfl
    rw [h0, Nat.zero_testBit] at this
    exact Bool.noConfusion this

theorem testBit_byte_high (b k : Nat) (hk : 8 ≤ k) : (b % 256).testBit k = false := by
  apply Nat.testBit_lt_two_pow
  calc b % 256 < 256 := Nat.mod_lt _ (by decide)
    _ = 2 ^ 8 := by norm_num
    _ ≤ 2 ^ k := Nat.pow_le_pow_right (by decide) hk

/-- The bit `DrawChar` tests for column `j` of a scan line is bit `7 - j mod 8` of
byte `j div 8` of that line. -/
theorem glyph_bit (c : Nat → Nat) (W i j : Nat) (hW1 : 1 ≤ W) (hW : W ≤ 24) (hj : j < W) :
    glyphLine c W i &&&
        (1 <<< toUInt32 ((W : Int) - (j : Int) + (((8 * ((W + 7) / 8) - W) % 256 : Nat) : Int) - 1))
        ≠ 0 ↔
      (c ((W + 7) / 8 * i + j / 8) % 256).testBit (7 - j % 8) = true := by
  have hshift : toUInt32 ((W : Int) - (j : Int) + (((8 * ((W + 7) / 8) - W) % 256 : Nat) : Int) - 1)
      = 8 * ((W + 7) / 8) - 1 - j := by
    unfold toUInt32
    omega
  rw [hshift, and_one_shiftLeft_ne_zero]
  unfold glyphLine
  dsimp only
  have hnb : (W + 7) / 8 = 1 ∨ (W + 7) / 8 = 2 ∨ (W + 7) / 8 = 3 := by omega
  rcases hnb with h | h | h
  · rw [if_pos h]
    have e1 : j / 8 = 0 := by omega
    have e2 : 8 * ((W + 7) / 8) - 1 - j = 7 - j % 8 := by omega
    rw [e1, e2]
  · rw [if_neg (by omega), if_pos h, Nat.testBit_or, Nat.testBit_shiftLeft]
    by_cases hj8 : j < 8
    · have e1 : j / 8 = 0 := by omega
      have e2 : 8 * ((W + 7) / 8) - 1 - j - 8 = 7 - j % 8 := by omega
      rw [testBit_byte_high _ _ (by omega : 8 ≤ 8 * ((W + 7) / 8) - 1 - j), e1, e2]
      simp only [Bool.or_false, Bool.and_eq_true, decide_eq_true_eq, ge_iff_le]
      constructor
      · exact fun hh => hh.2
      · exact fun hh => ⟨by omega, hh⟩
    · have e1 : j / 8 = 1 := by omega
      have e2 : 8 * ((W + 7) / 8) - 1 - j = 7 - j % 8 := by omega
      rw [e1, e2]
      have e3 : decide (7 - j % 8 ≥ 8) = false := by
        rw [decide_eq_false_iff_not]; omega
      rw [e3]
      simp only [Bool.false_and, Bool.false_or]
  · rw [if_neg (by omega), if_neg (by omega), Nat.testBit_or, Nat.testBit_or,
      Nat.testBit_shiftLeft, Nat.testBit_shiftLeft]
    by_cases hj8 : j < 8
    · have e1 : j / 8 = 0 := by omega
      have e2 : 8 * ((W + 7) / 8) - 1 - j - 16 = 7 - j % 8 := by omega
      rw [testBit_byte_high _ _ (by omega : 8 ≤ 8 * ((W + 7) / 8) - 1 - j),
        testBit_byte_high _ _ (by omega : 8 ≤ 8 * ((W + 7) / 8) - 1 - j - 8), e1, e2]
      simp only [Bool.or_false, Bool.and_false, Bool.and_eq_true, decide_eq_true_eq, ge_iff_le]
      constructor
      · exact fun hh => hh.2
      · exact fun hh => ⟨by omega, hh⟩
    · by_cases hj16 : j < 16
      · have e1 : j / 8 = 1 := by omega
        have e2 : 8 * ((W + 7) / 8) - 1 - j - 8 = 7 - j % 8 := by omega
        have e3 : decide (8 * ((W + 7) / 8) - 1 - j ≥ 16) = false := by
          rw [decide_eq_false_iff_not]; omega
        rw [testBit_byte_high _ _ (by omega : 8 ≤ 8 * ((W + 7) / 8) - 1 - j), e1, e2, e3]
        simp only [Bool.false_and, Bool.false_or, Bool.or_false, Bool.and_eq_true,
          decide_eq_true_eq, ge_iff_le]
        constructor
        · exact fun hh => hh.2
        · exact fun hh => ⟨by omega, hh⟩
      · have e1 : j / 8 = 2 := by omega
        have e2 : 8 * ((W + 7) / 8) - 1 - j = 7 - j % 8 := by omega
        rw [e1, e2]
        have e3 : decide (7 - j % 8 ≥ 16) = false := by
          rw [decide_eq_false_iff_not]; omega
        have e4 : decide (7 - j % 8 ≥ 8) = false := by
          rw [decide_eq_false_iff_not]; omega
        rw [e3, e4]
        simp only [Bool.false_and, Bool.false_or]

theorem length_flatMap_const {α β : Type} (l : List α) (f : α → List β) (n : Nat)
    (h : ∀ a, (f a).length = n) : (l.flatMap f).length = l.length * n := by
  induction l with
  | nil => simp
  | cons a rest ih =>
    rw [List.flatMap_cons, List.length_append, ih, h a, List.length_cons]
    ring

/-- C15: for an active font of width `W`, `1 <= W <= 24`, and height `H`, `DrawChar`
makes exactly `W*H` calls of `LCD_DrawPixel`, row by row: one for each `j < W`
and `i < H`, at the `uint16_t` position `(Xpos+j, Ypos+i)` (exactly these sums
when `Xpos+W` and `Ypos+H` do not exceed 65536), with `TextColor` when bit
`7 - j mod 8` of glyph byte `c[i*ceil(W/8) + j div 8]` is set and `BackColor`
otherwise. -/
theorem DrawChar_pixels (s : LCD) (Xpos Ypos : Nat) (c : Nat → Nat)
    (hW1 : 1 ≤ (s.DrawProp s.ActiveLayer).pFont.Width)
    (hW : (s.DrawProp s.ActiveLayer).pFont.Width ≤ 24) :
    DrawChar_calls s Xpos Ypos c =
      ((List.range (s.DrawProp s.ActiveLayer).pFont.Height).flatMap fun i =>
        (List.range (s.DrawProp s.ActiveLayer).pFont.Width).map fun j =>
          ((Xpos + j) % 65536, (Ypos + i) % 65536,
            if (c (((s.DrawProp s.ActiveLayer).pFont.Width + 7) / 8 * i + j / 8) % 256).testBit
                (7 - j % 8) = true then
              (s.DrawProp s.ActiveLayer).TextColor
            else (s.DrawProp s.ActiveLayer).BackColor)) ∧
    (DrawChar_calls s Xpos Ypos c).length =
      (s.DrawProp s.ActiveLayer).pFont.Width * (s.DrawProp s.ActiveLayer).pFont.Height ∧
    (Xpos + (s.DrawProp s.ActiveLayer).pFont.Width ≤ 65536 →
      Ypos + (s.DrawProp s.ActiveLayer).pFont.Height ≤ 65536 →
      DrawChar_calls s Xpos Ypos c =
        ((List.range (s.DrawProp s.ActiveLayer).pFont.Height).flatMap fun i =>
          (List.range (s.DrawProp s.ActiveLayer).pFont.Width).map fun j =>
            (Xpos + j, Ypos + i,
              if (c (((s.DrawProp s.ActiveLayer).pFont.Width + 7) / 8 * i + j / 8) % 256).testBit
                  (7 - j % 8) = true then
                (s.DrawProp s.ActiveLayer).TextColor
              else (s.DrawProp s.ActiveLayer).BackColor))) := by
  have key : DrawChar_calls s Xpos Ypos c =
      ((List.range (s.DrawProp s.ActiveLayer).pFont.Height).flatMap fun i =>
        (List.range (s.DrawProp s.ActiveLayer).pFont.Width).map fun j =>
          ((Xpos + j) % 65536, (Ypos + i) % 65536,
            if (c (((s.DrawProp s.ActiveLayer).pFont.Width + 7) / 8 * i + j / 8) % 256).testBit
                (7 - j % 8) = true then
              (s.DrawProp s.ActiveLayer).TextColor
            else (s.DrawProp s.ActiveLayer).BackColor)) := by
    unfold DrawChar_calls
    dsimp only
    congr 1
    funext i
    apply List.map_congr_left
    intro j hj
    rw [List.mem_range] at hj
    have hb := glyph_bit c _ i j hW1 hW hj
    by_cases hbit : (c (((s.DrawProp s.ActiveLayer).pFont.Width + 7) / 8 * i + j / 8) % 256).testBit
        (7 - j % 8) = true
    · rw [if_pos (hb.2 hbit), if_pos hbit]
    · rw [if_neg (fun hh => hbit (hb.1 hh)), if_neg hbit]
  refine ⟨key, ?_, ?_⟩
  · rw [key, length_flatMap_const _ _ (s.DrawProp s.ActiveLayer).pFont.Width
      (fun a => by rw [List.length_map, List.length_range]), List.length_range]
    ring
  · intro hx hy
    rw [key]
    apply List.flatMap_congr
    intro i hi
    rw [List.mem_range] at hi
    apply List.map_congr_left
    intro j hj
    rw [List.mem_range] at hj
    rw [Nat.mod_eq_of_lt (by omega), Nat.mod_eq_of_lt (by omega)]

theorem DrawChar_pixels_witness :
    (DrawChar_calls (sampleTextLCD 3 2 []) 10 20 (fun k => if k = 0 then 160 else 64)).length =
      ((sampleTextLCD 3 2 []).DrawProp (sampleTextLCD 3 2 []).ActiveLayer).pFont.Width *
        ((sampleTextLCD 3 2 []).DrawProp (sampleTextLCD 3 2 []).ActiveLayer).pFont.Height ∧
    DrawChar_calls (sampleTextLCD 3 2 []) 10 20 (fun k => if k = 0 then 160 else 64) =
      [(10, 20, 4294901760), (11, 20, 255), (12, 20, 4294901760),
       (10, 21, 255), (11, 21, 4294901760), (12, 21, 255)] :=
  ⟨(DrawChar_pixels (sampleTextLCD 3 2 []) 10 20 (fun k => if k = 0 then 160 else 64)
      (by decide) (by decide)).2.1, by decide⟩

/-! ## `LCD_DisplayStringAt` -/

theorem startColumn_range (s : LCD) (Xpos size : Nat) (Mode : Text_AlignModeTypdef) :
    1 ≤ startColumn s Xpos size Mode ∧ startColumn s Xpos size Mode < 32768 := by
  unfold startColumn
  dsimp only
  split <;> omega

/-- The `k`-th call of the display loop started with counter `i`: the loop has
checked `(i+k+1) * Width <= XSize mod 2^16`, and the call is for the `k`-th
remaining character at column `ref_column + k*Width` (mod `2^16`). -/
theorem displayLoop_get (s : LCD) (Ypos : Nat)
    (hW : 1 ≤ (s.DrawProp s.ActiveLayer).pFont.Width) :
    ∀ (Text : List Nat) (i ref k : Nat) (call : CharCall),
      i * (s.DrawProp s.ActiveLayer).pFont.Width ≤ LCD_GetXSize s % 65536 → ref < 65536 →
      (displayLoop s Ypos Text i ref)[k]? = some call →
      (i + k + 1) * (s.DrawProp s.ActiveLayer).pFont.Width ≤ LCD_GetXSize s % 65536 ∧
      call.1 = (ref + k * (s.DrawProp s.ActiveLayer).pFont.Width) % 65536 ∧
      call.2.1 = Ypos ∧ Text[k]? = some call.2.2 := by
  intro Text
  induction Text with
  | nil =>
    intro i ref k call _ _ h
    simp [displayLoop] at h
  | cons ch rest ih =>
    intro i ref k call hi href h
    have hcast : (i : Int) * ((s.DrawProp s.ActiveLayer).pFont.Width : Int) =
        ((i * (s.DrawProp s.ActiveLayer).pFont.Width : Nat) : Int) := by push_cast; ring
    have hsucc : (i + 1) * (s.DrawProp s.ActiveLayer).pFont.Width =
        i * (s.DrawProp s.ActiveLayer).pFont.Width + (s.DrawProp s.ActiveLayer).pFont.Width := by
      ring
    have hile : i ≤ i * (s.DrawProp s.ActiveLayer).pFont.Width := Nat.le_mul_of_pos_right i hW
    rw [displayLoop] at h
    by_cases hc : toUInt16 ((LCD_GetXSize s : Int) -
        (i : Int) * ((s.DrawProp s.ActiveLayer).pFont.Width : Int)) ≥
        (s.DrawProp s.ActiveLayer).pFont.Width
    · rw [if_pos hc] at h
      have hnext : (i + 1) * (s.DrawProp s.ActiveLayer).pFont.Width ≤ LCD_GetXSize s % 65536 := by
        rw [hcast] at hc
        unfold toUInt16 at hc
        omega
      cases k with
      | zero =>
        simp only [List.getElem?_cons_zero, Option.some.injEq] at h
        subst h
        exact ⟨by simpa using hnext, by simp; omega, rfl, by simp⟩
      | succ k =>
        simp only [List.getElem?_cons_succ] at h
        have hi1 : (i + 1) % 65536 = i + 1 := by
          have := Nat.mod_lt (LCD_GetXSize s) (by decide : 65536 > 0)
          omega
        rw [hi1] at h
        obtain ⟨a, b, c, d⟩ := ih (i + 1) _ k call hnext (Nat.mod_lt _ (by decide)) h
        refine ⟨?_, ?_, c, ?_⟩
        · have e : i + (k + 1) + 1 = i + 1 + k + 1 := by ring
          rw [e]; exact a
        · rw [b]
          have e : (k + 1) * (s.DrawProp s.ActiveLayer).pFont.Width =
              k * (s.DrawProp s.ActiveLayer).pFont.Width +
                (s.DrawProp s.ActiveLayer).pFont.Width := by ring
          rw [e]
          omega
        · simpa using d
    · rw [if_neg hc] at h
      simp at h

/-- C16 (amended): for a non-empty text of length `strlen`, a font of width
`glyphWidth <= XSize mod 2^16`, `XSize < 2^32` and
`strlen <= charsPerLine = XSize / glyphWidth` (so `glyphWidth >= 1`),
`LCD_DisplayStringAt` in
`CENTER_MODE` draws its first character, on row `Ypos`, at column
`c = Xpos + ((charsPerLine - strlen) * glyphWidth) / 2` when `1 <= c < 0x8000`,
and at column 1 when `c = 0` or `0x8000 <= c < 0x10000`. -/
theorem LCD_DisplayStringAt_center (s : LCD) (Xpos Ypos ch : Nat) (rest : List Nat)
    (hX : LCD_GetXSize s < 2 ^ 32)
    (hfirst : (s.DrawProp s.ActiveLayer).pFont.Width ≤ LCD_GetXSize s % 65536)
    (hlen : (ch :: rest).length ≤ LCD_GetXSize s / (s.DrawProp s.ActiveLayer).pFont.Width) :
    ∃ (col : Nat) (tail : List CharCall),
      LCD_DisplayStringAt_calls s Xpos Ypos (ch :: rest) Text_AlignModeTypdef.CENTER_MODE =
        (col, Ypos, ch) :: tail ∧
      (1 ≤ specCenterColumn (LCD_GetXSize s) (s.DrawProp s.ActiveLayer).pFont.Width Xpos
            (ch :: rest).length ∧
        specCenterColumn (LCD_GetXSize s) (s.DrawProp s.ActiveLayer).pFont.Width Xpos
            (ch :: rest).length < 32768 →
        (col : Int) = specCenterColumn (LCD_GetXSize s) (s.DrawProp s.ActiveLayer).pFont.Width
          Xpos (ch :: rest).length) ∧
      (specCenterColumn (LCD_GetXSize s) (s.DrawProp s.ActiveLayer).pFont.Width Xpos
            (ch :: rest).length = 0 ∨
        (32768 ≤ specCenterColumn (LCD_GetXSize s) (s.DrawProp s.ActiveLayer).pFont.Width Xpos
            (ch :: rest).length ∧
          specCenterColumn (LCD_GetXSize s) (s.DrawProp s.ActiveLayer).pFont.Width Xpos
            (ch :: rest).length < 65536) →
        col = 1) := by
  refine ⟨startColumn s Xpos (ch :: rest).length Text_AlignModeTypdef.CENTER_MODE,
    displayLoop s Ypos rest ((0 + 1) % 65536)
      ((startColumn s Xpos (ch :: rest).length Text_AlignModeTypdef.CENTER_MODE +
        (s.DrawProp s.ActiveLayer).pFont.Width) % 65536), ?_, ?_⟩
  · unfold LCD_DisplayStringAt_calls
    rw [displayLoop]
    have hc : toUInt16 ((LCD_GetXSize s : Int) -
        ((0 : Nat) : Int) * ((s.DrawProp s.ActiveLayer).pFont.Width : Int)) ≥
        (s.DrawProp s.ActiveLayer).pFont.Width := by
      unfold toUInt16
      simp only [Nat.cast_zero, zero_mul, sub_zero]
      omega
    rw [if_pos hc]
  · have h1 : (LCD_GetXSize s / (s.DrawProp s.ActiveLayer).pFont.Width -
        (ch :: rest).length) * (s.DrawProp s.ActiveLayer).pFont.Width ≤ LCD_GetXSize s :=
      le_trans (Nat.mul_le_mul_right _ (Nat.sub_le _ _)) (Nat.div_mul_le_self _ _)
    have h2 : LCD_GetXSize s / (s.DrawProp s.ActiveLayer).pFont.Width ≤ LCD_GetXSize s :=
      Nat.div_le_self _ _
    have h3 : (((LCD_GetXSize s / (s.DrawProp s.ActiveLayer).pFont.Width : Nat) : Int) -
        ((ch :: rest).length : Int)) * ((s.DrawProp s.ActiveLayer).pFont.Width : Int) =
        (((LCD_GetXSize s / (s.DrawProp s.ActiveLayer).pFont.Width -
          (ch :: rest).length) * (s.DrawProp s.ActiveLayer).pFont.Width : Nat) : Int) := by
      rw [Nat.cast_mul, Nat.cast_sub hlen]
    have h4 : (LCD_GetXSize s / (s.DrawProp s.ActiveLayer).pFont.Width + 2 ^ 32 -
        (ch :: rest).length % 2 ^ 32) % 2 ^ 32 =
        LCD_GetXSize s / (s.DrawProp s.ActiveLayer).pFont.Width - (ch :: rest).length := by
      omega
    unfold specCenterColumn startColumn
    dsimp only
    rw [h3, h4]
    generalize (LCD_GetXSize s / (s.DrawProp s.ActiveLayer).pFont.Width -
      (ch :: rest).length) * (s.DrawProp s.ActiveLayer).pFont.Width = P at h1 ⊢
    constructor
    · intro h
      split <;> omega
    · intro h
      split <;> omega

theorem LCD_DisplayStringAt_center_witness :
    ∃ (col : Nat) (tail : List CharCall),
      LCD_DisplayStringAt_calls (sampleTextLCD 16 24 []) 0 5 (65 :: [66, 67])
          Text_AlignModeTypdef.CENTER_MODE = (col, 5, 65) :: tail ∧
      (1 ≤ specCenterColumn (LCD_GetXSize (sampleTextLCD 16 24 []))
            ((sampleTextLCD 16 24 []).DrawProp (sampleTextLCD 16 24 []).ActiveLayer).pFont.Width
            0 (65 :: [66, 67]).length ∧
        specCenterColumn (LCD_GetXSize (sampleTextLCD 16 24 []))
            ((sampleTextLCD 16 24 []).DrawProp (sampleTextLCD 16 24 []).ActiveLayer).pFont.Width
            0 (65 :: [66, 67]).length < 32768 →
        (col : Int) = specCenterColumn (LCD_GetXSize (sampleTextLCD 16 24 []))
          ((sampleTextLCD 16 24 []).DrawProp (sampleTextLCD 16 24 []).ActiveLayer).pFont.Width
          0 (65 :: [66, 67]).length) ∧
      (specCenterColumn (LCD_GetXSize (sampleTextLCD 16 24 []))
            ((sampleTextLCD 16 24 []).DrawProp (sampleTextLCD 16 24 []).ActiveLayer).pFont.Width
            0 (65 :: [66, 67]).length = 0 ∨
        (32768 ≤ specCenterColumn (LCD_GetXSize (sampleTextLCD 16 24 []))
            ((sampleTextLCD 16 24 []).DrawProp (sampleTextLCD 16 24 []).ActiveLayer).pFont.Width
            0 (65 :: [66, 67]).length ∧
          specCenterColumn (LCD_GetXSize (sampleTextLCD 16 24 []))
            ((sampleTextLCD 16 24 []).DrawProp (sampleTextLCD 16 24 []).ActiveLayer).pFont.Width
            0 (65 :: [66, 67]).length < 65536) →
        col = 1) :=
  LCD_DisplayStringAt_center (sampleTextLCD 16 24 []) 0 5 65 [66, 67]
    (by decide) (by decide) (by decide)

/-- C16 as stated fails: on a surface 800 pixels wide with a font 16 pixels wide
(50 characters per line), a 50-character text centred at `Xpos = 0` has the
stated start column `0 + ((50 - 50) * 16) / 2 = 0`, but its first character is
drawn at column 1. -/
theorem LCD_DisplayStringAt_center_counterexample :
    specCenterColumn (LCD_GetXSize (sampleTextLCD 16 24 []))
      ((sampleTextLCD 16 24 []).DrawProp (sampleTextLCD 16 24 []).ActiveLayer).pFont.Width
      0 (List.replicate 50 65).length = 0 ∧
    (LCD_DisplayStringAt_calls (sampleTextLCD 16 24 []) 0 5 (List.replicate 50 65)
      Text_AlignModeTypdef.CENTER_MODE).head? = some (1, 5, 65) := by
  decide

/-! ## Accelerated fill that does not start -/

/-- When one of the three HAL calls fails, `LL_FillBuffer` only sets up the
`Init` fields of the DMA2D handle. -/
theorem LL_FillBuffer_not_started (s : LCD) (LayerIndex pDst xSize ySize OffLine ColorIndex : Nat)
    (h : ¬ (s.dma2d.initOK = true ∧ s.dma2d.configOK = true ∧ s.dma2d.startOK = true)) :
    LL_FillBuffer s LayerIndex pDst xSize ySize OffLine ColorIndex =
      { s with dma2dInit :=
        { Mode := DMA2D_Mode.DMA2D_R2M,
          ColorMode :=
            if (s.LayerCfg s.ActiveLayer).PixelFormat = PixelFormat.RGB565 then
              DMA2D_ColorMode.DMA2D_RGB565
            else DMA2D_ColorMode.DMA2D_ARGB8888,
          OutputOffset := OffLine } } := by
  unfold LL_FillBuffer
  dsimp only
  by_cases h1 : s.dma2d.initOK = true
  · by_cases h2 : s.dma2d.configOK = true
    · by_cases h3 : s.dma2d.startOK = true
      · exact absurd ⟨h1, h2, h3⟩ h
      · rw [if_pos h1, if_pos h2, if_neg h3]
    · rw [if_pos h1, if_neg h2]
  · rw [if_neg h1]

/-- C18: if `HAL_DMA2D_Init`, `HAL_DMA2D_ConfigLayer` or `HAL_DMA2D_Start` does not
return `HAL_OK`, then `LCD_FillRect`, `LCD_DrawHLine`, `LCD_DrawVLine` and
`LCD_Clear` leave the whole memory, hence every frame-buffer pixel, unchanged:
nothing is drawn by another path, and the only part of the driver state that
changes is the `Init` set-up of the DMA2D handle. -/
theorem fill_not_started (s : LCD) (Xpos Ypos Width Height Length Color : Nat)
    (h : ¬ (s.dma2d.initOK = true ∧ s.dma2d.configOK = true ∧ s.dma2d.startOK = true)) :
    ((LCD_FillRect s Xpos Ypos Width Height).mem = s.mem ∧
      (LCD_DrawHLine s Xpos Ypos Length).mem = s.mem ∧
      (LCD_DrawVLine s Xpos Ypos Length).mem = s.mem ∧
      (LCD_Clear s Color).mem = s.mem) ∧
    ((∃ d, LCD_FillRect s Xpos Ypos Width Height = { s with dma2dInit := d }) ∧
      (∃ d, LCD_DrawHLine s Xpos Ypos Length = { s with dma2dInit := d }) ∧
      (∃ d, LCD_DrawVLine s Xpos Ypos Length = { s with dma2dInit := d }) ∧
      (∃ d, LCD_Clear s Color = { s with dma2dInit := d })) := by
  have e1 : LCD_FillRect s Xpos Ypos Width Height = LL_FillBuffer s s.ActiveLayer
      (lineAddress s Xpos Ypos) Width Height ((LCD_GetXSize s + 2 ^ 32 - Width) % 2 ^ 32)
      (s.DrawProp s.ActiveLayer).TextColor := by
    unfold LCD_FillRect
    dsimp only
    rw [LCD_SetTextColor_same]
  rw [e1]
  unfold LCD_DrawHLine LCD_DrawVLine LCD_Clear
  rw [LL_FillBuffer_not_started s _ _ _ _ _ _ h, LL_FillBuffer_not_started s _ _ _ _ _ _ h,
    LL_FillBuffer_not_started s _ _ _ _ _ _ h, LL_FillBuffer_not_started s _ _ _ _ _ _ h]
  exact ⟨⟨rfl, rfl, rfl, rfl⟩, ⟨_, rfl⟩, ⟨_, rfl⟩, ⟨_, rfl⟩, ⟨_, rfl⟩⟩

theorem fill_not_started_witness :
    ((LCD_FillRect sampleFailedLCD 10 20 30 40).mem = sampleFailedLCD.mem ∧
      (LCD_DrawHLine sampleFailedLCD 10 20 50).mem = sampleFailedLCD.mem ∧
      (LCD_DrawVLine sampleFailedLCD 10 20 50).mem = sampleFailedLCD.mem ∧
      (LCD_Clear sampleFailedLCD 255).mem = sampleFailedLCD.mem) ∧
    ((∃ d, LCD_FillRect sampleFailedLCD 10 20 30 40 = { sampleFailedLCD with dma2dInit := d }) ∧
      (∃ d, LCD_DrawHLine sampleFailedLCD 10 20 50 = { sampleFailedLCD with dma2dInit := d }) ∧
      (∃ d, LCD_DrawVLine sampleFailedLCD 10 20 50 = { sampleFailedLCD with dma2dInit := d }) ∧
      (∃ d, LCD_Clear sampleFailedLCD 255 = { sampleFailedLCD with dma2dInit := d })) :=
  fill_not_started sampleFailedLCD 10 20 30 40 50 255 (by decide)

/-! ## `DrawFastLineVertical` and `LCD_DrawFullCircle` -/

/-- C19 fails on the code: on a layer-of-view window of 800 x 480 pixels at
`0xC0000000` (`LAYERS_SIZE = 1536000`), `LCD_DrawFullCircle(10, 479, 2)` calls
`DrawFastLineVertical(11, 477, 481)`, which stores the text colour at
`0xC0000000 + 4*480*800 + 4*11 = 3222761516`, an address that is not below
`base + LAYERS_SIZE = 3222761472`: the word there was 0 and is the text colour
afterwards. -/
theorem LCD_DrawFullCircle_outside_window :
    LCD_DrawFullCircle_spans 10 10 479 2 =
      some [(11, 477, 481), (9, 477, 481), (12, 478, 480), (8, 478, 480),
        (12, 478, 480), (8, 478, 480), (11, 477, 481), (9, 477, 481)] ∧
    ¬ (3222761516 <
      (sampleLCD PixelFormat.ARGB8888 3221225472 800 480 4294901760 3221225472 0).ProjectionLayerAddress
          (sampleLCD PixelFormat.ARGB8888 3221225472 800 480 4294901760 3221225472 0).LayerOfView +
        (sampleLCD PixelFormat.ARGB8888 3221225472 800 480 4294901760 3221225472 0).LAYERS_SIZE) ∧
    read32 (sampleLCD PixelFormat.ARGB8888 3221225472 800 480 4294901760 3221225472 0).mem
      3222761516 = 0 ∧
    (LCD_DrawFullCircle 10
        (sampleLCD PixelFormat.ARGB8888 3221225472 800 480 4294901760 3221225472 0) 10 479 2).map
      (fun t => read32 t.mem 3222761516) = some 4294901760 := by
  refine ⟨by decide, by decide, by decide, ?_⟩
  decide

theorem fastLineAddress_eq (s : LCD) (x1 y : Nat) : fastLineAddress s x1 y = fastAddress s x1 y := by
  unfold fastLineAddress fastAddress
  congr 1
  ring

/-- Two addresses of `Fast_LCD_DrawPixel` are the same word or disjoint words. -/
theorem fastAddress_same_or_disjoint (s : LCD) (x y x2 y2 : Nat) :
    fastAddress s x y = fastAddress s x2 y2 ∨
      fastAddress s x2 y2 + 4 ≤ fastAddress s x y ∨
      fastAddress s x y + 4 ≤ fastAddress s x2 y2 := by
  unfold fastAddress
  generalize y * s.DisplayWIDTH + x = p
  generalize y2 * s.DisplayWIDTH + x2 = q
  omega

/-- The loop of `DrawFastLineVertical` ends when the fuel exceeds the number of
rows below `y2`, having stored the text colour at rows `y1 .. y2 - 1`. -/
theorem fastLineLoop_eq (s : LCD) (x1 y2 : Nat) (h2 : y2 < 65536) :
    ∀ (fuel y1 : Nat) (m : Mem), y1 ≤ y2 → y2 - y1 < fuel →
      fastLineLoop s x1 y2 fuel y1 m =
        some (((List.range' y1 (y2 - y1)).map (fastAddress s x1)).foldl
          (fun m a => write32 m a (s.DrawProp s.ActiveLayer).TextColor) m) := by
  intro fuel
  induction fuel with
  | zero => intro y1 m _ h; omega
  | succ fuel ih =>
    intro y1 m hle hf
    rw [fastLineLoop]
    by_cases hlt : y1 < y2
    · rw [if_pos hlt]
      have e1 : (y1 + 1) % 65536 = y1 + 1 := by omega
      have e2 : y2 - y1 = (y2 - (y1 + 1)) + 1 := by omega
      rw [e1, ih (y1 + 1) _ (by omega) (by omega), e2, List.range'_succ, List.map_cons,
        List.foldl_cons, fastLineAddress_eq]
    · rw [if_neg hlt]
      have e : y2 - y1 = 0 := by omega
      rw [e]
      rfl

/-- Function `DrawFastLineVertical` returns when the fuel exceeds `|y2 - y1|`:
it stores the text colour at the rows `min(y1,y2) .. max(y1,y2)` of column `x1`,
in this order, and changes nothing else of the state. -/
theorem DrawFastLineVertical_eq (fuel : Nat) (s : LCD) (x1 y1 y2 : Nat)
    (h1 : y1 < 65536) (h2 : y2 < 65536) (hf : absDiff y1 y2 < fuel) :
    DrawFastLineVertical fuel s x1 y1 y2 =
      some { s with
        mem :=
          ((List.range' (min y1 y2) (absDiff y1 y2 + 1)).map (fastAddress s x1)).foldl
            (fun m a => write32 m a (s.DrawProp s.ActiveLayer).TextColor) s.mem } := by
  unfold DrawFastLineVertical
  dsimp only
  unfold absDiff at hf ⊢
  by_cases h : y1 > y2
  · rw [if_pos h, if_pos h, fastLineLoop_eq s x1 y1 h1 fuel y2 s.mem (by omega)
      (by rw [if_neg (by omega)] at hf; exact hf)]
    rw [if_neg (by omega), Nat.min_eq_right (by omega), List.range'_concat, List.map_append,
      List.foldl_append, Option.map_some', fastLineAddress_eq]
    have e : y2 + 1 * (y1 - y2) = y1 := by omega
    rw [e]
    rfl
  · rw [if_neg h, if_neg h, fastLineLoop_eq s x1 y2 h2 fuel y1 s.mem (by omega)
      (by rw [if_pos (by omega)] at hf; exact hf)]
    rw [if_pos (by omega), Nat.min_eq_left (by omega), List.range'_concat, List.map_append,
      List.foldl_append, Option.map_some', fastLineAddress_eq]
    have e : y1 + 1 * (y2 - y1) = y2 := by omega
    rw [e]
    rfl

/-- The values of `x` and `y` after one iteration of the loop of
`LCD_DrawFullCircle` entered with `0 <= x < y`. -/
theorem fullCircleStep_xy (v : FullCircleVars) (hx : 0 ≤ v.x) (hxy : v.x < v.y)
    (hy : v.y ≤ 32767) :
    (fullCircleStep v).x = v.x + 1 ∧
      ((fullCircleStep v).y = v.y ∨ (fullCircleStep v).y = v.y - 1) := by
  unfold fullCircleStep
  dsimp only
  by_cases hf : v.f ≥ 0
  · rw [if_pos hf]
    dsimp only
    unfold toInt16
    omega
  · rw [if_neg hf]
    unfold toInt16
    omega

/-- The loop of `LCD_DrawFullCircle` ends when the fuel exceeds `y - x`, and
every iteration draws its spans at values `1 <= x <= y + 1`, `0 <= y`. -/
theorem fullCircleStates_inv :
    ∀ (fuel : Nat) (v : FullCircleVars), 0 ≤ v.x → v.y ≤ 32767 → (v.y - v.x).toNat < fuel →
      ∃ l, fullCircleStates fuel v = some l ∧
        ∀ w ∈ l, 1 ≤ w.x ∧ 0 ≤ w.y ∧ w.x ≤ w.y + 1 ∧ w.y ≤ 32767 := by
  intro fuel
  induction fuel with
  | zero => intro v _ _ h; omega
  | succ fuel ih =>
    intro v hx hy hf
    rw [fullCircleStates]
    by_cases hxy : v.x < v.y
    · rw [if_pos hxy]
      obtain ⟨ex, ey⟩ := fullCircleStep_xy v hx hxy hy
      obtain ⟨l, hl, hw⟩ := ih (fullCircleStep v) (by omega) (by omega) (by omega)
      refine ⟨fullCircleStep v :: l, by rw [hl]; rfl, ?_⟩
      intro w hmem
      rcases List.mem_cons.1 hmem with e | e
      · subst e
        omega
      · exact hw w e
    · rw [if_neg hxy]
      exact ⟨[], rfl, by simp⟩

/-- The rows and heights of the four spans of one iteration of
`LCD_DrawFullCircle`. -/
theorem fullCircleSpans_rows (Xpos Ypos : Nat) (w : FullCircleVars) (hx : 0 ≤ w.x) (hy : 0 ≤ w.y)
    (k : Nat) (c : SpanCall) (hc : (fullCircleSpans Xpos Ypos w)[k]? = some c) :
    k < 4 ∧
    (k < 2 → w.y ≤ Ypos → (Ypos : Int) + w.y ≤ 65535 →
      (c.2.1 : Int) = Ypos - w.y ∧ (c.2.2 : Int) = Ypos + w.y ∧
      ((absDiff c.2.1 c.2.2 + 1 : Nat) : Int) = 2 * w.y + 1) ∧
    (2 ≤ k → w.x ≤ Ypos → (Ypos : Int) + w.x ≤ 65535 →
      (c.2.1 : Int) = Ypos - w.x ∧ (c.2.2 : Int) = Ypos + w.x ∧
      ((absDiff c.2.1 c.2.2 + 1 : Nat) : Int) = 2 * w.x + 1) := by
  unfold fullCircleSpans at hc
  match k, hc with
  | 0, hc =>
    simp only [List.getElem?_cons_zero, Option.some.injEq] at hc
    subst hc
    refine ⟨by omega, ?_, by omega⟩
    intro _ h1 h2
    dsimp only
    unfold toUInt16 absDiff
    split <;> omega
  | 1, hc =>
    simp only [List.getElem?_cons_succ, List.getElem?_cons_zero, Option.some.injEq] at hc
    subst hc
    refine ⟨by omega, ?_, by omega⟩
    intro _ h1 h2
    dsimp only
    unfold toUInt16 absDiff
    split <;> omega
  | 2, hc =>
    simp only [List.getElem?_cons_succ, List.getElem?_cons_zero, Option.some.injEq] at hc
    subst hc
    refine ⟨by omega, by omega, ?_⟩
    intro _ h1 h2
    dsimp only
    unfold toUInt16 absDiff
    split <;> omega
  | 3, hc =>
    simp only [List.getElem?_cons_succ, List.getElem?_cons_zero, Option.some.injEq] at hc
    subst hc
    refine ⟨by omega, by omega, ?_⟩
    intro _ h1 h2
    dsimp only
    unfold toUInt16 absDiff
    split <;> omega
  | k + 4, hc =>
    simp at hc

/-- C20 (amended): for `uint16_t` rows `y1`, `y2`, `DrawFastLineVertical(x1, y1, y2)`
returns and stores the active layer's `TextColor` in the words of the
`|y2 - y1| + 1` pixels of column `x1` in rows `min(y1,y2) .. max(y1,y2)`
(addressed as `Fast_LCD_DrawPixel` addresses them, distinct when the addresses do
not wrap) and changes no other byte and no other part of the state.  The loop of
`LCD_DrawFullCircle` ends, and at each step `(x, y)` it draws four spans: the two
at columns `Xpos + x` and `Xpos - x` cover rows `Ypos - y .. Ypos + y` and are
`2y + 1` pixels tall when `Ypos >= y` and `Ypos + y <= 65535`; the two at columns
`Xpos + y` and `Xpos - y` cover rows `Ypos - x .. Ypos + x` and are `2x + 1`
pixels tall when `Ypos >= x` and `Ypos + x <= 65535`. -/
theorem DrawFastLineVertical_span (fuel : Nat) (s : LCD) (x1 y1 y2 Xpos Ypos radius : Nat)
    (h1 : y1 < 65536) (h2 : y2 < 65536) (hf : absDiff y1 y2 < fuel) (hr : radius < fuel) :
    (∃ t, DrawFastLineVertical fuel s x1 y1 y2 = some t ∧
      (∃ m, t = { s with mem := m }) ∧
      (∀ y, min y1 y2 ≤ y → y ≤ max y1 y2 →
        read32 t.mem (fastAddress s x1 y) = (s.DrawProp s.ActiveLayer).TextColor % 2 ^ 32) ∧
      (∀ a, (∀ y, min y1 y2 ≤ y → y ≤ max y1 y2 →
          a < fastAddress s x1 y ∨ fastAddress s x1 y + 4 ≤ a) → t.mem a = s.mem a) ∧
      max y1 y2 - min y1 y2 + 1 = absDiff y1 y2 + 1 ∧
      (1 ≤ s.DisplayWIDTH →
        s.ProjectionLayerAddress s.LayerOfView + 4 * (max y1 y2 * s.DisplayWIDTH + x1) < 2 ^ 32 →
        ∀ y y3, min y1 y2 ≤ y → y < y3 → y3 ≤ max y1 y2 →
          fastAddress s x1 y + 4 ≤ fastAddress s x1 y3)) ∧
    (∃ l, fullCircleStates fuel (fullCircleInit radius) = some l ∧
      LCD_DrawFullCircle_spans fuel Xpos Ypos radius =
        some (l.flatMap (fullCircleSpans Xpos Ypos)) ∧
      ∀ w ∈ l, 0 ≤ w.x ∧ 0 ≤ w.y ∧
        ∀ (k : Nat) (c : SpanCall), (fullCircleSpans Xpos Ypos w)[k]? = some c →
          k < 4 ∧
          (k < 2 → w.y ≤ Ypos → (Ypos : Int) + w.y ≤ 65535 →
            (c.2.1 : Int) = Ypos - w.y ∧ (c.2.2 : Int) = Ypos + w.y ∧
            ((absDiff c.2.1 c.2.2 + 1 : Nat) : Int) = 2 * w.y + 1) ∧
          (2 ≤ k → w.x ≤ Ypos → (Ypos : Int) + w.x ≤ 65535 →
            (c.2.1 : Int) = Ypos - w.x ∧ (c.2.2 : Int) = Ypos + w.x ∧
            ((absDiff c.2.1 c.2.2 + 1 : Nat) : Int) = 2 * w.x + 1)) := by
  constructor
  · refine ⟨_, DrawFastLineVertical_eq fuel s x1 y1 y2 h1 h2 hf, ⟨_, rfl⟩, ?_, ?_, ?_, ?_⟩
    · intro y hlo hhi
      dsimp only
      apply foldl_write32_read
      · apply List.mem_map_of_mem
        rw [List.mem_range'_1]
        unfold absDiff
        split <;> omega
      · intro a ha
        obtain ⟨y3, _, rfl⟩ := List.mem_map.1 ha
        exact fastAddress_same_or_disjoint s x1 y3 x1 y
    · intro a ha
      dsimp only
      apply foldl_write32_outside
      intro b hb
      obtain ⟨y3, hy3, rfl⟩ := List.mem_map.1 hb
      rw [List.mem_range'_1] at hy3
      unfold absDiff at hy3
      apply ha y3
      · omega
      · split at hy3 <;> omega
    · unfold absDiff
      split <;> omega
    · intro hD hmax y y3 hlo hlt hhi
      unfold fastAddress
      have e1 : (y + 1) * s.DisplayWIDTH ≤ y3 * s.DisplayWIDTH := Nat.mul_le_mul_right _ hlt
      have e2 : y3 * s.DisplayWIDTH ≤ max y1 y2 * s.DisplayWIDTH := Nat.mul_le_mul_right _ hhi
      have e3 : (y + 1) * s.DisplayWIDTH = y * s.DisplayWIDTH + s.DisplayWIDTH := by ring
      rw [e3] at e1
      generalize max y1 y2 * s.DisplayWIDTH = M at e2 hmax
      generalize y3 * s.DisplayWIDTH = Q at e1 e2
      generalize y * s.DisplayWIDTH = P at e1
      omega
  · have hinit : (fullCircleInit radius).x = 0 := rfl
    have hy : (fullCircleInit radius).y ≤ 32767 := by
      unfold fullCircleInit toInt16
      dsimp only
      omega
    have hfuel : ((fullCircleInit radius).y - (fullCircleInit radius).x).toNat < fuel := by
      unfold fullCircleInit toInt16
      dsimp only
      omega
    obtain ⟨l, hl, hw⟩ := fullCircleStates_inv fuel (fullCircleInit radius) (by omega) hy hfuel
    refine ⟨l, hl, ?_, ?_⟩
    · unfold LCD_DrawFullCircle_spans
      rw [hl]
      rfl
    · intro w hmem
      obtain ⟨a, b, _, _⟩ := hw w hmem
      exact ⟨by omega, b, fun k c hc => fullCircleSpans_rows Xpos Ypos w (by omega) b k c hc⟩

theorem DrawFastLineVertical_span_witness :
    (∃ t, DrawFastLineVertical 10 (sampleLCD PixelFormat.ARGB8888 3221225472 800 480 4294901760 3221225472 0) 13 11 9 = some t ∧
      (∃ m, t = { (sampleLCD PixelFormat.ARGB8888 3221225472 800 480 4294901760 3221225472 0) with mem := m }) ∧
      (∀ y, min 11 9 ≤ y → y ≤ max 11 9 →
        read32 t.mem (fastAddress (sampleLCD PixelFormat.ARGB8888 3221225472 800 480 4294901760 3221225472 0) 13 y) = ((sampleLCD PixelFormat.ARGB8888 3221225472 800 480 4294901760 3221225472 0).DrawProp (sampleLCD PixelFormat.ARGB8888 3221225472 800 480 4294901760 3221225472 0).ActiveLayer).TextColor % 2 ^ 32) ∧
      (∀ a, (∀ y, min 11 9 ≤ y → y ≤ max 11 9 →
          a < fastAddress (sampleLCD PixelFormat.ARGB8888 3221225472 800 480 4294901760 3221225472 0) 13 y ∨ fastAddress (sampleLCD PixelFormat.ARGB8888 3221225472 800 480 4294901760 3221225472 0) 13 y + 4 ≤ a) → t.mem a = (sampleLCD PixelFormat.ARGB8888 3221225472 800 480 4294901760 3221225472 0).mem a) ∧
      max 11 9 - min 11 9 + 1 = absDiff 11 9 + 1 ∧
      (1 ≤ (sampleLCD PixelFormat.ARGB8888 3221225472 800 480 4294901760 3221225472 0).DisplayWIDTH →
        (sampleLCD PixelFormat.ARGB8888 3221225472 800 480 4294901760 3221225472 0).ProjectionLayerAddress (sampleLCD PixelFormat.ARGB8888 3221225472 800 480 4294901760 3221225472 0).LayerOfView + 4 * (max 11 9 * (sampleLCD PixelFormat.ARGB8888 3221225472 800 480 4294901760 3221225472 0).DisplayWIDTH + 13) < 2 ^ 32 →
        ∀ y y3, min 11 9 ≤ y → y < y3 → y3 ≤ max 11 9 →
          fastAddress (sampleLCD PixelFormat.ARGB8888 3221225472 800 480 4294901760 3221225472 0) 13 y + 4 ≤ fastAddress (sampleLCD PixelFormat.ARGB8888 3221225472 800 480 4294901760 3221225472 0) 13 y3)) ∧
    (∃ l, fullCircleStates 10 (fullCircleInit 3) = some l ∧
      LCD_DrawFullCircle_spans 10 10 10 3 =
        some (l.flatMap (fullCircleSpans 10 10)) ∧
      ∀ w ∈ l, 0 ≤ w.x ∧ 0 ≤ w.y ∧
        ∀ (k : Nat) (c : SpanCall), (fullCircleSpans 10 10 w)[k]? = some c →
          k < 4 ∧
          (k < 2 → w.y ≤ 10 → (10 : Int) + w.y ≤ 65535 →
            (c.2.1 : Int) = 10 - w.y ∧ (c.2.2 : Int) = 10 + w.y ∧
            ((absDiff c.2.1 c.2.2 + 1 : Nat) : Int) = 2 * w.y + 1) ∧
          (2 ≤ k → w.x ≤ 10 → (10 : Int) + w.x ≤ 65535 →
            (c.2.1 : Int) = 10 - w.x ∧ (c.2.2 : Int) = 10 + w.x ∧
            ((absDiff c.2.1 c.2.2 + 1 : Nat) : Int) = 2 * w.x + 1)) :=
  DrawFastLineVertical_span 10 (sampleLCD PixelFormat.ARGB8888 3221225472 800 480 4294901760 3221225472 0)
    13 11 9 10 10 3 (by decide) (by decide) (by decide) (by decide)

/-- C20 as stated fails for two of the four spans of a step:
`LCD_DrawFullCircle(10, 10, 3)` draws at its first step `(x, y) = (1, 3)`, where
`Ypos >= y` and `Ypos + y <= 65535`, the span `DrawFastLineVertical(13, 9, 11)`,
which is 3 pixels tall and not `2*3 + 1 = 7`. -/
theorem DrawFastLineVertical_span_counterexample :
    LCD_DrawFullCircle_spans 10 10 10 3 =
      some [(11, 7, 13), (9, 7, 13), (13, 9, 11), (7, 9, 11),
        (12, 8, 12), (8, 8, 12), (12, 8, 12), (8, 8, 12)] ∧
    (fullCircleStates 10 (fullCircleInit 3)).map (List.map fun v => (v.x, v.y)) =
      some [(1, 3), (2, 2)] ∧
    absDiff 9 11 + 1 = 3 ∧ absDiff 9 11 + 1 ≠ 2 * 3 + 1 := by
  decide

/-! ## Layer selection and draw state -/

/-- The call `LCD_Init()` leaves `ActiveLayer = 0`, whatever it was. -/
theorem LCD_Init_ActiveLayer (b : Board) (d : Driver) : (LCD_Init b d).lcd.ActiveLayer = 0 :=
  rfl

/-- C22: draw state is kept per layer and reached through the active layer.
For layers `a != b`, after `LCD_SelectLayer(a); LCD_SetTextColor(c);
LCD_SelectLayer(b); LCD_SetTextColor(d); LCD_SelectLayer(a)` the call
`LCD_GetTextColor()` returns `c`.  Each of `LCD_SetTextColor`,
`LCD_SetBackColor` and `LCD_SetFont` makes its getter return the value set,
leaves the other two fields of `DrawProp[ActiveLayer]`, the draw state of every
other layer and `ActiveLayer` unchanged. -/
theorem draw_state_per_layer (s : LCD) (a b c d : Nat) (f : sFONT) (hab : a ≠ b) :
    LCD_GetTextColor (LCD_SelectLayer (LCD_SetTextColor (LCD_SelectLayer
      (LCD_SetTextColor (LCD_SelectLayer s a) c) b) d) a) = c ∧
    (LCD_GetTextColor (LCD_SetTextColor s c) = c ∧
      LCD_GetBackColor (LCD_SetTextColor s c) = LCD_GetBackColor s ∧
      LCD_GetFont (LCD_SetTextColor s c) = LCD_GetFont s ∧
      (∀ i, i ≠ s.ActiveLayer → (LCD_SetTextColor s c).DrawProp i = s.DrawProp i) ∧
      (LCD_SetTextColor s c).ActiveLayer = s.ActiveLayer) ∧
    (LCD_GetBackColor (LCD_SetBackColor s c) = c ∧
      LCD_GetTextColor (LCD_SetBackColor s c) = LCD_GetTextColor s ∧
      LCD_GetFont (LCD_SetBackColor s c) = LCD_GetFont s ∧
      (∀ i, i ≠ s.ActiveLayer → (LCD_SetBackColor s c).DrawProp i = s.DrawProp i) ∧
      (LCD_SetBackColor s c).ActiveLayer = s.ActiveLayer) ∧
    (LCD_GetFont (LCD_SetFont s f) = f ∧
      LCD_GetTextColor (LCD_SetFont s f) = LCD_GetTextColor s ∧
      LCD_GetBackColor (LCD_SetFont s f) = LCD_GetBackColor s ∧
      (∀ i, i ≠ s.ActiveLayer → (LCD_SetFont s f).DrawProp i = s.DrawProp i) ∧
      (LCD_SetFont s f).ActiveLayer = s.ActiveLayer) := by
  refine ⟨?_, ⟨?_, ?_, ?_, ?_, rfl⟩, ⟨?_, ?_, ?_, ?_, rfl⟩, ⟨?_, ?_, ?_, ?_, rfl⟩⟩
  · simp only [LCD_GetTextColor, LCD_SelectLayer, LCD_SetTextColor, Function.update_same,
      Function.update_noteq hab]
  all_goals
    first
    | (intro i hi
       simp only [LCD_SetTextColor, LCD_SetBackColor, LCD_SetFont, Function.update_noteq hi])
    | simp only [LCD_GetTextColor, LCD_GetBackColor, LCD_GetFont, LCD_SetTextColor,
        LCD_SetBackColor, LCD_SetFont, Function.update_same]

theorem draw_state_per_layer_witness :
    LCD_GetTextColor (LCD_SelectLayer (LCD_SetTextColor (LCD_SelectLayer
      (LCD_SetTextColor (LCD_SelectLayer sampleOtherLCD 0) 255) 1) 65280) 0) = 255 ∧
    (LCD_GetTextColor (LCD_SetTextColor sampleOtherLCD 255) = 255 ∧
      LCD_GetBackColor (LCD_SetTextColor sampleOtherLCD 255) = LCD_GetBackColor sampleOtherLCD ∧
      LCD_GetFont (LCD_SetTextColor sampleOtherLCD 255) = LCD_GetFont sampleOtherLCD ∧
      (∀ i, i ≠ sampleOtherLCD.ActiveLayer →
        (LCD_SetTextColor sampleOtherLCD 255).DrawProp i = sampleOtherLCD.DrawProp i) ∧
      (LCD_SetTextColor sampleOtherLCD 255).ActiveLayer = sampleOtherLCD.ActiveLayer) ∧
    (LCD_GetBackColor (LCD_SetBackColor sampleOtherLCD 255) = 255 ∧
      LCD_GetTextColor (LCD_SetBackColor sampleOtherLCD 255) = LCD_GetTextColor sampleOtherLCD ∧
      LCD_GetFont (LCD_SetBackColor sampleOtherLCD 255) = LCD_GetFont sampleOtherLCD ∧
      (∀ i, i ≠ sampleOtherLCD.ActiveLayer →
        (LCD_SetBackColor sampleOtherLCD 255).DrawProp i = sampleOtherLCD.DrawProp i) ∧
      (LCD_SetBackColor sampleOtherLCD 255).ActiveLayer = sampleOtherLCD.ActiveLayer) ∧
    (LCD_GetFont (LCD_SetFont sampleOtherLCD { table := [], Width := 17, Height := 24 }) =
        { table := [], Width := 17, Height := 24 } ∧
      LCD_GetTextColor (LCD_SetFont sampleOtherLCD { table := [], Width := 17, Height := 24 }) =
        LCD_GetTextColor sampleOtherLCD ∧
      LCD_GetBackColor (LCD_SetFont sampleOtherLCD { table := [], Width := 17, Height := 24 }) =
        LCD_GetBackColor sampleOtherLCD ∧
      (∀ i, i ≠ sampleOtherLCD.ActiveLayer →
        (LCD_SetFont sampleOtherLCD { table := [], Width := 17, Height := 24 }).DrawProp i =
          sampleOtherLCD.DrawProp i) ∧
      (LCD_SetFont sampleOtherLCD { table := [], Width := 17, Height := 24 }).ActiveLayer =
        sampleOtherLCD.ActiveLayer) :=
  draw_state_per_layer sampleOtherLCD 0 1 255 65280 { table := [], Width := 17, Height := 24 }
    (by decide)

/-! ## The memory writes of `LCD_DrawLine` -/

/-- The pixel calls of `LCD_DrawLine` change the memory by their stores, in
order, and nothing else. -/
theorem drawPixels_eq_writes (s : LCD) (l : List Pixel) :
    ∀ m : Mem, drawPixels { s with mem := m } l =
      { s with mem := applyWrites m (l.filterMap (fastWrite s)) } := by
  induction l with
  | nil => intro m; rfl
  | cons p l ih =>
    intro m
    unfold drawPixels
    rw [List.foldl_cons, Fast_LCD_DrawPixel_eq]
    by_cases h : (s.ProjectionLayerAddress s.LayerOfView + 2 ^ 32 - 1) % 2 ^ 32 <
        fastAddress s p.1 p.2 ∧
        fastAddress s p.1 p.2 < (s.ProjectionLayerAddress s.LayerOfView + s.LAYERS_SIZE) % 2 ^ 32
    · have e : fastWrite s p = some (fastAddress s p.1 p.2, (s.DrawProp s.ActiveLayer).TextColor) := by
        unfold fastWrite
        rw [if_pos h]
      have h2 : (({ s with mem := m } : LCD).ProjectionLayerAddress
            ({ s with mem := m } : LCD).LayerOfView + 2 ^ 32 - 1) % 2 ^ 32 <
          fastAddress { s with mem := m } p.1 p.2 ∧
          fastAddress { s with mem := m } p.1 p.2 <
            (({ s with mem := m } : LCD).ProjectionLayerAddress
              ({ s with mem := m } : LCD).LayerOfView +
              ({ s with mem := m } : LCD).LAYERS_SIZE) % 2 ^ 32 := h
      rw [if_pos h2, List.filterMap_cons_some e]
      exact ih _
    · have e : fastWrite s p = none := by
        unfold fastWrite
        rw [if_neg h]
      have h2 : ¬ ((({ s with mem := m } : LCD).ProjectionLayerAddress
            ({ s with mem := m } : LCD).LayerOfView + 2 ^ 32 - 1) % 2 ^ 32 <
          fastAddress { s with mem := m } p.1 p.2 ∧
          fastAddress { s with mem := m } p.1 p.2 <
            (({ s with mem := m } : LCD).ProjectionLayerAddress
              ({ s with mem := m } : LCD).LayerOfView +
              ({ s with mem := m } : LCD).LAYERS_SIZE) % 2 ^ 32) := h
      rw [if_neg h2, List.filterMap_cons_none e]
      exact ih _

theorem fastWrite_congr (s t : LCD) (p : Pixel)
    (hP : s.ProjectionLayerAddress = t.ProjectionLayerAddress) (hV : s.LayerOfView = t.LayerOfView)
    (hW : s.DisplayWIDTH = t.DisplayWIDTH) (hL : s.LAYERS_SIZE = t.LAYERS_SIZE)
    (hC : (s.DrawProp s.ActiveLayer).TextColor = (t.DrawProp t.ActiveLayer).TextColor) :
    fastWrite s p = fastWrite t p := by
  unfold fastWrite fastAddress
  rw [hP, hV, hW, hL, hC]

/-- C23: the stores of `LCD_DrawLine` depend on the state only through
`ProjectionLayerAddress`, `LayerOfView`, the build constants `DisplayWIDTH` and
`LAYERS_SIZE`, and the text colour of the active layer.  Two states that agree
on these, whatever their active layer and its configuration (frame-buffer
address, pixel format, width, height), make the same stores of the same values
at the same addresses in the same order (or both do not return), each call
changes the state by exactly these stores, and from equal memories both end
with equal memories. -/
theorem LCD_DrawLine_independent (fuel : Nat) (s t : LCD) (x1 y1 x2 y2 : Nat)
    (hP : s.ProjectionLayerAddress = t.ProjectionLayerAddress) (hV : s.LayerOfView = t.LayerOfView)
    (hW : s.DisplayWIDTH = t.DisplayWIDTH) (hL : s.LAYERS_SIZE = t.LAYERS_SIZE)
    (hC : (s.DrawProp s.ActiveLayer).TextColor = (t.DrawProp t.ActiveLayer).TextColor) :
    LCD_DrawLine_writes fuel s x1 y1 x2 y2 = LCD_DrawLine_writes fuel t x1 y1 x2 y2 ∧
    LCD_DrawLine fuel s x1 y1 x2 y2 =
      (LCD_DrawLine_writes fuel s x1 y1 x2 y2).map
        (fun w => { s with mem := applyWrites s.mem w }) ∧
    LCD_DrawLine fuel t x1 y1 x2 y2 =
      (LCD_DrawLine_writes fuel t x1 y1 x2 y2).map
        (fun w => { t with mem := applyWrites t.mem w }) ∧
    (s.mem = t.mem →
      (LCD_DrawLine fuel s x1 y1 x2 y2).map (fun u => u.mem) =
        (LCD_DrawLine fuel t x1 y1 x2 y2).map (fun u => u.mem)) := by
  have hw : LCD_DrawLine_writes fuel s x1 y1 x2 y2 = LCD_DrawLine_writes fuel t x1 y1 x2 y2 := by
    have e : fastWrite s = fastWrite t := funext fun p => fastWrite_congr s t p hP hV hW hL hC
    unfold LCD_DrawLine_writes
    rw [e]
  have hs : ∀ u : LCD, LCD_DrawLine fuel u x1 y1 x2 y2 =
      (LCD_DrawLine_writes fuel u x1 y1 x2 y2).map
        (fun w => { u with mem := applyWrites u.mem w }) := by
    intro u
    unfold LCD_DrawLine LCD_DrawLine_writes
    rw [Option.map_map]
    have e : drawPixels u = (fun w => ({ u with mem := applyWrites u.mem w } : LCD)) ∘
        fun l => l.filterMap (fastWrite u) :=
      funext fun l => drawPixels_eq_writes u l u.mem
    rw [e]
  refine ⟨hw, hs s, hs t, ?_⟩
  intro hm
  rw [hs s, hs t, hw, Option.map_map, Option.map_map, hm]
  rfl

theorem LCD_DrawLine_independent_witness :
    (LCD_DrawLine_writes 10
        (sampleLCD PixelFormat.ARGB8888 3221225472 800 480 4294901760 3221225472 0) 0 0 3 1 =
      LCD_DrawLine_writes 10 sampleOtherLCD 0 0 3 1 ∧
    LCD_DrawLine 10
        (sampleLCD PixelFormat.ARGB8888 3221225472 800 480 4294901760 3221225472 0) 0 0 3 1 =
      (LCD_DrawLine_writes 10
          (sampleLCD PixelFormat.ARGB8888 3221225472 800 480 4294901760 3221225472 0) 0 0 3 1).map
        (fun w =>
          { (sampleLCD PixelFormat.ARGB8888 3221225472 800 480 4294901760 3221225472 0) with
            mem := applyWrites
              (sampleLCD PixelFormat.ARGB8888 3221225472 800 480 4294901760 3221225472 0).mem w }) ∧
    LCD_DrawLine 10 sampleOtherLCD 0 0 3 1 =
      (LCD_DrawLine_writes 10 sampleOtherLCD 0 0 3 1).map
        (fun w => { sampleOtherLCD with mem := applyWrites sampleOtherLCD.mem w }) ∧
    ((sampleLCD PixelFormat.ARGB8888 3221225472 800 480 4294901760 3221225472 0).mem =
        sampleOtherLCD.mem →
      (LCD_DrawLine 10
          (sampleLCD PixelFormat.ARGB8888 3221225472 800 480 4294901760 3221225472 0)
          0 0 3 1).map (fun u => u.mem) =
        (LCD_DrawLine 10 sampleOtherLCD 0 0 3 1).map (fun u => u.mem))) ∧
    LCD_DrawLine_writes 10 sampleOtherLCD 0 0 3 1 =
      some [(3221225472, 4294901760), (3221225476, 4294901760), (3221228680, 4294901760),
        (3221228684, 4294901760)] :=
  ⟨LCD_DrawLine_independent 10
      (sampleLCD PixelFormat.ARGB8888 3221225472 800 480 4294901760 3221225472 0) sampleOtherLCD
      0 0 3 1 rfl rfl rfl rfl rfl,
    by
      have e : LCD_DrawLine_calls 10 0 0 3 1 = some [(0, 0), (1, 0), (2, 1), (3, 1)] := by decide
      unfold LCD_DrawLine_writes
      rw [e]
      decide⟩

/-! ## `FillTriangle` walks the edge as `LCD_DrawLine` draws it -/

/-- The loop of `FillTriangle` makes one call of `LCD_DrawLine` for each pixel
the loop of `LCD_DrawLine` emits from the same locals, whatever their values. -/
theorem triangleLoop_eq_lineLoop (c : LineCfg) (x3 y3 : Nat) :
    ∀ (fuel : Nat) (v : LineVars),
      triangleLoop c x3 y3 fuel v =
        (lineLoop c fuel v).map (List.map fun p => (p.1, p.2, x3, y3)) := by
  intro fuel
  induction fuel with
  | zero => intro v; rfl
  | succ fuel ih =>
    intro v
    rw [triangleLoop, lineLoop]
    by_cases h : v.curpixel ≤ c.num_pixels
    · rw [if_pos h, if_pos h]
      have e : triangleStep c v = lineStep c v := rfl
      rw [e, ih, Option.map_map, Option.map_map]
      rfl
    · rw [if_neg h, if_neg h]
      rfl

/-- C25: `FillTriangle(x1, x2, x3, y1, y2, y3)` calls `LCD_DrawLine` once for each
pixel that `LCD_DrawLine(x1, y1, x2, y2)` emits, in the same order, each call
drawing from that pixel to `(x3, y3)` (for all arguments and any fuel).  With
`x1, y1, x2, y2` at most 16383 both return, there are exactly
`max(|x2-x1|, |y2-y1|) + 1` calls, the first from `(x1, y1)` and the last from
`(x2, y2)`. -/
theorem FillTriangle_edge_walk (x1 x2 x3 y1 y2 y3 fuel : Nat) (h1 : x1 ≤ 16383)
    (h2 : y1 ≤ 16383) (h3 : x2 ≤ 16383) (h4 : y2 ≤ 16383)
    (hfuel : max (absDiff x1 x2) (absDiff y1 y2) + 1 < fuel) :
    (∀ (f a b c d e g : Nat), FillTriangle_calls f a b c d e g =
      (LCD_DrawLine_calls f a d b e).map (List.map fun p => (p.1, p.2, c, g))) ∧
    ∃ l, LCD_DrawLine_calls fuel x1 y1 x2 y2 = some l ∧
      FillTriangle_calls fuel x1 x2 x3 y1 y2 y3 = some (l.map fun p => (p.1, p.2, x3, y3)) ∧
      (l.map fun p => (p.1, p.2, x3, y3)).length = max (absDiff x1 x2) (absDiff y1 y2) + 1 ∧
      (l.map fun p => (p.1, p.2, x3, y3)).head? = some (x1, y1, x3, y3) ∧
      (l.map fun p => (p.1, p.2, x3, y3)).getLast? = some (x2, y2, x3, y3) := by
  have hall : ∀ (f a b c d e g : Nat), FillTriangle_calls f a b c d e g =
      (LCD_DrawLine_calls f a d b e).map (List.map fun p => (p.1, p.2, c, g)) := by
    intro f a b c d e g
    unfold FillTriangle_calls LCD_DrawLine_calls
    have e1 : triangleInit a d b e = lineInit a d b e := rfl
    rw [e1, triangleLoop_eq_lineLoop]
  refine ⟨hall, _, LCD_DrawLine_calls_eq x1 y1 x2 y2 fuel h1 h2 h3 h4 hfuel, ?_, ?_, ?_, ?_⟩
  · rw [hall, LCD_DrawLine_calls_eq x1 y1 x2 y2 fuel h1 h2 h3 h4 hfuel]
    rfl
  · simp
  · rw [List.head?_map, List.head?_map, List.head?_range, if_neg (by omega)]
    simp only [Option.map_some', linePoint, towards_zero, lineMinor_zero]
    split <;> rfl
  · rw [List.getLast?_map, List.getLast?_map, List.getLast?_range, if_neg (by omega)]
    simp only [Option.map_some', Nat.add_sub_cancel, linePoint]
    by_cases hmaj : absDiff y1 y2 ≤ absDiff x1 x2
    · rw [if_pos hmaj, max_eq_left hmaj, lineMinor_last _ _ hmaj, towards_absDiff, towards_absDiff]
    · rw [if_neg hmaj, max_eq_right (by omega), lineMinor_last _ _ (by omega), towards_absDiff,
        towards_absDiff]

theorem FillTriangle_edge_walk_witness :
    (∀ (f a b c d e g : Nat), FillTriangle_calls f a b c d e g =
      (LCD_DrawLine_calls f a d b e).map (List.map fun p => (p.1, p.2, c, g))) ∧
    ∃ l, LCD_DrawLine_calls 5 0 0 3 1 = some l ∧
      FillTriangle_calls 5 0 3 7 0 1 9 = some (l.map fun p => (p.1, p.2, 7, 9)) ∧
      (l.map fun p => (p.1, p.2, 7, 9)).length = max (absDiff 0 3) (absDiff 0 1) + 1 ∧
      (l.map fun p => (p.1, p.2, 7, 9)).head? = some (0, 0, 7, 9) ∧
      (l.map fun p => (p.1, p.2, 7, 9)).getLast? = some (3, 1, 7, 9) :=
  FillTriangle_edge_walk 0 3 7 0 1 9 5 (by decide) (by decide) (by decide) (by decide)
    (by decide)

/-! ## The error of the pixels of `LCD_DrawLine` -/

/-- The minor-axis step count of the `k`-th pixel is within half a step of the
ideal line. -/
theorem lineMinor_error (D d k : Nat) (hd : d ≤ D) (hk : k ≤ D) :
    -(D : Int) ≤ 2 * ((lineMinor D d k : Int) * (D : Int) - (k : Int) * (d : Int)) ∧
    2 * ((lineMinor D d k : Int) * (D : Int) - (k : Int) * (d : Int)) ≤ (D : Int) := by
  rcases Nat.eq_zero_or_pos D with h | h
  · subst h
    have hd0 : d = 0 := by omega
    have hk0 : k = 0 := by omega
    subst hd0 hk0
    simp [lineMinor]
  · unfold lineMinor
    have e1 := Nat.div_add_mod (D / 2 + k * d) D
    have e2 := Nat.mod_lt (D / 2 + k * d) h
    have c1 : (((D / 2 + k * d) / D : Nat) : Int) * (D : Int) =
        ((D * ((D / 2 + k * d) / D) : Nat) : Int) := by push_cast; ring
    have c2 : (k : Int) * (d : Int) = ((k * d : Nat) : Int) := by push_cast; ring
    rw [c1, c2]
    generalize D * ((D / 2 + k * d) / D) = P at e1 ⊢
    generalize (D / 2 + k * d) % D = r at e1 e2
    generalize k * d = Q at e1 ⊢
    omega

/-- C28: for coordinates at most 16383, with `D = max(|x2-x1|, |y2-y1|)` and
`d = min(|x2-x1|, |y2-y1|)`, `LCD_DrawLine` returns `D + 1` pixels and the `k`-th
one (`0 <= k <= D`) is `k` steps from the start along the dominant axis and
`m` steps (`m <= d`) along the other axis, towards the end point, with
`-D <= 2*(m*D - k*d) <= D`. -/
theorem LCD_DrawLine_error (x1 y1 x2 y2 fuel : Nat) (h1 : x1 ≤ 16383) (h2 : y1 ≤ 16383)
    (h3 : x2 ≤ 16383) (h4 : y2 ≤ 16383)
    (hfuel : max (absDiff x1 x2) (absDiff y1 y2) + 1 < fuel) :
    ∃ l, LCD_DrawLine_calls fuel x1 y1 x2 y2 = some l ∧
      l.length = max (absDiff x1 x2) (absDiff y1 y2) + 1 ∧
      ∀ k, k ≤ max (absDiff x1 x2) (absDiff y1 y2) →
        ∃ m : Nat,
          l[k]? = some
            (if absDiff y1 y2 ≤ absDiff x1 x2 then (towards x1 x2 k, towards y1 y2 m)
              else (towards x1 x2 m, towards y1 y2 k)) ∧
          m ≤ min (absDiff x1 x2) (absDiff y1 y2) ∧
          -((max (absDiff x1 x2) (absDiff y1 y2) : Nat) : Int) ≤
            2 * ((m : Int) * ((max (absDiff x1 x2) (absDiff y1 y2) : Nat) : Int) -
              (k : Int) * ((min (absDiff x1 x2) (absDiff y1 y2) : Nat) : Int)) ∧
          2 * ((m : Int) * ((max (absDiff x1 x2) (absDiff y1 y2) : Nat) : Int) -
              (k : Int) * ((min (absDiff x1 x2) (absDiff y1 y2) : Nat) : Int)) ≤
            ((max (absDiff x1 x2) (absDiff y1 y2) : Nat) : Int) := by
  refine ⟨_, LCD_DrawLine_calls_eq x1 y1 x2 y2 fuel h1 h2 h3 h4 hfuel, by simp, ?_⟩
  intro k hk
  have hget : ((List.range (max (absDiff x1 x2) (absDiff y1 y2) + 1)).map
      (linePoint x1 y1 x2 y2))[k]? = some (linePoint x1 y1 x2 y2 k) := by
    rw [List.getElem?_map, List.getElem?_range (by omega)]
    rfl
  by_cases hmaj : absDiff y1 y2 ≤ absDiff x1 x2
  · refine ⟨lineMinor (absDiff x1 x2) (absDiff y1 y2) k, ?_, ?_, ?_⟩
    · rw [hget, if_pos hmaj]
      unfold linePoint
      rw [if_pos hmaj]
    · rw [min_eq_right hmaj]
      exact lineMinor_le _ _ k (by rw [max_eq_left hmaj] at hk; exact hk)
    · rw [max_eq_left hmaj, min_eq_right hmaj]
      exact lineMinor_error _ _ k hmaj (by rw [max_eq_left hmaj] at hk; exact hk)
  · have hmin : absDiff x1 x2 ≤ absDiff y1 y2 := by omega
    refine ⟨lineMinor (absDiff y1 y2) (absDiff x1 x2) k, ?_, ?_, ?_⟩
    · rw [hget, if_neg hmaj]
      unfold linePoint
      rw [if_neg hmaj]
    · rw [min_eq_left hmin]
      exact lineMinor_le _ _ k (by rw [max_eq_right hmin] at hk; exact hk)
    · rw [max_eq_right hmin, min_eq_left hmin]
      exact lineMinor_error _ _ k hmin (by rw [max_eq_right hmin] at hk; exact hk)

theorem LCD_DrawLine_error_witness :
    ∃ l, LCD_DrawLine_calls 8 0 0 5 2 = some l ∧
      l.length = max (absDiff 0 5) (absDiff 0 2) + 1 ∧
      ∀ k, k ≤ max (absDiff 0 5) (absDiff 0 2) →
        ∃ m : Nat,
          l[k]? = some
            (if absDiff 0 2 ≤ absDiff 0 5 then (towards 0 5 k, towards 0 2 m)
              else (towards 0 5 m, towards 0 2 k)) ∧
          m ≤ min (absDiff 0 5) (absDiff 0 2) ∧
          -((max (absDiff 0 5) (absDiff 0 2) : Nat) : Int) ≤
            2 * ((m : Int) * ((max (absDiff 0 5) (absDiff 0 2) : Nat) : Int) -
              (k : Int) * ((min (absDiff 0 5) (absDiff 0 2) : Nat) : Int)) ∧
          2 * ((m : Int) * ((max (absDiff 0 5) (absDiff 0 2) : Nat) : Int) -
              (k : Int) * ((min (absDiff 0 5) (absDiff 0 2) : Nat) : Int)) ≤
            ((max (absDiff 0 5) (absDiff 0 2) : Nat) : Int) :=
  LCD_DrawLine_error 0 0 5 2 8 (by decide) (by decide) (by decide) (by decide) (by decide)

/-! ## `LCD_FillPolygon`: bounding box and triangle fan -/

/-- One more point taken into the bounding box. -/
theorem BoxInv_step (Points : Int → Point) (k : Nat) (b : BoxVars) (hk : k + 1 ≤ 32767)
    (hp : 0 ≤ (Points (k : Int)).X ∧ (Points (k : Int)).X ≤ 32767 ∧
      0 ≤ (Points (k : Int)).Y ∧ (Points (k : Int)).Y ≤ 32767)
    (h : BoxInv Points k b) :
    BoxInv Points (k + 1)
      { image_left := if toInt16 (Points b.counter).X < (b.image_left : Int) then
            toUInt16 (toInt16 (Points b.counter).X) else b.image_left,
        image_right := if toInt16 (Points b.counter).X > (b.image_right : Int) then
            toUInt16 (toInt16 (Points b.counter).X) else b.image_right,
        image_top := if toInt16 (Points b.counter).Y < (b.image_top : Int) then
            toUInt16 (toInt16 (Points b.counter).Y) else b.image_top,
        image_bottom := if toInt16 (Points b.counter).Y > (b.image_bottom : Int) then
            toUInt16 (toInt16 (Points b.counter).Y) else b.image_bottom,
        counter := toInt16 (b.counter + 1) } := by
  obtain ⟨hc, hlo, hin, ⟨il, hil, el⟩, ⟨ir, hir, er⟩, ⟨it, hit, et⟩, ⟨ib, hib, eb⟩⟩ := h
  rw [hc]
  have ex : toInt16 (Points (k : Int)).X = (Points (k : Int)).X := toInt16_of_range (by omega) (by omega)
  have ey : toInt16 (Points (k : Int)).Y = (Points (k : Int)).Y := toInt16_of_range (by omega) (by omega)
  have ux : (toUInt16 (Points (k : Int)).X : Int) = (Points (k : Int)).X :=
    toUInt16_of_range (by omega) (by omega)
  have uy : (toUInt16 (Points (k : Int)).Y : Int) = (Points (k : Int)).Y :=
    toUInt16_of_range (by omega) (by omega)
  rw [ex, ey]
  refine ⟨?_, ?_, ?_, ?_, ?_, ?_, ?_⟩
  · dsimp only
    rw [toInt16_of_range (by omega) (by omega)]
    push_cast
    rfl
  · dsimp only
    constructor
    · split <;> omega
    · split <;> omega
  · intro i hi
    dsimp only
    rcases Nat.lt_succ_iff_lt_or_eq.1 hi with h1 | h1
    · have := hin i h1
      refine ⟨?_, ?_, ?_, ?_⟩
      · split <;> omega
      · split <;> omega
      · split <;> omega
      · split <;> omega
    · subst h1
      refine ⟨?_, ?_, ?_, ?_⟩
      · split <;> omega
      · split <;> omega
      · split <;> omega
      · split <;> omega
  · dsimp only
    split
    · exact ⟨k, by omega, by omega⟩
    · exact ⟨il, by omega, el⟩
  · dsimp only
    split
    · exact ⟨k, by omega, by omega⟩
    · exact ⟨ir, by omega, er⟩
  · dsimp only
    split
    · exact ⟨k, by omega, by omega⟩
    · exact ⟨it, by omega, et⟩
  · dsimp only
    split
    · exact ⟨k, by omega, by omega⟩
    · exact ⟨ib, by omega, eb⟩

/-- The bounding-box loop returns for up to 32767 points with non-negative
coordinates, with the bounds of all `n` points. -/
theorem boxLoop_inv (Points : Int → Point) (n : Nat) (hmax : n ≤ 32767)
    (hpts : ∀ i : Nat, i < n → 0 ≤ (Points (i : Int)).X ∧ (Points (i : Int)).X ≤ 32767 ∧
      0 ≤ (Points (i : Int)).Y ∧ (Points (i : Int)).Y ≤ 32767) :
    ∀ (j k fuel : Nat) (b : BoxVars), k + j = n → j < fuel → BoxInv Points k b →
      ∃ b2, boxLoop Points n fuel b = some b2 ∧ BoxInv Points n b2 := by
  intro j
  induction j with
  | zero =>
    intro k fuel b hk hf hb
    obtain ⟨f, rfl⟩ : ∃ f, fuel = f + 1 := ⟨fuel - 1, by omega⟩
    have hkn : k = n := by omega
    subst hkn
    rw [boxLoop, if_neg (by rw [hb.cnt]; omega)]
    exact ⟨b, rfl, hb⟩
  | succ j ih =>
    intro k fuel b hk hf hb
    obtain ⟨f, rfl⟩ : ∃ f, fuel = f + 1 := ⟨fuel - 1, by omega⟩
    rw [boxLoop, if_pos (by rw [hb.cnt]; omega)]
    dsimp only
    have hs := BoxInv_step Points k b (by omega) (hpts k (by omega)) hb
    exact ih (k + 1) f _ (by omega) (by omega) hs

/-- The loop `while(--PointCount)` of `LCD_FillPolygon` makes the three calls of
each consecutive edge, in order, and leaves the last point in `X2`, `Y2`. -/
theorem fillPolygonLoop_eq (Points : Int → Point) (Xc Yc : Int) :
    ∀ (m fuel PointCount k0 : Nat) (X2 Y2 : Int), PointCount = m + 1 → PointCount ≤ 65535 →
      m < fuel →
      fillPolygonLoop Points Xc Yc fuel PointCount (k0 : Int) X2 Y2 =
        some ((List.range' k0 m).flatMap (fun (i : Nat) =>
            fanCalls (toUInt16 (Points (i : Int)).X) (toUInt16 (Points (i : Int)).Y)
              (toUInt16 (Points ((i : Int) + 1)).X) (toUInt16 (Points ((i : Int) + 1)).Y)
              (toUInt16 Xc) (toUInt16 Yc)),
          if m = 0 then X2 else toInt16 (Points ((k0 : Int) + (m : Int))).X,
          if m = 0 then Y2 else toInt16 (Points ((k0 : Int) + (m : Int))).Y) := by
  intro m
  induction m with
  | zero =>
    intro fuel PointCount k0 X2 Y2 hP _ hf
    obtain ⟨f, rfl⟩ : ∃ f, fuel = f + 1 := ⟨fuel - 1, by omega⟩
    subst hP
    rw [fillPolygonLoop, if_neg (by decide)]
    rfl
  | succ m ih =>
    intro fuel PointCount k0 X2 Y2 hP hle hf
    obtain ⟨f, rfl⟩ : ∃ f, fuel = f + 1 := ⟨fuel - 1, by omega⟩
    have hdec : (PointCount + 65535) % 65536 = m + 1 := by omega
    have hk : (k0 : Int) + 1 = ((k0 + 1 : Nat) : Int) := by push_cast; rfl
    rw [fillPolygonLoop, hdec, if_pos (by omega)]
    dsimp only
    rw [hk, ih f (m + 1) (k0 + 1) _ _ rfl (by omega) (by omega)]
    simp only [Option.map_some', List.range'_succ, List.flatMap_cons, fanCalls, toUInt16_toInt16,
      List.cons_append, List.nil_append, Nat.cast_add, Nat.cast_one, Option.some.injEq,
      Prod.mk.injEq, true_and]
    have e : (k0 : Int) + 1 + (m : Int) = (k0 : Int) + ((m : Int) + 1) := by ring
    have hm1 : ¬ (m + 1 = 0) := by omega
    rw [if_neg hm1, if_neg hm1]
    by_cases hm : m = 0
    · subst hm
      simp
    · rw [if_neg hm, if_neg hm, e]
      exact ⟨rfl, rfl⟩

/-- With 32768 points the `int16_t` counter of the bounding-box loop can never
reach `PointCount`: the loop does not return, whatever the fuel. -/
theorem boxLoop_diverges (Points : Int → Point) :
    ∀ (fuel : Nat) (b : BoxVars), b.counter ≤ 32767 → boxLoop Points 32768 fuel b = none := by
  intro fuel
  induction fuel with
  | zero => intro b _; rfl
  | succ fuel ih =>
    intro b hb
    rw [boxLoop, if_pos (by push_cast; omega)]
    exact ih _ (by dsimp only; unfold toInt16; omega)

/-- C24 (amended): for `2 <= n <= 32767` points with non-negative coordinates
(the `int16_t` loop counter is compared with `PointCount`), `LCD_FillPolygon`
returns; with `minX, maxX, minY, maxY` the bounds of the points' coordinates
(each attained by a point) and `C = ((minX + maxX)/2, (minY + maxY)/2)`, it calls
`FillTriangle` exactly `3*n` times: the three calls of `fanCalls` for each
consecutive edge `(Pi, P(i+1))`, `i = 0 .. n-2`, in order, then the three calls for
the closing edge `(P0, P(n-1))`; the vertices of every call are the two end
points of the edge and `C`. -/
theorem LCD_FillPolygon_fan (Points : Int → Point) (n fuel : Nat) (hn : 2 ≤ n)
    (hmax : n ≤ 32767)
    (hpts : ∀ i : Nat, i < n → 0 ≤ (Points (i : Int)).X ∧ (Points (i : Int)).X ≤ 32767 ∧
      0 ≤ (Points (i : Int)).Y ∧ (Points (i : Int)).Y ≤ 32767)
    (hfuel : n ≤ fuel) :
    ∃ (minX maxX minY maxY : Nat) (l : List TriangleCall),
      (∀ i : Nat, i < n →
        (minX : Int) ≤ (Points (i : Int)).X ∧ (Points (i : Int)).X ≤ (maxX : Int) ∧
        (minY : Int) ≤ (Points (i : Int)).Y ∧ (Points (i : Int)).Y ≤ (maxY : Int)) ∧
      (∃ i : Nat, i < n ∧ (Points (i : Int)).X = (minX : Int)) ∧
      (∃ i : Nat, i < n ∧ (Points (i : Int)).X = (maxX : Int)) ∧
      (∃ i : Nat, i < n ∧ (Points (i : Int)).Y = (minY : Int)) ∧
      (∃ i : Nat, i < n ∧ (Points (i : Int)).Y = (maxY : Int)) ∧
      (∀ i : Nat, i < n → ((toUInt16 (Points (i : Int)).X : Nat) : Int) = (Points (i : Int)).X ∧
        ((toUInt16 (Points (i : Int)).Y : Nat) : Int) = (Points (i : Int)).Y) ∧
      LCD_FillPolygon_calls fuel Points n = some l ∧
      l = (List.range (n - 1)).flatMap (fun (i : Nat) =>
            fanCalls (toUInt16 (Points (i : Int)).X) (toUInt16 (Points (i : Int)).Y)
              (toUInt16 (Points ((i : Int) + 1)).X) (toUInt16 (Points ((i : Int) + 1)).Y)
              ((minX + maxX) / 2) ((minY + maxY) / 2)) ++
          fanCalls (toUInt16 (Points 0).X) (toUInt16 (Points 0).Y)
            (toUInt16 (Points ((n - 1 : Nat) : Int)).X) (toUInt16 (Points ((n - 1 : Nat) : Int)).Y)
            ((minX + maxX) / 2) ((minY + maxY) / 2) ∧
      l.length = 3 * n := by
  have h0 : 0 ≤ (Points 0).X ∧ (Points 0).X ≤ 32767 ∧ 0 ≤ (Points 0).Y ∧ (Points 0).Y ≤ 32767 := by
    simpa only [Nat.cast_zero] using hpts 0 (by omega)
  have ux0 : (toUInt16 (Points 0).X : Int) = (Points 0).X := toUInt16_of_range (by omega) (by omega)
  have uy0 : (toUInt16 (Points 0).Y : Int) = (Points 0).Y := toUInt16_of_range (by omega) (by omega)
  have hb0 : BoxInv Points 1
      { image_left := toUInt16 (Points 0).X, image_right := toUInt16 (Points 0).X,
        image_top := toUInt16 (Points 0).Y, image_bottom := toUInt16 (Points 0).Y,
        counter := 1 } := by
    refine ⟨rfl, ?_, ?_, ⟨0, by omega, ux0.symm⟩, ⟨0, by omega, ux0.symm⟩,
      ⟨0, by omega, uy0.symm⟩, ⟨0, by omega, uy0.symm⟩⟩
    · dsimp only
      omega
    · intro i hi
      have hi0 : i = 0 := by omega
      subst hi0
      dsimp only
      simp only [Nat.cast_zero]
      omega
  obtain ⟨b, hb, hinv⟩ := boxLoop_inv Points n hmax hpts (n - 1) 1 fuel _ (by omega) (by omega) hb0
  obtain ⟨_, hlo, hin, ⟨il, hil, el⟩, ⟨ir, hir, er⟩, ⟨it, hit, et⟩, ⟨ib, hib, eb⟩⟩ := hinv
  have hl := hin il hil
  have ht := hin it hit
  have hcx : toUInt16 (toInt16 (((b.image_left + b.image_right) / 2 : Nat) : Int)) =
      (b.image_left + b.image_right) / 2 := by
    rw [toUInt16_toInt16]
    exact toUInt16_natCast (by omega)
  have hcy : toUInt16 (toInt16 (((b.image_bottom + b.image_top) / 2 : Nat) : Int)) =
      (b.image_top + b.image_bottom) / 2 := by
    rw [toUInt16_toInt16, Nat.add_comm]
    exact toUInt16_natCast (by omega)
  have hlist : LCD_FillPolygon_calls fuel Points n = some
      ((List.range (n - 1)).flatMap (fun (i : Nat) =>
            fanCalls (toUInt16 (Points (i : Int)).X) (toUInt16 (Points (i : Int)).Y)
              (toUInt16 (Points ((i : Int) + 1)).X) (toUInt16 (Points ((i : Int) + 1)).Y)
              ((b.image_left + b.image_right) / 2) ((b.image_top + b.image_bottom) / 2)) ++
          fanCalls (toUInt16 (Points 0).X) (toUInt16 (Points 0).Y)
            (toUInt16 (Points ((n - 1 : Nat) : Int)).X) (toUInt16 (Points ((n - 1 : Nat) : Int)).Y)
            ((b.image_left + b.image_right) / 2) ((b.image_top + b.image_bottom) / 2)) := by
    unfold LCD_FillPolygon_calls
    rw [hb, Option.some_bind, if_neg (by omega)]
    dsimp only
    have key := fillPolygonLoop_eq Points
      (toInt16 (((b.image_left + b.image_right) / 2 : Nat) : Int))
      (toInt16 (((b.image_bottom + b.image_top) / 2 : Nat) : Int))
      (n - 1) fuel n 0 0 0 (by omega) (by omega) (by omega)
    simp only [Nat.cast_zero] at key
    rw [key]
    simp only [Option.map_some', if_neg (show ¬ (n - 1 = 0) by omega), toUInt16_toInt16, hcx, hcy,
      fanCalls, zero_add, List.range_eq_range']
  refine ⟨b.image_left, b.image_right, b.image_top, b.image_bottom, _, hin, ⟨il, hil, el⟩,
    ⟨ir, hir, er⟩, ⟨it, hit, et⟩, ⟨ib, hib, eb⟩, ?_, hlist, rfl, ?_⟩
  · intro i hi
    have := hpts i hi
    exact ⟨toUInt16_of_range (by omega) (by omega), toUInt16_of_range (by omega) (by omega)⟩
  · rw [List.length_append, length_flatMap_const (List.range (n - 1))
      (fun (i : Nat) =>
        fanCalls (toUInt16 (Points (i : Int)).X) (toUInt16 (Points (i : Int)).Y)
          (toUInt16 (Points ((i : Int) + 1)).X) (toUInt16 (Points ((i : Int) + 1)).Y)
          ((b.image_left + b.image_right) / 2) ((b.image_top + b.image_bottom) / 2)) 3
      (fun a => rfl), List.length_range]
    simp only [fanCalls, List.length_cons, List.length_nil]
    omega

theorem LCD_FillPolygon_fan_witness :
    ∃ (minX maxX minY maxY : Nat) (l : List TriangleCall),
      (∀ i : Nat, i < 3 →
        (minX : Int) ≤ (samplePoints (i : Int)).X ∧ (samplePoints (i : Int)).X ≤ (maxX : Int) ∧
        (minY : Int) ≤ (samplePoints (i : Int)).Y ∧ (samplePoints (i : Int)).Y ≤ (maxY : Int)) ∧
      (∃ i : Nat, i < 3 ∧ (samplePoints (i : Int)).X = (minX : Int)) ∧
      (∃ i : Nat, i < 3 ∧ (samplePoints (i : Int)).X = (maxX : Int)) ∧
      (∃ i : Nat, i < 3 ∧ (samplePoints (i : Int)).Y = (minY : Int)) ∧
      (∃ i : Nat, i < 3 ∧ (samplePoints (i : Int)).Y = (maxY : Int)) ∧
      (∀ i : Nat, i < 3 → ((toUInt16 (samplePoints (i : Int)).X : Nat) : Int) = (samplePoints (i : Int)).X ∧
        ((toUInt16 (samplePoints (i : Int)).Y : Nat) : Int) = (samplePoints (i : Int)).Y) ∧
      LCD_FillPolygon_calls 3 samplePoints 3 = some l ∧
      l = (List.range (3 - 1)).flatMap (fun (i : Nat) =>
            fanCalls (toUInt16 (samplePoints (i : Int)).X) (toUInt16 (samplePoints (i : Int)).Y)
              (toUInt16 (samplePoints ((i : Int) + 1)).X) (toUInt16 (samplePoints ((i : Int) + 1)).Y)
              ((minX + maxX) / 2) ((minY + maxY) / 2)) ++
          fanCalls (toUInt16 (samplePoints 0).X) (toUInt16 (samplePoints 0).Y)
            (toUInt16 (samplePoints ((3 - 1 : Nat) : Int)).X) (toUInt16 (samplePoints ((3 - 1 : Nat) : Int)).Y)
            ((minX + maxX) / 2) ((minY + maxY) / 2) ∧
      l.length = 3 * 3 :=
  LCD_FillPolygon_fan samplePoints 3 3 (by decide) (by decide)
    (by
      intro i hi
      interval_cases i <;> decide)
    (by decide)

/-- C24 as stated fails: `PointCount` is a `uint16_t`, and with 32768 points (all
at the origin) the `int16_t` counter of the bounding-box loop stays below
`PointCount` for ever, so `LCD_FillPolygon` makes no call of `FillTriangle` and
does not return, whatever the fuel. -/
theorem LCD_FillPolygon_fan_counterexample :
    (2 ≤ 32768 ∧ 32768 ≤ 65535) ∧
    (∀ i : Nat, i < 32768 → 0 ≤ (originPoints (i : Int)).X ∧ 0 ≤ (originPoints (i : Int)).Y) ∧
    ∀ fuel : Nat, LCD_FillPolygon_calls fuel originPoints 32768 = none := by
  refine ⟨by decide, fun i _ => ⟨le_refl _, le_refl _⟩, ?_⟩
  intro fuel
  unfold LCD_FillPolygon_calls
  rw [boxLoop_diverges originPoints fuel _ (by decide)]
  rfl

/-! ## The iterations of `LCD_DrawCircle` -/

theorem circleLoop_eq_states (Xpos Ypos : Nat) :
    ∀ (fuel : Nat) (v : CircleVars),
      circleLoop Xpos Ypos fuel v =
        (circleStates fuel v).map fun l => l.flatMap (circlePixels Xpos Ypos) := by
  intro fuel
  induction fuel with
  | zero => intro v; rfl
  | succ fuel ih =>
    intro v
    rw [circleLoop, circleStates]
    by_cases h : v.current_x ≤ v.current_y
    · rw [if_pos h, if_pos h, ih, Option.map_map, Option.map_map]
      rfl
    · rw [if_neg h, if_neg h]
      rfl

theorem CircleInv_init (R : Nat) (hR : 1 ≤ R) : CircleInv R (circleInit R) 0 := by
  refine ⟨?_, ?_, ?_, ?_, ?_⟩
  · simp only [circleInit]
    push_cast
    ring
  · simp only [circleInit]
    push_cast
    ring
  · exact le_refl _
  · intro _
    exact hR
  · intro _
    constructor <;> omega

/-- One iteration keeps the invariant: no 32-bit operation wraps, `current_x`
grows by one and `current_y` stays or drops by one. -/
theorem CircleInv_step (R : Nat) (hR : R ≤ 65535) (v : CircleVars) (e : Int)
    (h : CircleInv R v e) (hxy : v.current_x ≤ v.current_y) :
    (circleStep v).current_x = v.current_x + 1 ∧
    ((circleStep v).current_y = v.current_y ∨ (circleStep v).current_y + 1 = v.current_y) ∧
    ∃ e2, CircleInv R (circleStep v) e2 := by
  obtain ⟨he, hd, hy, hpos, herr⟩ := h
  have hy1 := hpos hxy
  obtain ⟨el, eu⟩ := herr hxy
  by_cases hneg : v.decision < 0
  · have hs : circleStep v =
        { decision := v.decision + (4 * (v.current_x : Int) + 6),
          current_x := v.current_x + 1, current_y := v.current_y } := by
      unfold circleStep
      rw [if_pos hneg]
      congr 1
      · unfold toInt32 toUInt32
        omega
      · unfold toUInt32
        omega
    rw [hs]
    refine ⟨rfl, Or.inl rfl, e + 2 * (v.current_x : Int) + 1, ?_, ?_, hy, ?_, ?_⟩
    · dsimp only
      rw [he]
      push_cast
      ring
    · dsimp only
      rw [hd]
      push_cast
      ring
    · intro _
      exact hy1
    · dsimp only
      intro hx
      constructor <;> omega
  · have hs : circleStep v =
        { decision := v.decision + (4 * ((v.current_x : Int) - (v.current_y : Int)) + 10),
          current_x := v.current_x + 1, current_y := v.current_y - 1 } := by
      unfold circleStep
      rw [if_neg hneg]
      congr 1
      · unfold toInt32 toUInt32
        omega
      · unfold toUInt32
        omega
      · unfold toUInt32
        omega
    rw [hs]
    refine ⟨rfl, Or.inr (by dsimp only; omega),
      e + 2 * (v.current_x : Int) - 2 * (v.current_y : Int) + 2, ?_, ?_, ?_, ?_, ?_⟩
    · dsimp only
      rw [he, Nat.cast_sub hy1]
      push_cast
      ring
    · dsimp only
      rw [hd, Nat.cast_sub hy1]
      push_cast
      ring
    · dsimp only
      omega
    · dsimp only
      intro _
      omega
    · dsimp only
      intro hx
      constructor <;> omega

/-- The loop of `LCD_DrawCircle` returns after at most `current_y + 1 - current_x`
iterations, each made at a point within `R` of the circle. -/
theorem circleStates_inv (R : Nat) (hR : R ≤ 65535) :
    ∀ (fuel : Nat) (v : CircleVars) (e : Int), CircleInv R v e →
      v.current_y + 1 - v.current_x < fuel →
      ∃ l, circleStates fuel v = some l ∧ l.length ≤ v.current_y + 1 - v.current_x ∧
        ∀ w ∈ l, w.current_x ≤ w.current_y ∧ w.current_y ≤ R ∧
          -(R : Int) ≤ (w.current_x : Int) * (w.current_x : Int) +
            (w.current_y : Int) * (w.current_y : Int) - (R : Int) * (R : Int) ∧
          (w.current_x : Int) * (w.current_x : Int) +
            (w.current_y : Int) * (w.current_y : Int) - (R : Int) * (R : Int) ≤ (R : Int) := by
  intro fuel
  induction fuel with
  | zero => intro v e _ h; omega
  | succ fuel ih =>
    intro v e hinv hf
    rw [circleStates]
    by_cases hxy : v.current_x ≤ v.current_y
    · rw [if_pos hxy]
      obtain ⟨hx, hy, e2, hinv2⟩ := CircleInv_step R hR v e hinv hxy
      obtain ⟨l, hl, hlen, hall⟩ := ih (circleStep v) e2 hinv2 (by omega)
      refine ⟨v :: l, by rw [hl]; rfl, ?_, ?_⟩
      · rw [List.length_cons]
        omega
      · intro w hw
        rcases List.mem_cons.1 hw with h | h
        · subst h
          have := hinv.err hxy
          rw [hinv.e_eq] at this
          exact ⟨hxy, hinv.y_le, this.1, this.2⟩
        · exact hall w h
    · rw [if_neg hxy]
      exact ⟨[], rfl, by simp, by simp⟩

/-- While `current_x` is far below `current_y` the loop cannot end: each
iteration moves them at most two closer. -/
theorem circleStates_none :
    ∀ (fuel : Nat) (v : CircleVars), v.current_y ≤ 4294967295 →
      v.current_x + 2 * fuel ≤ v.current_y + 1 → circleStates fuel v = none := by
  intro fuel
  induction fuel with
  | zero => intro v _ _; rfl
  | succ fuel ih =>
    intro v hy h
    rw [circleStates, if_pos (by omega)]
    have hx : (circleStep v).current_x = v.current_x + 1 := by
      unfold circleStep
      split <;> (dsimp only; unfold toUInt32; omega)
    have hy2 : (circleStep v).current_y = v.current_y ∨
        (circleStep v).current_y + 1 = v.current_y := by
      unfold circleStep
      split
      · exact Or.inl rfl
      · right
        dsimp only
        unfold toUInt32
        omega
    rw [ih (circleStep v) (by omega) (by omega)]
    rfl

/-- C26 fails on the code for `Radius = 0`: after the first iteration, which
emits the centre pixel eight times, `current_y--` wraps the `uint32_t` from 0 to
`4294967295`; the second iteration emits the eight pixels at offsets `(+-1, +-1)`
(for the centre `(100, 100)`), and the loop does not end within `2^31`
iterations. -/
theorem LCD_DrawCircle_radius_zero :
    circlePixels 100 100 (circleInit 0) =
      [(100, 100), (100, 100), (100, 100), (100, 100), (100, 100), (100, 100), (100, 100),
        (100, 100)] ∧
    circleStep (circleInit 0) = { decision := 13, current_x := 1, current_y := 4294967295 } ∧
    circlePixels 100 100 (circleStep (circleInit 0)) =
      [(101, 101), (99, 101), (99, 99), (101, 99), (101, 99), (99, 99), (99, 101), (101, 101)] ∧
    ∀ fuel : Nat, fuel ≤ 2147483648 → LCD_DrawCircle_calls fuel 100 100 0 = none := by
  refine ⟨by decide, by decide, by decide, ?_⟩
  intro fuel hf
  unfold LCD_DrawCircle_calls
  rw [circleLoop_eq_states]
  cases fuel with
  | zero => rfl
  | succ f =>
    have e : circleStep (circleInit 0) =
        { decision := 13, current_x := 1, current_y := 4294967295 } := by decide
    rw [circleStates, if_pos (by decide), e,
      circleStates_none f _ (by dsimp only; omega) (by dsimp only; omega)]
    rfl

/-- C27: for `1 <= R <= 65535` (`Radius` is a `uint16_t`), `LCD_DrawCircle` returns
after at most `R + 1` iterations, and every `(a, b) = (current_x, current_y)` at
which it emits its eight points satisfies `0 <= a <= b <= R` and
`-R <= a*a + b*b - R*R <= R`. -/
theorem LCD_DrawCircle_on_circle (fuel Xpos Ypos R : Nat) (hR1 : 1 ≤ R) (hR : R ≤ 65535)
    (hfuel : R + 1 < fuel) :
    ∃ l, circleStates fuel (circleInit R) = some l ∧
      LCD_DrawCircle_calls fuel Xpos Ypos R = some (l.flatMap (circlePixels Xpos Ypos)) ∧
      l.length ≤ R + 1 ∧
      ∀ w ∈ l, w.current_x ≤ w.current_y ∧ w.current_y ≤ R ∧
        -(R : Int) ≤ (w.current_x : Int) * (w.current_x : Int) +
          (w.current_y : Int) * (w.current_y : Int) - (R : Int) * (R : Int) ∧
        (w.current_x : Int) * (w.current_x : Int) +
          (w.current_y : Int) * (w.current_y : Int) - (R : Int) * (R : Int) ≤ (R : Int) := by
  obtain ⟨l, hl, hlen, hall⟩ := circleStates_inv R hR fuel (circleInit R) 0 (CircleInv_init R hR1)
    (by simp only [circleInit]; omega)
  refine ⟨l, hl, ?_, ?_, hall⟩
  · unfold LCD_DrawCircle_calls
    rw [circleLoop_eq_states, hl]
    rfl
  · simp only [circleInit] at hlen
    omega

theorem LCD_DrawCircle_on_circle_witness :
    ∃ l, circleStates 5 (circleInit 3) = some l ∧
      LCD_DrawCircle_calls 5 10 10 3 = some (l.flatMap (circlePixels 10 10)) ∧
      l.length ≤ 3 + 1 ∧
      ∀ w ∈ l, w.current_x ≤ w.current_y ∧ w.current_y ≤ 3 ∧
        -((3 : Nat) : Int) ≤ (w.current_x : Int) * (w.current_x : Int) +
          (w.current_y : Int) * (w.current_y : Int) - ((3 : Nat) : Int) * ((3 : Nat) : Int) ∧
        (w.current_x : Int) * (w.current_x : Int) +
          (w.current_y : Int) * (w.current_y : Int) - ((3 : Nat) : Int) * ((3 : Nat) : Int) ≤
            ((3 : Nat) : Int) :=
  LCD_DrawCircle_on_circle 5 10 10 3 (by decide) (by decide) (by decide)

/-! ## The invariant of the loop of `LCD_DrawFullCircle` -/

theorem FullInv_init (R : Nat) (hR : R ≤ 16383) : FullInv R (fullCircleInit R) := by
  have e : fullCircleInit R =
      { f := 1 - (R : Int), ddF_x := 1, ddF_y := -2 * (R : Int), x := 0, y := (R : Int) } := by
    unfold fullCircleInit
    rw [FullCircleVars.mk.injEq]
    refine ⟨?_, rfl, ?_, rfl, ?_⟩ <;> (unfold toInt16; omega)
  rw [e]
  refine ⟨?_, ?_, ?_, ?_, ?_, ?_, ?_, ?_, ?_⟩ <;> dsimp only
  · ring
  · ring
  · omega
  · omega
  · omega
  · omega
  · omega
  · intro _
    omega

/-- In an iteration that decrements `y`, `x` is at most 16381: the point
`(16382, 16383)` is excluded by the value of `f`. -/
theorem FullInv_x_small (R : Nat) (hR : R ≤ 16383) (v : FullCircleVars) (h : FullInv R v)
    (hxy : v.x < v.y) : v.x ≤ 16381 := by
  by_contra hc
  have hx : v.x = 16382 := by have := h.y_le; omega
  have hy : v.y = 16383 := by have := h.y_le; omega
  have hR2 : (R : Int) = 16383 := by have := h.y_le; omega
  have hf := h.f_eq
  have hh := h.f_hi hxy
  rw [hx, hy, hR2] at hf
  norm_num at hf
  omega

/-- One iteration keeps the invariant: no `int16_t` operation wraps. -/
theorem FullInv_step (R : Nat) (hR : R ≤ 16383) (v : FullCircleVars) (h : FullInv R v)
    (hxy : v.x < v.y) :
    FullInv R (fullCircleStep v) ∧ (fullCircleStep v).x = v.x + 1 ∧
      ((fullCircleStep v).y = v.y ∨ (fullCircleStep v).y = v.y - 1) := by
  have hxs := FullInv_x_small R hR v h hxy
  obtain ⟨hdx, hdy, hfe, hx0, hy0, hyle, hxy1, hflo, hfhi⟩ := h
  have hfh := hfhi hxy
  by_cases hf : v.f ≥ 0
  · have e : fullCircleStep v =
        { f := v.f + (v.ddF_y + 2) + (v.ddF_x + 2), ddF_x := v.ddF_x + 2,
          ddF_y := v.ddF_y + 2, x := v.x + 1, y := v.y - 1 } := by
      unfold fullCircleStep
      rw [if_pos hf]
      dsimp only
      rw [FullCircleVars.mk.injEq]
      refine ⟨?_, ?_, ?_, ?_, ?_⟩ <;> (unfold toInt16; omega)
    rw [e]
    refine ⟨⟨?_, ?_, ?_, ?_, ?_, ?_, ?_, ?_, ?_⟩, rfl, Or.inr rfl⟩ <;> dsimp only
    · omega
    · omega
    · rw [hfe, hdx, hdy]
      ring
    · omega
    · omega
    · omega
    · omega
    · omega
    · intro _
      omega
  · have e : fullCircleStep v =
        { f := v.f + (v.ddF_x + 2), ddF_x := v.ddF_x + 2, ddF_y := v.ddF_y, x := v.x + 1,
          y := v.y } := by
      unfold fullCircleStep
      rw [if_neg hf]
      dsimp only
      rw [FullCircleVars.mk.injEq]
      refine ⟨?_, ?_, ?_, ?_, ?_⟩ <;> first | rfl | (unfold toInt16; omega)
    rw [e]
    refine ⟨⟨?_, ?_, ?_, ?_, ?_, ?_, ?_, ?_, ?_⟩, rfl, Or.inl rfl⟩ <;> dsimp only
    · omega
    · omega
    · rw [hfe, hdx]
      ring
    · omega
    · omega
    · omega
    · omega
    · omega
    · intro _
      omega

/-- The loop of `LCD_DrawFullCircle` returns, and the invariant holds after
every iteration. -/
theorem fullCircleStates_FullInv (R : Nat) (hR : R ≤ 16383) :
    ∀ (fuel : Nat) (v : FullCircleVars), FullInv R v → (v.y - v.x).toNat < fuel →
      ∃ l, fullCircleStates fuel v = some l ∧ ∀ w ∈ l, FullInv R w := by
  intro fuel
  induction fuel with
  | zero => intro v _ h; omega
  | succ fuel ih =>
    intro v hv hf
    rw [fullCircleStates]
    by_cases hxy : v.x < v.y
    · rw [if_pos hxy]
      obtain ⟨hs, ex, ey⟩ := FullInv_step R hR v hv hxy
      obtain ⟨l, hl, hall⟩ := ih (fullCircleStep v) hs (by omega)
      refine ⟨fullCircleStep v :: l, by rw [hl]; rfl, ?_⟩
      intro w hw
      rcases List.mem_cons.1 hw with h | h
      · rw [h]; exact hs
      · exact hall w h
    · rw [if_neg hxy]
      exact ⟨[], rfl, by simp⟩

/-- C29: for every radius up to 16383 the loop of `LCD_DrawFullCircle` returns,
and the values of the locals before the first iteration and after each
iteration (that is, at the start of every iteration and on loop exit) satisfy
`ddF_x = 2*x + 1`, `ddF_y = -2*y` and
`f = x*x + y*y - radius*radius + 2*x - y + 1`, with `0 <= x` and `y <= radius`. -/
theorem LCD_DrawFullCircle_invariant (radius fuel : Nat) (hR : radius ≤ 16383)
    (hfuel : radius < fuel) :
    ∃ l, fullCircleStates fuel (fullCircleInit radius) = some l ∧
      ∀ v ∈ fullCircleInit radius :: l,
        v.ddF_x = 2 * v.x + 1 ∧ v.ddF_y = -2 * v.y ∧
        v.f = v.x * v.x + v.y * v.y - (radius : Int) * (radius : Int) + 2 * v.x - v.y + 1 ∧
        0 ≤ v.x ∧ v.y ≤ (radius : Int) := by
  have hi := FullInv_init radius hR
  obtain ⟨l, hl, hall⟩ := fullCircleStates_FullInv radius hR fuel (fullCircleInit radius) hi (by
    have e : (fullCircleInit radius).y = (radius : Int) := by
      unfold fullCircleInit toInt16
      dsimp only
      omega
    have e2 : (fullCircleInit radius).x = 0 := rfl
    rw [e, e2]
    omega)
  refine ⟨l, hl, ?_⟩
  intro v hv
  have hinv : FullInv radius v := by
    rcases List.mem_cons.1 hv with h | h
    · rw [h]; exact hi
    · exact hall v h
  exact ⟨hinv.ddx, hinv.ddy, hinv.f_eq, hinv.x0, hinv.y_le⟩

theorem LCD_DrawFullCircle_invariant_witness :
    ∃ l, fullCircleStates 10 (fullCircleInit 3) = some l ∧
      ∀ v ∈ fullCircleInit 3 :: l,
        v.ddF_x = 2 * v.x + 1 ∧ v.ddF_y = -2 * v.y ∧
        v.f = v.x * v.x + v.y * v.y - ((3 : Nat) : Int) * ((3 : Nat) : Int) + 2 * v.x - v.y + 1 ∧
        0 ≤ v.x ∧ v.y ≤ ((3 : Nat) : Int) :=
  LCD_DrawFullCircle_invariant 3 10 (by decide) (by decide)

/-! ## The loop of `LCD_DrawEllipse` and `LCD_FillEllipse` -/

theorem fillEllipseLoop_eq : ∀ (fuel : Nat) (v : EllipseVars),
    fillEllipseLoop fuel v = ellipseLoop fuel v := by
  intro fuel
  induction fuel with
  | zero => intro v; rfl
  | succ fuel ih =>
    intro v
    rw [fillEllipseLoop, ellipseLoop]
    have e : fillEllipseStep v = ellipseStep v := rfl
    rw [e, ih]

theorem EllInv_init (a b : Int) (ha : 1 ≤ a) (hb : 0 ≤ b) (hS : 2 * a + b * b ≤ 2147483647) :
    EllInv a b (ellipseInit a b) := by
  have hbb : 0 ≤ b * b := mul_self_nonneg b
  have hb2 : b ≤ b * b := by nlinarith
  have e : ellipseInit a b = { x := 0, y := -b, err := 2 - 2 * a } := by
    unfold ellipseInit
    rw [EllipseVars.mk.injEq]
    refine ⟨rfl, ?_, ?_⟩ <;> (unfold toInt32; omega)
  rw [e]
  refine ⟨?_, ?_, ?_, ?_, ?_, ?_⟩ <;> dsimp only
  · omega
  · omega
  · omega
  · ring
  · intro h
    omega
  · omega

/-- The `y` part of an iteration, for values that do not overflow. -/
theorem ellipseYStep_eq (v : EllipseVars) (e2 : Int) (h : e2 > v.y)
    (hy : -2147483648 ≤ v.y ∧ v.y ≤ 0)
    (he : -2147483648 ≤ v.err + (2 * (v.y + 1) + 1) ∧ v.err + (2 * (v.y + 1) + 1) ≤ 2147483647) :
    ellipseYStep v e2 = { x := v.x, y := v.y + 1, err := v.err + (2 * (v.y + 1) + 1) } := by
  unfold ellipseYStep
  rw [if_pos h]
  dsimp only
  rw [EllipseVars.mk.injEq]
  refine ⟨rfl, ?_, ?_⟩ <;> (unfold toInt32; omega)

/-- One iteration from a state that satisfies the invariant: `x` or `y` grows
by one, neither shrinks, and the invariant holds again if the loop goes on. -/
theorem EllInv_step (a b : Int) (ha : 1 ≤ a) (hb : 0 ≤ b) (hS : 2 * a + b * b ≤ 2147483647)
    (v : EllipseVars) (h : EllInv a b v) :
    ((ellipseStep v).x = v.x + 1 ∨ (ellipseStep v).y = v.y + 1) ∧
    v.x ≤ (ellipseStep v).x ∧ (ellipseStep v).x ≤ v.x + 1 ∧
    v.y ≤ (ellipseStep v).y ∧ (ellipseStep v).y ≤ v.y + 1 ∧
    ((ellipseStep v).y ≤ 0 → EllInv a b (ellipseStep v)) := by
  obtain ⟨hx0, hylo, hyhi, herr, htight, hhi, hhi2⟩ := h
  have hbb : 0 ≤ b * b := mul_self_nonneg b
  have hb2 : b ≤ b * b := by nlinarith
  have hxx : 0 ≤ v.x * v.x := mul_self_nonneg v.x
  have hy1 : 0 ≤ v.y * v.y + 2 * v.y + 1 := by nlinarith [mul_self_nonneg (v.y + 1)]
  have hy2 : 0 ≤ v.y * v.y + 4 * v.y + 4 := by nlinarith [mul_self_nonneg (v.y + 2)]
  have hx46 : v.x ≤ 46342 := by
    by_contra hc
    have h1 : (46342 : Int) ≤ v.x - 1 := by omega
    have h2 := mul_self_le_mul_self (by norm_num : (0 : Int) ≤ 46342) h1
    have h3 := htight (by omega)
    norm_num at h2
    omega
  have t1 : toInt32 (v.x + 1) = v.x + 1 := by unfold toInt32; omega
  have t2 : toInt32 (-v.y) = -v.y := by unfold toInt32; omega
  have t3 : toInt32 (v.err + toInt32 (toInt32 ((v.x + 1) * 2) + 1)) =
      v.err + (2 * (v.x + 1) + 1) := by unfold toInt32; omega
  have tight2 : (v.err ≤ v.x) → (v.x + 1 - 1) * (v.x + 1 - 1) + (v.x + 1 - 1) ≤ 2 * a + b * b := by
    intro hA
    have e : (v.x + 1 - 1) * (v.x + 1 - 1) + (v.x + 1 - 1) = v.x * v.x + v.x := by ring
    rw [e]
    omega
  by_cases hA : v.err ≤ v.x
  · have hboth : ∀ e2 : Int, e2 > v.y →
        ellipseYStep (EllipseVars.mk (v.x + 1) v.y (v.err + (2 * (v.x + 1) + 1))) e2 =
          EllipseVars.mk (v.x + 1) (v.y + 1)
            (v.err + (2 * (v.x + 1) + 1) + (2 * (v.y + 1) + 1)) := by
      intro e2 he2
      exact ellipseYStep_eq (EllipseVars.mk (v.x + 1) v.y (v.err + (2 * (v.x + 1) + 1))) e2 he2
        (by dsimp only; omega) (by dsimp only; omega)
    have goalBoth : ellipseStep v = EllipseVars.mk (v.x + 1) (v.y + 1)
          (v.err + (2 * (v.x + 1) + 1) + (2 * (v.y + 1) + 1)) →
        ((ellipseStep v).x = v.x + 1 ∨ (ellipseStep v).y = v.y + 1) ∧
        v.x ≤ (ellipseStep v).x ∧ (ellipseStep v).x ≤ v.x + 1 ∧
        v.y ≤ (ellipseStep v).y ∧ (ellipseStep v).y ≤ v.y + 1 ∧
        ((ellipseStep v).y ≤ 0 → EllInv a b (ellipseStep v)) := by
      intro hs
      rw [hs]
      dsimp only
      refine ⟨Or.inl rfl, by omega, by omega, by omega, by omega, ?_⟩
      intro hy
      refine ⟨?_, ?_, ?_, ?_, ?_, ?_⟩ <;> dsimp only
      · omega
      · omega
      · omega
      · rw [herr]
        ring
      · intro _
        exact tight2 hA
      · omega
    by_cases hreset : -v.y = v.x + 1 ∧ v.err ≤ v.y
    · apply goalBoth
      rw [ellipseStep, if_pos hA]
      dsimp only
      rw [t1, t2, t3, if_pos hreset]
      exact hboth 0 (by omega)
    · by_cases hY : v.err > v.y
      · apply goalBoth
        rw [ellipseStep, if_pos hA]
        dsimp only
        rw [t1, t2, t3, if_neg hreset]
        exact hboth v.err hY
      · have hs : ellipseStep v =
            { x := v.x + 1, y := v.y, err := v.err + (2 * (v.x + 1) + 1) } := by
          rw [ellipseStep, if_pos hA]
          dsimp only
          rw [t1, t2, t3, if_neg hreset]
          unfold ellipseYStep
          rw [if_neg hY]
        rw [hs]
        dsimp only
        refine ⟨Or.inl rfl, by omega, by omega, by omega, by omega, ?_⟩
        intro _
        refine ⟨?_, ?_, ?_, ?_, ?_, ?_⟩ <;> dsimp only
        · omega
        · omega
        · omega
        · rw [herr]
          ring
        · intro _
          exact tight2 hA
        · omega
  · have hs : ellipseStep v = { x := v.x, y := v.y + 1, err := v.err + (2 * (v.y + 1) + 1) } := by
      rw [ellipseStep, if_neg hA]
      exact ellipseYStep_eq v v.err (by omega) (by omega) (by omega)
    rw [hs]
    dsimp only
    refine ⟨Or.inr rfl, by omega, by omega, by omega, by omega, ?_⟩
    intro hy
    refine ⟨?_, ?_, ?_, ?_, ?_, ?_⟩ <;> dsimp only
    · omega
    · omega
    · omega
    · rw [herr]
      ring
    · exact htight
    · omega

/-- The loop returns from every state that satisfies the invariant: the sum
`x + y` grows in each iteration and is bounded while the loop runs. -/
theorem ellipseLoop_inv (a b : Int) (ha : 1 ≤ a) (hb : 0 ≤ b)
    (hS : 2 * a + b * b ≤ 2147483647) :
    ∀ (fuel : Nat) (v : EllipseVars), EllInv a b v →
      (2 * a + b * b + 2 - v.x - v.y).toNat < fuel →
      ∃ l, ellipseLoop fuel v = some l ∧ l.head? = some v ∧ (∀ u ∈ l, EllInv a b u) ∧
        ∀ (k : Nat) (u w : EllipseVars), l[k]? = some u → l[k + 1]? = some w →
          w = ellipseStep u := by
  intro fuel
  induction fuel with
  | zero => intro v _ h; omega
  | succ fuel ih =>
    intro v hv hf
    obtain ⟨hinc, hx1, hx2, hy1, hy2, hnext⟩ := EllInv_step a b ha hb hS v hv
    have hxm : 0 ≤ (v.x - 1) * (v.x - 1) := mul_self_nonneg _
    have hxS : v.x ≤ 2 * a + b * b + 1 := by
      by_cases h1 : 1 ≤ v.x
      · have := hv.x_tight h1
        omega
      · have := mul_self_nonneg b
        omega
    have hyv := hv.y_hi
    rw [ellipseLoop]
    by_cases hc : (ellipseStep v).y ≤ 0
    · rw [if_pos hc]
      obtain ⟨l, hl, hhead, hall, hchain⟩ := ih (ellipseStep v) (hnext hc) (by omega)
      refine ⟨v :: l, by rw [hl]; rfl, rfl, ?_, ?_⟩
      · intro u hu
        rcases List.mem_cons.1 hu with h | h
        · rw [h]; exact hv
        · exact hall u h
      · intro k u w hu hw
        cases k with
        | zero =>
          simp only [List.getElem?_cons_zero, Option.some.injEq] at hu
          simp only [zero_add, List.getElem?_cons_succ] at hw
          subst hu
          cases l with
          | nil => simp at hw
          | cons c l =>
            simp only [List.head?_cons, Option.some.injEq] at hhead
            simp only [List.getElem?_cons_zero, Option.some.injEq] at hw
            rw [← hw, hhead]
        | succ k =>
          simp only [List.getElem?_cons_succ] at hu hw
          exact hchain k u w hu hw
    · rw [if_neg hc]
      refine ⟨[v], rfl, rfl, ?_, ?_⟩
      · intro u hu
        rw [List.mem_singleton] at hu
        rw [hu]; exact hv
      · intro k u w _ hw
        simp at hw

/-- C30: for `XRadius >= 1`, `YRadius >= 0` and `2*XRadius + YRadius^2 <= 2^31 - 1`
(no `int` operation of the loop then overflows), the do-while loop of
`LCD_DrawEllipse` and that of `LCD_FillEllipse` return, with the same sequence
of values of `x`, `y`, `err` at which they draw, starting from `x = 0`,
`y = -YRadius`, `err = 2 - 2*XRadius`.  At every drawing `-YRadius <= y <= 0` and
`x >= 0`; every iteration adds one to `x` or to `y` (or both) and decreases
neither, and each drawing state is the result of the iteration on the one
before. -/
theorem ellipse_loop_terminates (XRadius YRadius : Int) (fuel : Nat) (hX : 1 ≤ XRadius)
    (hY : 0 ≤ YRadius) (hS : 2 * XRadius + YRadius * YRadius ≤ 2147483647)
    (hfuel : (2 * XRadius + YRadius * YRadius + YRadius + 2).toNat < fuel) :
    ∃ l, LCD_DrawEllipse_states fuel XRadius YRadius = some l ∧
      LCD_FillEllipse_states fuel XRadius YRadius = some l ∧
      l.head? = some { x := 0, y := -YRadius, err := 2 - 2 * XRadius } ∧
      (∀ v ∈ l, -YRadius ≤ v.y ∧ v.y ≤ 0 ∧ 0 ≤ v.x) ∧
      (∀ v ∈ l, ((ellipseStep v).x = v.x + 1 ∨ (ellipseStep v).y = v.y + 1) ∧
        v.x ≤ (ellipseStep v).x ∧ (ellipseStep v).x ≤ v.x + 1 ∧
        v.y ≤ (ellipseStep v).y ∧ (ellipseStep v).y ≤ v.y + 1) ∧
      ∀ (k : Nat) (u w : EllipseVars), l[k]? = some u → l[k + 1]? = some w →
        w = ellipseStep u := by
  have hi := EllInv_init XRadius YRadius hX hY hS
  have hbb : 0 ≤ YRadius * YRadius := mul_self_nonneg YRadius
  have hb2 : YRadius ≤ YRadius * YRadius := by nlinarith
  have e : ellipseInit XRadius YRadius = { x := 0, y := -YRadius, err := 2 - 2 * XRadius } := by
    unfold ellipseInit
    rw [EllipseVars.mk.injEq]
    refine ⟨rfl, ?_, ?_⟩ <;> (unfold toInt32; omega)
  obtain ⟨l, hl, hhead, hall, hchain⟩ := ellipseLoop_inv XRadius YRadius hX hY hS fuel
    (ellipseInit XRadius YRadius) hi (by rw [e]; dsimp only; omega)
  refine ⟨l, hl, ?_, by rw [hhead, e], ?_, ?_, hchain⟩
  · unfold LCD_FillEllipse_states
    rw [fillEllipseLoop_eq]
    exact hl
  · intro v hv
    have := hall v hv
    exact ⟨this.y_lo, this.y_hi, this.x0⟩
  · intro v hv
    obtain ⟨h1, h2, h3, h4, h5, _⟩ := EllInv_step XRadius YRadius hX hY hS v (hall v hv)
    exact ⟨h1, h2, h3, h4, h5⟩

theorem ellipse_loop_terminates_witness :
    ∃ l, LCD_DrawEllipse_states 20 3 2 = some l ∧
      LCD_FillEllipse_states 20 3 2 = some l ∧
      l.head? = some { x := 0, y := -2, err := 2 - 2 * 3 } ∧
      (∀ v ∈ l, -2 ≤ v.y ∧ v.y ≤ 0 ∧ 0 ≤ v.x) ∧
      (∀ v ∈ l, ((ellipseStep v).x = v.x + 1 ∨ (ellipseStep v).y = v.y + 1) ∧
        v.x ≤ (ellipseStep v).x ∧ (ellipseStep v).x ≤ v.x + 1 ∧
        v.y ≤ (ellipseStep v).y ∧ (ellipseStep v).y ≤ v.y + 1) ∧
      ∀ (k : Nat) (u w : EllipseVars), l[k]? = some u → l[k + 1]? = some w →
        w = ellipseStep u :=
  ellipse_loop_terminates 3 2 20 (by decide) (by decide) (by decide) (by decide)

/-! ## The number of characters `LCD_DisplayStringAt` draws -/

/-- The display loop started with counter `i` draws the remaining characters up
to the `(XSize / Width)`-th of the text. -/
theorem displayLoop_length (s : LCD) (Ypos : Nat)
    (hW : 1 ≤ (s.DrawProp s.ActiveLayer).pFont.Width) (hX : LCD_GetXSize s < 65536) :
    ∀ (Text : List Nat) (i ref : Nat),
      i * (s.DrawProp s.ActiveLayer).pFont.Width ≤ LCD_GetXSize s →
      (displayLoop s Ypos Text i ref).length =
        min Text.length (LCD_GetXSize s / (s.DrawProp s.ActiveLayer).pFont.Width - i) := by
  intro Text
  induction Text with
  | nil => intro i ref _; simp [displayLoop]
  | cons ch rest ih =>
    intro i ref hi
    have hcast : (i : Int) * ((s.DrawProp s.ActiveLayer).pFont.Width : Int) =
        ((i * (s.DrawProp s.ActiveLayer).pFont.Width : Nat) : Int) := by push_cast; ring
    have hsucc : (i + 1) * (s.DrawProp s.ActiveLayer).pFont.Width =
        i * (s.DrawProp s.ActiveLayer).pFont.Width + (s.DrawProp s.ActiveLayer).pFont.Width := by
      ring
    have hile : i ≤ i * (s.DrawProp s.ActiveLayer).pFont.Width := Nat.le_mul_of_pos_right i hW
    have hdiv : ∀ j, j ≤ LCD_GetXSize s / (s.DrawProp s.ActiveLayer).pFont.Width ↔
        j * (s.DrawProp s.ActiveLayer).pFont.Width ≤ LCD_GetXSize s :=
      fun j => Nat.le_div_iff_mul_le (by omega)
    have hiq := (hdiv i).2 hi
    rw [displayLoop]
    by_cases hc : toUInt16 ((LCD_GetXSize s : Int) -
        (i : Int) * ((s.DrawProp s.ActiveLayer).pFont.Width : Int)) ≥
        (s.DrawProp s.ActiveLayer).pFont.Width
    · rw [if_pos hc]
      have hnext : (i + 1) * (s.DrawProp s.ActiveLayer).pFont.Width ≤ LCD_GetXSize s := by
        rw [hcast] at hc
        unfold toUInt16 at hc
        omega
      have hq := (hdiv (i + 1)).2 hnext
      have hi1 : (i + 1) % 65536 = i + 1 := by omega
      rw [List.length_cons, hi1, ih (i + 1) _ hnext, List.length_cons]
      omega
    · rw [if_neg hc]
      have hnext : ¬ ((i + 1) * (s.DrawProp s.ActiveLayer).pFont.Width ≤ LCD_GetXSize s) := by
        intro h
        apply hc
        rw [hcast]
        unfold toUInt16
        omega
      have hq : ¬ (i + 1 ≤ LCD_GetXSize s / (s.DrawProp s.ActiveLayer).pFont.Width) :=
        fun h => hnext ((hdiv (i + 1)).1 h)
      rw [List.length_nil, List.length_cons]
      omega

/-- C31: for a font of width `W >= 1` on a surface with `XSize < 65536`,
`LCD_DisplayStringAt` draws exactly `min(n, XSize / W)` characters of a text of
length `n`; the `k`-th call is for character `k` of the text, on row `Ypos`, at
column `ref_column + k*W` (mod `2^16`), where `ref_column` is the start column
`startColumn`; the number of calls is the same for every `Xpos`, `Ypos` and
alignment mode. -/
theorem LCD_DisplayStringAt_count (s : LCD) (Xpos Ypos : Nat) (Text : List Nat)
    (Mode : Text_AlignModeTypdef) (hW : 1 ≤ (s.DrawProp s.ActiveLayer).pFont.Width)
    (hX : LCD_GetXSize s < 65536) :
    (LCD_DisplayStringAt_calls s Xpos Ypos Text Mode).length =
      min Text.length (LCD_GetXSize s / (s.DrawProp s.ActiveLayer).pFont.Width) ∧
    (∀ k, k < min Text.length (LCD_GetXSize s / (s.DrawProp s.ActiveLayer).pFont.Width) →
      ∃ ch, Text[k]? = some ch ∧
        (LCD_DisplayStringAt_calls s Xpos Ypos Text Mode)[k]? =
          some ((startColumn s Xpos Text.length Mode +
            k * (s.DrawProp s.ActiveLayer).pFont.Width) % 65536, Ypos, ch)) ∧
    (∀ (Xpos2 Ypos2 : Nat) (Mode2 : Text_AlignModeTypdef),
      (LCD_DisplayStringAt_calls s Xpos2 Ypos2 Text Mode2).length =
        (LCD_DisplayStringAt_calls s Xpos Ypos Text Mode).length) := by
  have hlen : ∀ (x y : Nat) (m : Text_AlignModeTypdef),
      (LCD_DisplayStringAt_calls s x y Text m).length =
        min Text.length (LCD_GetXSize s / (s.DrawProp s.ActiveLayer).pFont.Width) := by
    intro x y m
    unfold LCD_DisplayStringAt_calls
    rw [displayLoop_length s y hW hX Text 0 _ (by omega)]
    rfl
  refine ⟨hlen Xpos Ypos Mode, ?_, fun x y m => by rw [hlen x y m, hlen Xpos Ypos Mode]⟩
  intro k hk
  have hk2 : k < (LCD_DisplayStringAt_calls s Xpos Ypos Text Mode).length := by
    rw [hlen Xpos Ypos Mode]; exact hk
  obtain ⟨call, hcall⟩ : ∃ call, (LCD_DisplayStringAt_calls s Xpos Ypos Text Mode)[k]? =
      some call := ⟨_, List.getElem?_eq_getElem hk2⟩
  have hr := startColumn_range s Xpos Text.length Mode
  obtain ⟨_, h1, h2, h3⟩ := displayLoop_get s Ypos hW Text 0 _ k call (by omega) (by omega) hcall
  refine ⟨call.2.2, h3, ?_⟩
  rw [hcall, ← h1, ← h2]

theorem LCD_DisplayStringAt_count_witness :
    (LCD_DisplayStringAt_calls (sampleTextLCD 17 24 []) 790 5 [65, 66, 67]
        Text_AlignModeTypdef.RIGHT_MODE).length =
      min [65, 66, 67].length (LCD_GetXSize (sampleTextLCD 17 24 []) /
        ((sampleTextLCD 17 24 []).DrawProp (sampleTextLCD 17 24 []).ActiveLayer).pFont.Width) ∧
    (∀ k, k < min [65, 66, 67].length (LCD_GetXSize (sampleTextLCD 17 24 []) /
        ((sampleTextLCD 17 24 []).DrawProp (sampleTextLCD 17 24 []).ActiveLayer).pFont.Width) →
      ∃ ch, [65, 66, 67][k]? = some ch ∧
        (LCD_DisplayStringAt_calls (sampleTextLCD 17 24 []) 790 5 [65, 66, 67]
            Text_AlignModeTypdef.RIGHT_MODE)[k]? =
          some ((startColumn (sampleTextLCD 17 24 []) 790 [65, 66, 67].length
              Text_AlignModeTypdef.RIGHT_MODE +
            k * ((sampleTextLCD 17 24 []).DrawProp
              (sampleTextLCD 17 24 []).ActiveLayer).pFont.Width) % 65536, 5, ch)) ∧
    (∀ (Xpos2 Ypos2 : Nat) (Mode2 : Text_AlignModeTypdef),
      (LCD_DisplayStringAt_calls (sampleTextLCD 17 24 []) Xpos2 Ypos2 [65, 66, 67] Mode2).length =
        (LCD_DisplayStringAt_calls (sampleTextLCD 17 24 []) 790 5 [65, 66, 67]
          Text_AlignModeTypdef.RIGHT_MODE).length) :=
  LCD_DisplayStringAt_count (sampleTextLCD 17 24 []) 790 5 [65, 66, 67]
    Text_AlignModeTypdef.RIGHT_MODE (by decide) (by decide)

/-! ## The start column in `LEFT_MODE` -/

/-- C32 (amended): for a non-empty text and a font of width `W` with
`1 <= W <= XSize mod 2^16` (so that a character is drawn), `LCD_DisplayStringAt`
in `LEFT_MODE` draws its first character on row `Ypos` at column `Xpos` when
`1 <= Xpos < 0x8000`, and at column 1 when `Xpos = 0` or `Xpos >= 0x8000`; so
`LCD_DisplayStringAtLine(Line, text)`, which passes `Xpos = 0`, draws its first
character at column 1 of row `LINE(Line)` (mod `2^16`), that is row
`Line * font height` when `LINE(x)` is `x` times the height of the active font. -/
theorem LCD_DisplayStringAt_left (LINE : Nat → Nat) (s : LCD) (Xpos Ypos Line ch : Nat)
    (rest : List Nat) (hW : 1 ≤ (s.DrawProp s.ActiveLayer).pFont.Width)
    (hfirst : (s.DrawProp s.ActiveLayer).pFont.Width ≤ LCD_GetXSize s % 65536)
    (hXpos : Xpos < 65536) :
    (∃ tail, LCD_DisplayStringAt_calls s Xpos Ypos (ch :: rest) Text_AlignModeTypdef.LEFT_MODE =
      ((if 1 ≤ Xpos ∧ Xpos < 32768 then Xpos else 1), Ypos, ch) :: tail) ∧
    (∃ tail, LCD_DisplayStringAtLine_calls LINE s Line (ch :: rest) =
      (1, LINE Line % 65536, ch) :: tail) ∧
    ((∀ x, LINE x = x * (LCD_GetFont s).Height) →
      ∃ tail, LCD_DisplayStringAtLine_calls LINE s Line (ch :: rest) =
        (1, (Line * (LCD_GetFont s).Height) % 65536, ch) :: tail) := by
  have hc : toUInt16 ((LCD_GetXSize s : Int) -
      ((0 : Nat) : Int) * ((s.DrawProp s.ActiveLayer).pFont.Width : Int)) ≥
      (s.DrawProp s.ActiveLayer).pFont.Width := by
    unfold toUInt16
    simp only [Nat.cast_zero, zero_mul, sub_zero]
    omega
  have hgen : ∀ (x y : Nat), ∃ tail,
      LCD_DisplayStringAt_calls s x y (ch :: rest) Text_AlignModeTypdef.LEFT_MODE =
        (startColumn s x (ch :: rest).length Text_AlignModeTypdef.LEFT_MODE, y, ch) :: tail := by
    intro x y
    unfold LCD_DisplayStringAt_calls
    rw [displayLoop, if_pos hc]
    exact ⟨_, rfl⟩
  have hcol : startColumn s Xpos (ch :: rest).length Text_AlignModeTypdef.LEFT_MODE =
      if 1 ≤ Xpos ∧ Xpos < 32768 then Xpos else 1 := by
    unfold startColumn
    dsimp only
    rw [Nat.mod_eq_of_lt hXpos]
    have _ := hW
    split <;> split <;> omega
  have hzero : startColumn s 0 (ch :: rest).length Text_AlignModeTypdef.LEFT_MODE = 1 := by
    unfold startColumn
    dsimp only
    rw [if_pos (by omega)]
  have hline : ∃ tail, LCD_DisplayStringAtLine_calls LINE s Line (ch :: rest) =
      (1, LINE Line % 65536, ch) :: tail := by
    obtain ⟨tail, ht⟩ := hgen 0 (LINE Line % 65536)
    rw [hzero] at ht
    exact ⟨tail, ht⟩
  refine ⟨?_, hline, ?_⟩
  · obtain ⟨tail, ht⟩ := hgen Xpos Ypos
    rw [hcol] at ht
    exact ⟨tail, ht⟩
  · intro hL
    rw [← hL Line]
    exact hline

theorem LCD_DisplayStringAt_left_witness :
    (∃ tail, LCD_DisplayStringAt_calls (sampleTextLCD 16 24 []) 7 5 (65 :: [66])
        Text_AlignModeTypdef.LEFT_MODE =
      ((if 1 ≤ 7 ∧ 7 < 32768 then 7 else 1), 5, 65) :: tail) ∧
    (∃ tail, LCD_DisplayStringAtLine_calls (fun x => x * 24) (sampleTextLCD 16 24 []) 3
        (65 :: [66]) = (1, (fun x => x * 24) 3 % 65536, 65) :: tail) ∧
    ((∀ x, (fun x => x * 24) x = x * (LCD_GetFont (sampleTextLCD 16 24 [])).Height) →
      ∃ tail, LCD_DisplayStringAtLine_calls (fun x => x * 24) (sampleTextLCD 16 24 []) 3
          (65 :: [66]) =
        (1, (3 * (LCD_GetFont (sampleTextLCD 16 24 [])).Height) % 65536, 65) :: tail) :=
  LCD_DisplayStringAt_left (fun x => x * 24) (sampleTextLCD 16 24 []) 7 5 3 65 [66]
    (by decide) (by decide) (by decide)

/-- C32 as stated fails: with a font 16 pixels wide on a surface 800 pixels
wide, `LCD_DisplayStringAt(0, 5, "A", LEFT_MODE)` draws its character at column 1,
not at column `Xpos = 0`, and `LCD_DisplayStringAtLine(3, "AB")` with a font 24
pixels high draws its first character at column 1 of row 72. -/
theorem LCD_DisplayStringAt_left_counterexample :
    LCD_DisplayStringAt_calls (sampleTextLCD 16 24 []) 0 5 [65]
        Text_AlignModeTypdef.LEFT_MODE = [(1, 5, 65)] ∧
    LCD_DisplayStringAtLine_calls (fun x => x * 24) (sampleTextLCD 16 24 []) 3 [65, 66] =
      [(1, 72, 65), (17, 72, 66)] := by
  decide

end STM32PLC
